import Mathlib

/-!
# Verification of the abc-music-manager library scanner and parser

Shallow embedding of the core subsystem of the `abc_music_manager`
repository: the ABC text metadata parser (`parsing/abc_parser.py`), the
path classifier and scan orchestrator (`scanning/scanner.py`), and the
song/instrument repositories (`db/song_repo.py`, `db/instrument.py`),
together with theorems settling the specification's claims about them.

Modelling conventions:
* Python strings are Lean `String`s; `str.strip()` is `String.trim` and
  `str.lower()` is `String.toLower` (both exact on ASCII, which is also
  the range where SQLite's `TRIM`/`LOWER` and Python agree).
* Filesystem paths are lists of path segments, taken to be already
  absolute and symlink-resolved: `Path.resolve()` is the identity and
  `Path.relative_to` succeeds exactly on segment-wise prefixes.
* The SQLite store is a record of lists of rows, one list per table, in
  rowid order; `fetchone` on a `SELECT ... WHERE` is `List.find?`,
  `fetchall` keeps table order, and fresh `INTEGER PRIMARY KEY` values
  come from per-table counters that stay strictly above every live id.
* Machine clocks: each scan run carries one `now : String` timestamp
  standing for `datetime.now(timezone.utc).isoformat()` at that run.
-/

namespace AbcMusicManager

/-! ## Text metadata parser (`parsing/abc_parser.py`) -/

/-- One part from ABC: part number, optional name, optional made-for hint
(`PartInfo` in `abc_parser.py`). -/
structure PartInfo where
  partNumber : Nat
  partName : Option String
  madeFor : Option String
deriving DecidableEq, Repr

/-- Parsed song metadata and parts (`ParsedSong` in `abc_parser.py`). -/
structure ParsedSong where
  title : String
  composers : String
  durationSeconds : Option Int := none
  transcriber : Option String := none
  exportTimestamp : Option String := none
  parts : List PartInfo := []
deriving DecidableEq, Repr

/-- Lowercase ASCII letter, the character class `[a-z]` of the Maestro
tag regular expression. -/
def isLowerAZ (c : Char) : Bool :=
  'a' ≤ c && c ≤ 'z'

/-- The ASCII whitespace characters stripped by Python's `str.strip()`
(its further Unicode whitespace is outside this model's alphabet). -/
def isPySpace (c : Char) : Bool :=
  c = ' ' ∨ c = '\t' ∨ c = '\n' ∨ c = '\r' ∨ c = '\x0b' ∨ c = '\x0c'

/-- Strip leading and trailing whitespace from a character list. -/
def trimChars (l : List Char) : List Char :=
  ((l.dropWhile isPySpace).reverse.dropWhile isPySpace).reverse

/-- Python `str.strip()`. -/
def pyStrip (s : String) : String :=
  String.mk (trimChars s.data)

/-- ASCII lowercase of one character (Python `str.lower()` and SQLite
`LOWER` agree on this range). -/
def lowerChar (c : Char) : Char :=
  if 'A' ≤ c ∧ c ≤ 'Z' then Char.ofNat (c.toNat + 32) else c

/-- Python `str.lower()` on ASCII input. -/
def pyLower (s : String) : String :=
  String.mk (s.data.map lowerChar)

/-- Drop the first `n` characters (Python slicing `s[n:]`). -/
def strDrop (s : String) (n : Nat) : String :=
  String.mk (s.data.drop n)

/-- Split a character list on a separator character, keeping empty
chunks (Python `str.split(sep)` with a one-character separator). -/
def splitOnChar (sep : Char) : List Char → List (List Char)
  | [] => [[]]
  | c :: cs =>
    match splitOnChar sep cs with
    | [] => [[]]
    | g :: gs => if c = sep then [] :: g :: gs else (c :: g) :: gs

/-- Python `str.split(sep)` for a one-character separator. -/
def strSplitOnChar (s : String) (sep : Char) : List String :=
  (splitOnChar sep s.data).map String.mk

/-- Greedily consume the `(?:-[a-z]+)*` continuation of a Maestro tag
name; returns the consumed characters and the rest. Fuelled by the input
length (each step consumes at least one character, so the fuel used at
the call site is always sufficient and behaviour is exact). -/
def tagNameExt : Nat → List Char → List Char × List Char
  | 0, l => ([], l)
  | _, [] => ([], [])
  | fuel + 1, c :: cs =>
    if c = '-' ∧ cs.takeWhile isLowerAZ ≠ [] then
      let seg := cs.takeWhile isLowerAZ
      let (more, rest) := tagNameExt fuel (cs.dropWhile isLowerAZ)
      (c :: seg ++ more, rest)
    else
      ([], c :: cs)

/-- Python `str.startswith`, stated on the underlying character lists so
that prefix facts are available to proofs. -/
def strStartsWith (s p : String) : Bool :=
  p.data.isPrefixOf s.data

/-- Match of the Maestro tag pattern `^%%([a-z]+(?:-[a-z]+)*)\s*(.*)$`
against an (already stripped) line: returns the tag name as stored (after
`.strip().lower()`, a no-op on the matched class) and the trimmed value. -/
def maestroMatch (s : String) : Option (String × String) :=
  if strStartsWith s "%%" then
    let rest := (strDrop s 2).data
    let seg1 := rest.takeWhile isLowerAZ
    if seg1 = [] then none
    else
      let (more, rest') := tagNameExt (rest.dropWhile isLowerAZ).length
        (rest.dropWhile isLowerAZ)
      let name := String.mk (seg1 ++ more)
      some (pyLower (pyStrip name), pyStrip (String.mk rest'))
  else none

/-- Accumulator of `_parse_headers`: the Maestro tag dict plus the first
`T:`, `C:` and `Z:` header values seen so far. -/
structure HeaderAcc where
  maestro : String → Option String
  firstT : Option String
  firstC : Option String
  firstZ : Option String

/-- The empty header accumulator. -/
def HeaderAcc.empty : HeaderAcc :=
  ⟨fun _ => none, none, none, none⟩

/-- Process one line of `_parse_headers`' loop. -/
def headerLine (acc : HeaderAcc) (line : String) : HeaderAcc :=
  let ls := pyStrip line
  if ls = "" then acc
  else
    match maestroMatch ls with
    | some (k, v) =>
      { acc with maestro := fun k' => if k' = k then some v else acc.maestro k' }
    | none =>
      if strStartsWith ls "T:" ∧ acc.firstT = none then
        { acc with firstT := some (pyStrip (strDrop ls 2)) }
      else if strStartsWith ls "C:" ∧ acc.firstC = none then
        { acc with firstC := some (pyStrip (strDrop ls 2)) }
      else if strStartsWith ls "Z:" ∧ acc.firstZ = none then
        { acc with firstZ := some (pyStrip (strDrop ls 2)) }
      else acc

/-- `_parse_headers`' loop over a list of lines. -/
def parseHeaderLines (ls : List String) (acc : HeaderAcc) : HeaderAcc :=
  match ls with
  | [] => acc
  | l :: rest => parseHeaderLines rest (headerLine acc l)

/-- Python `splitlines` restricted to `\n` separators, the only line
terminator exercised by this code base's inputs. -/
def splitLines (content : String) : List String :=
  strSplitOnChar content '\n'

/-- `_parse_headers content`: Maestro dict and first `T:`/`C:`/`Z:`
values (missing firsts collapse to `""` as in the Python return). -/
def parseHeaders (content : String) : HeaderAcc :=
  parseHeaderLines (splitLines content) HeaderAcc.empty

/-- `_get_maestro_value`: look the key up; a missing or empty raw value
gives `None`, otherwise the stripped value. -/
def getMaestroValue (m : String → Option String) (key : String) : Option String :=
  match m key with
  | some v => if v = "" then none else some (pyStrip v)
  | none => none

/-- Python `int()` digit-run parser: one or more ASCII digits with single
underscores allowed between digits. -/
def pyDigits : List Char → Option Nat
  | [] => none
  | c :: cs =>
    if c.isDigit then
      let rec go (acc : Nat) : List Char → Option Nat
        | [] => some acc
        | d :: ds =>
          if d.isDigit then go (acc * 10 + (d.toNat - 48)) ds
          else if d = '_' then
            match ds with
            | e :: es => if e.isDigit then go (acc * 10 + (e.toNat - 48)) es else none
            | [] => none
          else none
      go (c.toNat - 48) cs
    else none

/-- Python `int(s)` on ASCII input: strip, optional sign, digit run. -/
def pyInt (s : String) : Option Int :=
  let t := pyStrip s
  match t.data with
  | '+' :: cs => (pyDigits cs).map (Int.ofNat ·)
  | '-' :: cs => (pyDigits cs).map (fun n => -(Int.ofNat n))
  | cs => (pyDigits cs).map (Int.ofNat ·)

/-- `_parse_mm_ss`: convert `mm:ss` to total seconds, `none` if
unparseable. -/
def parseMmSs (value : String) : Option Int :=
  let v := pyStrip value
  if v = "" then none
  else
    let parts := strSplitOnChar v ':'
    match parts with
    | [a, b] =>
      match pyInt (pyStrip a), pyInt (pyStrip b) with
      | some m, some s =>
        if 0 ≤ m ∧ 0 ≤ s ∧ s < 60 then some (m * 60 + s) else none
      | _, _ => none
    | _ => none

/-- Match of the part-index pattern `^X:\s*(\d+)` (case-insensitive on
the marker letter) against a stripped line. -/
def xMatch (s : String) : Option Nat :=
  match s.data with
  | c :: ':' :: rest =>
    if c = 'X' ∨ c = 'x' then
      let ds := (rest.dropWhile isPySpace).takeWhile (fun c => c.isDigit)
      match ds with
      | [] => none
      | _ => some (ds.foldl (fun a d => a * 10 + (d.toNat - 48)) 0)
    else none
  | _ => none

/-- Scan one part block (the lines strictly between two `X:` markers) for
its last `%%part-name` and `%%made-for` values. -/
def partBlock (n : Nat) (blk : List String) : PartInfo :=
  let (pn, mf) := blk.foldl
    (fun (acc : Option String × Option String) l =>
      match maestroMatch (pyStrip l) with
      | some (k, v) =>
        if k = "part-name" then ((if v = "" then none else some v), acc.2)
        else if k = "made-for" then (acc.1, (if v = "" then none else some v))
        else acc
      | none => acc)
    (none, none)
  ⟨n, pn, mf⟩

/-- `_parse_parts`' outer loop, fuelled by the number of lines (the fuel
is always sufficient, so behaviour is exact). -/
def partsAux : Nat → List String → List PartInfo
  | 0, _ => []
  | _, [] => []
  | fuel + 1, l :: rest =>
    match xMatch (pyStrip l) with
    | some n =>
      let blk := rest.takeWhile (fun l2 => (xMatch (pyStrip l2)).isNone)
      let rest' := rest.dropWhile (fun l2 => (xMatch (pyStrip l2)).isNone)
      partBlock n blk :: partsAux fuel rest'
    | none => partsAux fuel rest

/-- `_parse_parts content`. -/
def parseParts (content : String) : List PartInfo :=
  partsAux (splitLines content).length (splitLines content)

/-- Python falsy-string fallback `a or b`. -/
def pyOr (a b : String) : String :=
  if a = "" then b else a

/-- `parse_abc_content(content, filename=...)`. -/
def parseAbcContent (content : String) (filename : Option String := none) : ParsedSong :=
  let acc := parseHeaders content
  let maestro := acc.maestro
  let firstT := (acc.firstT).getD ""
  let firstC := (acc.firstC).getD ""
  let firstZ := (acc.firstZ).getD ""
  let parts := parseParts content
  -- Title: %%song-title -> T: -> filename -> "Unknown"
  let title0 :=
    match getMaestroValue maestro "song-title" with
    | some v => if v = "" then pyOr firstT (pyOr (filename.getD "") "Unknown") else v
    | none => pyOr firstT (pyOr (filename.getD "") "Unknown")
  let title := pyOr (pyStrip title0) "Unknown"
  -- Composer: %%song-composer -> C: -> "Unknown"
  let comp0 :=
    match getMaestroValue maestro "song-composer" with
    | some v => if v = "" then pyOr firstC "Unknown" else v
    | none => pyOr firstC "Unknown"
  let composers := pyOr (pyStrip comp0) "Unknown"
  -- Transcriber: %%song-transcriber -> Z: -> none
  let tr0 :=
    match getMaestroValue maestro "song-transcriber" with
    | some v => if v = "" then (if firstZ = "" then none else some firstZ) else some v
    | none => if firstZ = "" then none else some firstZ
  let transcriber :=
    match tr0 with
    | some s => if pyStrip s = "" then none else some (pyStrip s)
    | none => none
  -- Duration: %%song-duration (mm:ss) only
  let durSeconds :=
    match getMaestroValue maestro "song-duration" with
    | some v => if v = "" then none else parseMmSs v
    | none => none
  let exportTs := getMaestroValue maestro "export-timestamp"
  { title := title, composers := composers, durationSeconds := durSeconds,
    transcriber := transcriber, exportTimestamp := exportTs, parts := parts }

/-! ## Path classifier (`scanning/scanner.py`) -/

/-- A filesystem path, as the segment list of its absolute resolved
form. -/
abbrev FsPath := List String

/-- `_path_is_under`: on resolved paths, `Path.relative_to` succeeds
exactly when the prefix's segments are an initial segment of the
path's. -/
def pathIsUnder (path pre : FsPath) : Bool :=
  pre.isPrefixOf path

/-- `_path_is_excluded`. -/
def pathIsExcluded (path : FsPath) (excludePaths : List FsPath) : Bool :=
  excludePaths.any (fun ex => pathIsUnder path ex)

/-- `_classify_path`: returns
`(is_primary_library, is_set_copy, scan_excluded)`. -/
def classifyPath (path : FsPath) (libraryRoots setRoots excludePaths : List FsPath) :
    Bool × Bool × Bool :=
  if pathIsExcluded path excludePaths then
    (false, false, true)
  else
    let underSet := setRoots.any (fun r => pathIsUnder path r)
    let underLib := libraryRoots.any (fun r => pathIsUnder path r)
    if underSet && !underLib then
      (false, true, false)
    else
      (true, false, false)

/-! ## Catalog store (`db/schema.py` rows, in rowid order) -/

/-- One element of the `Song.parts` JSON array as written by
`_parts_to_json` (serialization is injective on this shape, so the JSON
string column is modelled by the record list itself). -/
structure PartRec where
  partNumber : Nat
  partName : Option String
  instrumentId : Option Int
deriving DecidableEq, Repr

/-- A `Song` table row. -/
structure SongRow where
  id : Int
  title : String
  composers : String
  durationSeconds : Option Int
  transcriber : Option String
  rating : Option Int
  statusId : Option Int
  notes : Option String
  lyrics : Option String
  lastPlayedAt : Option String
  totalPlays : Int
  parts : Option (List PartRec)
  createdAt : String
  updatedAt : String
deriving DecidableEq, Repr

/-- A `SongFile` table row (`song_id` is nullable in the schema). -/
structure SongFileRow where
  id : Int
  songId : Option Int
  filePath : FsPath
  fileMtime : Option String
  fileHash : Option String
  exportTimestamp : Option String
  isPrimaryLibrary : Bool
  isSetCopy : Bool
  scanExcluded : Bool
  createdAt : String
  updatedAt : String
deriving DecidableEq, Repr

/-- An `Instrument` table row. -/
structure InstrumentRow where
  id : Int
  name : String
  alternativeNames : Option String
  createdAt : String
  updatedAt : String
deriving DecidableEq, Repr

/-- A `PlayLog` row, projected to the columns the scanner's cascade
reads (`song_id` is `NOT NULL` in the schema). -/
structure PlayLogRow where
  id : Int
  songId : Int
deriving DecidableEq, Repr

/-- A `SetlistItem` row, projected to the cascade-relevant columns. -/
structure SetlistItemRow where
  id : Int
  songId : Int
deriving DecidableEq, Repr

/-- A `SetlistBandAssignment` row, projected likewise. -/
structure SetlistBandAssignmentRow where
  id : Int
  setlistItemId : Int
deriving DecidableEq, Repr

/-- A `SongLayout` row, projected likewise. -/
structure SongLayoutRow where
  id : Int
  songId : Int
deriving DecidableEq, Repr

/-- A `SongLayoutAssignment` row, projected likewise. -/
structure SongLayoutAssignmentRow where
  id : Int
  songLayoutId : Int
deriving DecidableEq, Repr

/-- The catalog store: one list per table in rowid order, plus the next
fresh `INTEGER PRIMARY KEY` per scanner-inserted table. -/
structure DB where
  songs : List SongRow
  songFiles : List SongFileRow
  instruments : List InstrumentRow
  playLogs : List PlayLogRow
  setlistItems : List SetlistItemRow
  setlistBandAssignments : List SetlistBandAssignmentRow
  songLayouts : List SongLayoutRow
  songLayoutAssignments : List SongLayoutAssignmentRow
  nextSongId : Int
  nextSongFileId : Int
  nextInstrumentId : Int
deriving DecidableEq, Repr

/-- The empty catalog as created by `create_schema`. -/
def DB.empty : DB :=
  ⟨[], [], [], [], [], [], [], [], 1, 1, 1⟩

/-- Two catalog states are equal when all their tables and counters
agree. -/
theorem DB.ext' {d1 d2 : DB} (h1 : d1.songs = d2.songs)
    (h2 : d1.songFiles = d2.songFiles) (h3 : d1.instruments = d2.instruments)
    (h4 : d1.playLogs = d2.playLogs) (h5 : d1.setlistItems = d2.setlistItems)
    (h6 : d1.setlistBandAssignments = d2.setlistBandAssignments)
    (h7 : d1.songLayouts = d2.songLayouts)
    (h8 : d1.songLayoutAssignments = d2.songLayoutAssignments)
    (h9 : d1.nextSongId = d2.nextSongId)
    (h10 : d1.nextSongFileId = d2.nextSongFileId)
    (h11 : d1.nextInstrumentId = d2.nextInstrumentId) : d1 = d2 := by
  cases d1
  cases d2
  simp_all

/-! ## Instrument repository (`db/instrument.py`) -/

/-- Case-insensitive match of a hint against a row's comma-separated
`alternative_names` (the loop body of `_get_or_create_by_name`). -/
def altNamesMatch (alts : Option String) (n : String) : Bool :=
  match alts with
  | some a =>
    if a = "" then false
    else (strSplitOnChar a ',').any (fun x => pyLower (pyStrip x) = pyLower n)
  | none => false

/-- `_get_or_create_by_name`: exact primary-name match first, then the
first row whose alternative names match case-insensitively, else insert
a fresh row named `n`. -/
def getOrCreateByName (db : DB) (n : String) (now : String) : Int × DB :=
  match db.instruments.find? (fun r => r.name = n) with
  | some r => (r.id, db)
  | none =>
    match db.instruments.find? (fun r => altNamesMatch r.alternativeNames n) with
    | some r => (r.id, db)
    | none =>
      let row : InstrumentRow := ⟨db.nextInstrumentId, n, none, now, now⟩
      (db.nextInstrumentId,
        { db with instruments := db.instruments ++ [row],
                  nextInstrumentId := db.nextInstrumentId + 1 })

/-- `resolve_instrument_id`: blank hints resolve to the canonical
"Unknown" entry, others by stripped name. -/
def resolveInstrumentId (db : DB) (name : String) (now : String) : Int × DB :=
  if pyStrip name = "" then getOrCreateByName db "Unknown" now
  else getOrCreateByName db (pyStrip name) now

/-! ## Song repository (`db/song_repo.py`) -/

/-- `_parts_to_json`: build the parts records, resolving `made_for`
hints to instrument ids (creating instruments as needed). -/
def partsToRecs (db : DB) (parsed : ParsedSong) (now : String) : List PartRec × DB :=
  parsed.parts.foldl
    (fun (acc : List PartRec × DB) p =>
      let (iid, db') :=
        match p.madeFor with
        | some m =>
          if m = "" then (none, acc.2)
          else
            let (i, d) := resolveInstrumentId acc.2 m now
            (some i, d)
        | none => (none, acc.2)
      (acc.1 ++ [⟨p.partNumber, p.partName, iid⟩], db'))
    ([], db)

/-- `ensure_song_from_parsed`: create or update `Song` and `SongFile`
for this path; returns the song id (nullable when the existing row's
`song_id` is `NULL`). -/
def ensureSongFromParsed (db : DB) (parsed : ParsedSong) (filePath : FsPath)
    (fileMtime fileHash : Option String)
    (isPrimaryLibrary isSetCopy scanExcluded : Bool) (now : String) :
    Option Int × DB :=
  let (recs, db) := partsToRecs db parsed now
  match db.songFiles.find? (fun r => r.filePath = filePath) with
  | some row =>
    let songs' := db.songs.map (fun s =>
      if some s.id = row.songId then
        { s with title := parsed.title, composers := parsed.composers,
                 durationSeconds := parsed.durationSeconds,
                 transcriber := parsed.transcriber, parts := some recs,
                 updatedAt := now }
      else s)
    let files' := db.songFiles.map (fun r =>
      if r.id = row.id then
        { r with fileMtime := (if fileMtime = some "" then none else fileMtime),
                 fileHash := fileHash,
                 exportTimestamp := parsed.exportTimestamp,
                 isPrimaryLibrary := isPrimaryLibrary, isSetCopy := isSetCopy,
                 scanExcluded := scanExcluded, updatedAt := now }
      else r)
    (row.songId, { db with songs := songs', songFiles := files' })
  | none =>
    let sid := db.nextSongId
    let song : SongRow :=
      ⟨sid, parsed.title, parsed.composers, parsed.durationSeconds,
       parsed.transcriber, none, none, none, none, none, 0, some recs, now, now⟩
    let file : SongFileRow :=
      ⟨db.nextSongFileId, some sid, filePath, fileMtime, fileHash,
       parsed.exportTimestamp, isPrimaryLibrary, isSetCopy, scanExcluded, now, now⟩
    (some sid,
      { db with songs := db.songs ++ [song], songFiles := db.songFiles ++ [file],
                nextSongId := sid + 1, nextSongFileId := db.nextSongFileId + 1 })

/-- SQLite `TRIM`: strips spaces (0x20) only. -/
def sqlTrim (s : String) : String :=
  String.mk (((s.data.dropWhile (· = ' ')).reverse.dropWhile (· = ' ')).reverse)

/-- `_normalize_title`: strip then lowercase. -/
def normalizeTitle (s : String) : String :=
  pyLower (pyStrip s)

/-- `logical_identity`: (normalized title, stripped composers, part
count). -/
def logicalIdentity (parsed : ParsedSong) : String × String × Nat :=
  (normalizeTitle parsed.title, pyStrip parsed.composers, parsed.parts.length)

/-- `find_song_by_logical_identity`: ids of songs matching the identity
under SQLite's `LOWER(TRIM(...))` normalization. -/
def findSongByLogicalIdentity (db : DB) (normalizedTitle composers : String)
    (partCount : Nat) : List Int :=
  (db.songs.filter (fun s =>
    pyLower (sqlTrim s.title) = normalizedTitle ∧
    sqlTrim s.composers = composers ∧
    ((s.parts).getD []).length = partCount)).map (fun s => s.id)

/-- Modelled from the spec: `link_file_to_song` is imported by the
scanner from the song repository but its definition is absent from the
source tree. Per the spec, LINK "attaches the new path as an additional
SongFile under the chosen existing Song id (not creating a new Song)". -/
def linkFileToSong (db : DB) (songId : Int) (filePath : FsPath)
    (fileMtime fileHash exportTimestamp : Option String)
    (isPrimaryLibrary isSetCopy scanExcluded : Bool) (now : String) : DB :=
  let file : SongFileRow :=
    ⟨db.nextSongFileId, some songId, filePath, fileMtime, fileHash,
     exportTimestamp, isPrimaryLibrary, isSetCopy, scanExcluded, now, now⟩
  { db with songFiles := db.songFiles ++ [file],
            nextSongFileId := db.nextSongFileId + 1 }

/-! ## Scan orchestrator (`scanning/scanner.py`) -/

/-- The resolved root configuration consumed by `run_scan` (the
`(library_roots, set_roots, exclude_paths)` triple returned by
`get_enabled_roots`, already normalized to absolute resolved form). -/
structure RootsConfig where
  libraryRoots : List FsPath
  setRoots : List FsPath
  excludePaths : List FsPath
deriving DecidableEq, Repr

/-- `_remove_missing_song_files`: delete `SongFile` rows whose path was
not seen, then the dependent-row cascade, in the statement order of the
source (`NOT IN` subqueries never see a `NULL`, as each is filtered by
`IS NOT NULL` or drawn from a `NOT NULL` column). -/
def removeMissingSongFiles (db : DB) (currentPaths : List FsPath) : DB :=
  let files' :=
    if currentPaths.isEmpty then []
    else db.songFiles.filter (fun r => currentPaths.contains r.filePath)
  let songsWithFiles : List Int := files'.filterMap (fun r => r.songId)
  let orphanItems : List Int :=
    (db.setlistItems.filter (fun it => ¬ songsWithFiles.contains it.songId)).map
      (fun it => it.id)
  let sbas' := db.setlistBandAssignments.filter
    (fun a => ¬ orphanItems.contains a.setlistItemId)
  let items' := db.setlistItems.filter (fun it => songsWithFiles.contains it.songId)
  let orphanLayouts : List Int :=
    (db.songLayouts.filter (fun ly => ¬ songsWithFiles.contains ly.songId)).map
      (fun ly => ly.id)
  let slas' := db.songLayoutAssignments.filter
    (fun a => ¬ orphanLayouts.contains a.songLayoutId)
  let layouts' := db.songLayouts.filter (fun ly => songsWithFiles.contains ly.songId)
  let plays' := db.playLogs.filter (fun p => songsWithFiles.contains p.songId)
  let songs' := db.songs.filter (fun s => songsWithFiles.contains s.id)
  { db with songFiles := files', songs := songs', playLogs := plays',
            setlistItems := items', setlistBandAssignments := sbas',
            songLayouts := layouts', songLayoutAssignments := slas' }

/-- One file on disk as the scanner can observe it: its resolved path,
whether it carries the `.abc` extension, its text content (`none` models
a file whose read raises `OSError`, the only way `parse_abc_file` can
fail), and the results of `stat`/hashing. -/
structure FsFile where
  path : FsPath
  isAbc : Bool
  content : Option String
  mtime : Option String
  hash : Option String
deriving DecidableEq, Repr

/-- `_collect_abc_files`: root-major enumeration of `.abc` files under
the library roots, skipping excluded paths, de-duplicated by resolved
path (every root is taken to be a directory; `fs` lists the files in the
traversal order of `rglob`). -/
def collectAbcFiles (fs : List FsFile) (roots excludePaths : List FsPath) :
    List FsFile :=
  roots.foldl
    (fun acc root =>
      fs.foldl
        (fun acc f =>
          if f.isAbc ∧ pathIsUnder f.path root ∧
              ¬ pathIsExcluded f.path excludePaths ∧
              ¬ acc.any (fun g => g.path = f.path) then
            acc ++ [f]
          else acc)
        acc)
    []

/-- Observable events of one scan run, in order: each progress-callback
invocation and the completion of each file's per-file processing. -/
inductive ScanEvent where
  | progress (done total : Nat)
  | processed (path : FsPath)
deriving DecidableEq, Repr

/-- The duplicate-resolution policy `on_duplicate(conn, new_file_path,
parsed, existing_song_ids)`: returns an action string and an optional
song id. -/
abbrev DupPolicy := DB → FsPath → ParsedSong → List Int → String × Option Int

/-- Mutable state of the scan loop. -/
structure ScanState where
  db : DB
  scanned : Nat
  errors : Nat
  events : List ScanEvent
deriving Repr

/-- The body of `run_scan`'s per-file loop for file `f` at 0-based index
`idx` of `total` enumerated files. -/
def processFile (cfg : RootsConfig) (hasProgressCb : Bool)
    (onDuplicate : Option DupPolicy) (now : String) (total : Nat)
    (st : ScanState) (idx : Nat) (f : FsFile) : ScanState :=
  let st :=
    if hasProgressCb then
      { st with events := st.events ++ [ScanEvent.progress (idx + 1) total] }
    else st
  let fin := fun (s : ScanState) =>
    { s with events := s.events ++ [ScanEvent.processed f.path] }
  let (isPrimary, isSetCopy, scanExcluded) :=
    classifyPath f.path cfg.libraryRoots cfg.setRoots cfg.excludePaths
  match f.content with
  | none => fin { st with errors := st.errors + 1 }
  | some content =>
    let parsed := parseAbcContent content (some (f.path.getLastD ""))
    let doEnsure := fun (s : ScanState) =>
      let (_, db') := ensureSongFromParsed s.db parsed f.path f.mtime f.hash
        isPrimary isSetCopy scanExcluded now
      fin { s with db := db', scanned := s.scanned + 1 }
    if (st.db.songFiles.find? (fun r => r.filePath = f.path)).isSome then
      doEnsure st
    else
      match onDuplicate with
      | some pol =>
        if isPrimary then
          let (t, c, n) := logicalIdentity parsed
          let existingIds := findSongByLogicalIdentity st.db t c n
          if existingIds = [] then doEnsure st
          else
            let (action, linkSongId) := pol st.db f.path parsed existingIds
            if h : action = "link" ∧ linkSongId.isSome then
              fin { st with
                db := linkFileToSong st.db (linkSongId.get h.2) f.path f.mtime
                  f.hash parsed.exportTimestamp true false false now,
                scanned := st.scanned + 1 }
            else if action = "separate" then doEnsure st
            else fin st
        else doEnsure st
      | none => doEnsure st

/-- `run_scan`: scan the configured roots, parse and upsert each
enumerated file, then reconcile removals. Returns the post-scan catalog,
the `(files_found, files_scanned, errors)` triple, and the event
trace. -/
def runScan (fs : List FsFile) (cfg : RootsConfig) (hasProgressCb : Bool)
    (onDuplicate : Option DupPolicy) (db : DB) (now : String) :
    DB × (Nat × Nat × Nat) × List ScanEvent :=
  if cfg.libraryRoots.isEmpty then
    (removeMissingSongFiles db [], (0, 0, 0), [])
  else
    let files := collectAbcFiles fs cfg.libraryRoots cfg.excludePaths
    let total := files.length
    let st := files.enum.foldl
      (fun st p => processFile cfg hasProgressCb onDuplicate now total st p.1 p.2)
      (⟨db, 0, 0, []⟩ : ScanState)
    let scannedPaths := files.map (fun f => f.path)
    (removeMissingSongFiles st.db scannedPaths, (total, st.scanned, st.errors),
      st.events)

/-! ## Supporting lemmas -/

/-- First-biased choice on `Option` (Python's `a or b` on optionals). -/
def orO {α : Type} (a b : Option α) : Option α :=
  match a with
  | some v => some v
  | none => b

theorem orO_none_left {α : Type} (b : Option α) : orO none b = b := rfl

theorem orO_none_right {α : Type} (a : Option α) : orO a none = a := by
  cases a <;> rfl

theorem orO_assoc {α : Type} (a b c : Option α) :
    orO (orO a b) c = orO a (orO b c) := by
  cases a <;> rfl

/-- A two-character prefix pins down the first two characters. -/
theorem isPrefixOf_two {a b : Char} {l : List Char}
    (h : List.isPrefixOf [a, b] l = true) : ∃ rest, l = a :: b :: rest := by
  match l with
  | [] => simp [List.isPrefixOf] at h
  | [x] => simp [List.isPrefixOf] at h
  | x :: y :: rest =>
    simp [List.isPrefixOf] at h
    exact ⟨rest, by rw [h.1, h.2]⟩

/-- The header markers `T:`, `C:`, `Z:` are mutually exclusive on any one
line. -/
theorem strStartsWith_TC (s : String) (h : strStartsWith s "T:" = true) :
    strStartsWith s "C:" = false := by
  unfold strStartsWith at h ⊢
  have hT : ("T:" : String).data = ['T', ':'] := rfl
  have hC : ("C:" : String).data = ['C', ':'] := rfl
  rw [hT] at h
  rw [hC]
  obtain ⟨rest, hr⟩ := isPrefixOf_two h
  rw [hr]
  simp [List.isPrefixOf]

/-- `T:` lines are not `Z:` lines. -/
theorem strStartsWith_TZ (s : String) (h : strStartsWith s "T:" = true) :
    strStartsWith s "Z:" = false := by
  unfold strStartsWith at h ⊢
  have hT : ("T:" : String).data = ['T', ':'] := rfl
  have hZ : ("Z:" : String).data = ['Z', ':'] := rfl
  rw [hT] at h
  rw [hZ]
  obtain ⟨rest, hr⟩ := isPrefixOf_two h
  rw [hr]
  simp [List.isPrefixOf]

/-- `C:` lines are not `Z:` lines. -/
theorem strStartsWith_CZ (s : String) (h : strStartsWith s "C:" = true) :
    strStartsWith s "Z:" = false := by
  unfold strStartsWith at h ⊢
  have hC : ("C:" : String).data = ['C', ':'] := rfl
  have hZ : ("Z:" : String).data = ['Z', ':'] := rfl
  rw [hC] at h
  rw [hZ]
  obtain ⟨rest, hr⟩ := isPrefixOf_two h
  rw [hr]
  simp [List.isPrefixOf]

/-- The Maestro component of one header line layers on an arbitrary
accumulator the same way it layers on the empty one. -/
theorem headerLine_maestro (acc : HeaderAcc) (l : String) (k : String) :
    (headerLine acc l).maestro k =
      orO ((headerLine HeaderAcc.empty l).maestro k) (acc.maestro k) := by
  obtain ⟨m, t, c, z⟩ := acc
  unfold headerLine HeaderAcc.empty
  by_cases h0 : pyStrip l = ""
  · simp [h0, orO]
  · cases hm : maestroMatch (pyStrip l) with
    | some kv =>
      by_cases hk : k = kv.1 <;> simp [h0, hm, hk, orO]
    | none =>
      by_cases hTs : strStartsWith (pyStrip l) "T:" <;>
      by_cases hCs : strStartsWith (pyStrip l) "C:" <;>
      by_cases hZs : strStartsWith (pyStrip l) "Z:" <;>
      cases t <;> cases c <;> cases z <;>
        simp [h0, hm, hTs, hCs, hZs, orO]

/-- The first-`T:` component keeps its earliest value. -/
theorem headerLine_firstT (acc : HeaderAcc) (l : String) :
    (headerLine acc l).firstT =
      orO acc.firstT (headerLine HeaderAcc.empty l).firstT := by
  obtain ⟨m, t, c, z⟩ := acc
  unfold headerLine HeaderAcc.empty
  by_cases h0 : pyStrip l = ""
  · simp [h0, orO_none_right]
  · cases hm : maestroMatch (pyStrip l) with
    | some kv => simp [h0, hm, orO_none_right]
    | none =>
      by_cases hTs : strStartsWith (pyStrip l) "T:"
      · have hCs := strStartsWith_TC (pyStrip l) hTs
        have hZs := strStartsWith_TZ (pyStrip l) hTs
        cases t <;> simp [h0, hm, hTs, hCs, hZs, orO]
      · by_cases hCs : strStartsWith (pyStrip l) "C:"
        · have hZs := strStartsWith_CZ (pyStrip l) hCs
          cases c <;> simp [h0, hm, hTs, hCs, hZs, orO, orO_none_right] <;>
            (cases t <;> rfl)
        · by_cases hZs : strStartsWith (pyStrip l) "Z:" <;>
          cases z <;> simp [h0, hm, hTs, hCs, hZs, orO, orO_none_right] <;>
            (cases t <;> rfl)

/-- The first-`C:` component keeps its earliest value. -/
theorem headerLine_firstC (acc : HeaderAcc) (l : String) :
    (headerLine acc l).firstC =
      orO acc.firstC (headerLine HeaderAcc.empty l).firstC := by
  obtain ⟨m, t, c, z⟩ := acc
  unfold headerLine HeaderAcc.empty
  by_cases h0 : pyStrip l = ""
  · simp [h0, orO_none_right]
  · cases hm : maestroMatch (pyStrip l) with
    | some kv => simp [h0, hm, orO_none_right]
    | none =>
      by_cases hTs : strStartsWith (pyStrip l) "T:"
      · have hCs := strStartsWith_TC (pyStrip l) hTs
        have hZs := strStartsWith_TZ (pyStrip l) hTs
        cases t <;> simp [h0, hm, hTs, hCs, hZs, orO, orO_none_right] <;>
          (cases c <;> rfl)
      · by_cases hCs : strStartsWith (pyStrip l) "C:"
        · have hZs := strStartsWith_CZ (pyStrip l) hCs
          cases c <;> simp [h0, hm, hTs, hCs, hZs, orO, orO_none_right]
        · by_cases hZs : strStartsWith (pyStrip l) "Z:" <;>
          cases z <;> simp [h0, hm, hTs, hCs, hZs, orO, orO_none_right] <;>
            (cases c <;> rfl)

/-- The first-`Z:` component keeps its earliest value. -/
theorem headerLine_firstZ (acc : HeaderAcc) (l : String) :
    (headerLine acc l).firstZ =
      orO acc.firstZ (headerLine HeaderAcc.empty l).firstZ := by
  obtain ⟨m, t, c, z⟩ := acc
  unfold headerLine HeaderAcc.empty
  by_cases h0 : pyStrip l = ""
  · simp [h0, orO_none_right]
  · cases hm : maestroMatch (pyStrip l) with
    | some kv => simp [h0, hm, orO_none_right]
    | none =>
      by_cases hTs : strStartsWith (pyStrip l) "T:"
      · have hCs := strStartsWith_TC (pyStrip l) hTs
        have hZs := strStartsWith_TZ (pyStrip l) hTs
        cases t <;> simp [h0, hm, hTs, hCs, hZs, orO, orO_none_right] <;>
          (cases z <;> rfl)
      · by_cases hCs : strStartsWith (pyStrip l) "C:"
        · have hZs := strStartsWith_CZ (pyStrip l) hCs
          cases c <;> simp [h0, hm, hTs, hCs, hZs, orO, orO_none_right] <;>
            (cases z <;> rfl)
        · by_cases hZs : strStartsWith (pyStrip l) "Z:" <;>
          cases z <;> simp [h0, hm, hTs, hCs, hZs, orO, orO_none_right]

/-- Folding lines from an arbitrary accumulator: the Maestro dict layers
new assignments over the old ones (later wins), while the three firsts
keep their earliest value. -/
theorem parseHeaderLines_split (ls : List String) (acc : HeaderAcc) :
    (∀ k, (parseHeaderLines ls acc).maestro k =
      orO ((parseHeaderLines ls HeaderAcc.empty).maestro k) (acc.maestro k)) ∧
    (parseHeaderLines ls acc).firstT =
      orO acc.firstT (parseHeaderLines ls HeaderAcc.empty).firstT ∧
    (parseHeaderLines ls acc).firstC =
      orO acc.firstC (parseHeaderLines ls HeaderAcc.empty).firstC ∧
    (parseHeaderLines ls acc).firstZ =
      orO acc.firstZ (parseHeaderLines ls HeaderAcc.empty).firstZ := by
  induction ls generalizing acc with
  | nil =>
    refine ⟨fun k => ?_, ?_, ?_, ?_⟩
    · simp [parseHeaderLines, HeaderAcc.empty, orO, orO_none_right]
    · exact (orO_none_right acc.firstT).symm
    · exact (orO_none_right acc.firstC).symm
    · exact (orO_none_right acc.firstZ).symm
  | cons l rest ih =>
    have step : parseHeaderLines (l :: rest) acc =
        parseHeaderLines rest (headerLine acc l) := rfl
    have stepE : parseHeaderLines (l :: rest) HeaderAcc.empty =
        parseHeaderLines rest (headerLine HeaderAcc.empty l) := rfl
    refine ⟨fun k => ?_, ?_, ?_, ?_⟩
    · rw [step, stepE, (ih (headerLine acc l)).1 k,
        (ih (headerLine HeaderAcc.empty l)).1 k, headerLine_maestro, orO_assoc]
    · rw [step, stepE, (ih (headerLine acc l)).2.1,
        (ih (headerLine HeaderAcc.empty l)).2.1, headerLine_firstT,
        HeaderAcc.empty, orO_assoc]
    · rw [step, stepE, (ih (headerLine acc l)).2.2.1,
        (ih (headerLine HeaderAcc.empty l)).2.2.1, headerLine_firstC,
        HeaderAcc.empty, orO_assoc]
    · rw [step, stepE, (ih (headerLine acc l)).2.2.2,
        (ih (headerLine HeaderAcc.empty l)).2.2.2, headerLine_firstZ,
        HeaderAcc.empty, orO_assoc]

/-- Processing a concatenation processes the pieces in order. -/
theorem parseHeaderLines_append (xs ys : List String) (acc : HeaderAcc) :
    parseHeaderLines (xs ++ ys) acc =
      parseHeaderLines ys (parseHeaderLines xs acc) := by
  induction xs generalizing acc with
  | nil => rfl
  | cons x rest ih => simpa [parseHeaderLines] using ih (headerLine acc x)

/-- C10: Repeated-tag precedence asymmetry in `_parse_headers`: in any
split of the input's lines into an earlier part `xs` and a later part
`ys`, a Maestro metadata tag (e.g. the `song-title` tag consumed by
`parse_abc_content`) takes its value from the later part when both parts
set it — i.e. the last occurrence wins — whereas the `T:`, `C:` and `Z:`
header fields take their value from the earlier part when both parts set
them — i.e. only the first occurrence in the file is used. -/
theorem c10_repeated_tag_precedence (xs ys : List String) :
    (∀ k, (parseHeaderLines (xs ++ ys) HeaderAcc.empty).maestro k =
      orO ((parseHeaderLines ys HeaderAcc.empty).maestro k)
        ((parseHeaderLines xs HeaderAcc.empty).maestro k)) ∧
    (parseHeaderLines (xs ++ ys) HeaderAcc.empty).firstT =
      orO (parseHeaderLines xs HeaderAcc.empty).firstT
        (parseHeaderLines ys HeaderAcc.empty).firstT ∧
    (parseHeaderLines (xs ++ ys) HeaderAcc.empty).firstC =
      orO (parseHeaderLines xs HeaderAcc.empty).firstC
        (parseHeaderLines ys HeaderAcc.empty).firstC ∧
    (parseHeaderLines (xs ++ ys) HeaderAcc.empty).firstZ =
      orO (parseHeaderLines xs HeaderAcc.empty).firstZ
        (parseHeaderLines ys HeaderAcc.empty).firstZ := by
  have h := parseHeaderLines_split ys (parseHeaderLines xs HeaderAcc.empty)
  rw [parseHeaderLines_append]
  exact ⟨fun k => h.1 k, h.2.1, h.2.2.1, h.2.2.2⟩

/-- `_parse_mm_ss` succeeds exactly on `mm:ss` with two integer parts,
both non-negative and seconds below sixty, yielding `60*mm + ss`. -/
theorem parseMmSs_iff (v : String) (n : Int) :
    parseMmSs v = some n ↔
      ∃ a b m s, strSplitOnChar (pyStrip v) ':' = [a, b] ∧
        pyInt (pyStrip a) = some m ∧ pyInt (pyStrip b) = some s ∧
        0 ≤ m ∧ 0 ≤ s ∧ s < 60 ∧ n = m * 60 + s := by
  unfold parseMmSs
  by_cases h0 : pyStrip v = ""
  · rw [h0, if_pos rfl]
    have hsp : strSplitOnChar "" ':' = [""] := rfl
    constructor
    · intro h
      exact absurd h (by simp)
    · rintro ⟨a, b, m, s, hab, -⟩
      rw [hsp] at hab
      simp at hab
  · rw [if_neg h0]
    rcases hsp : strSplitOnChar (pyStrip v) ':' with _ | ⟨a, _ | ⟨b, _ | ⟨c, rest⟩⟩⟩
    · constructor
      · intro h
        exact absurd h (by simp)
      · rintro ⟨a', b', m', s', hab, -⟩
        simp at hab
    · constructor
      · intro h
        exact absurd h (by simp)
      · rintro ⟨a', b', m', s', hab, -⟩
        simp at hab
    · change (match pyInt (pyStrip a), pyInt (pyStrip b) with
        | some m, some s =>
          if 0 ≤ m ∧ 0 ≤ s ∧ s < 60 then some (m * 60 + s) else none
        | _, _ => none) = some n ↔ _
      cases hma : pyInt (pyStrip a) with
      | none =>
        constructor
        · intro h
          exact absurd h (by simp [hma])
        · rintro ⟨a', b', m', s', hab, hm', -⟩
          injection hab with e1 e2
          injection e2 with e3 e4
          rw [← e1, hma] at hm'
          exact absurd hm' (by simp)
      | some m =>
        cases hmb : pyInt (pyStrip b) with
        | none =>
          constructor
          · intro h
            exact absurd h (by simp [hma, hmb])
          · rintro ⟨a', b', m', s', hab, hm', hs', -⟩
            injection hab with e1 e2
            injection e2 with e3 e4
            rw [← e3, hmb] at hs'
            exact absurd hs' (by simp)
        | some t =>
          change (if 0 ≤ m ∧ 0 ≤ t ∧ t < 60 then some (m * 60 + t) else none) =
            some n ↔ _
          by_cases hc : 0 ≤ m ∧ 0 ≤ t ∧ t < 60
          · rw [if_pos hc]
            constructor
            · intro h
              have hn : n = m * 60 + t := (Option.some.inj h).symm
              exact ⟨a, b, m, t, rfl, hma, hmb, hc.1, hc.2.1, hc.2.2, hn⟩
            · rintro ⟨a', b', m', s', hab, hm', hs', -, -, -, hn⟩
              injection hab with e1 e2
              injection e2 with e3 e4
              rw [← e1, hma] at hm'
              rw [← e3, hmb] at hs'
              rw [hn, ← Option.some.inj hm', ← Option.some.inj hs']
          · rw [if_neg hc]
            constructor
            · intro h
              exact absurd h (by simp)
            · rintro ⟨a', b', m', s', hab, hm', hs', h1, h2, h3, hn⟩
              injection hab with e1 e2
              injection e2 with e3 e4
              rw [← e1, hma] at hm'
              rw [← e3, hmb] at hs'
              have hm2 : m = m' := Option.some.inj hm'
              have hs2 : t = s' := Option.some.inj hs'
              subst hm2
              subst hs2
              exact absurd ⟨h1, h2, h3⟩ hc
    · constructor
      · intro h
        exact absurd h (by simp)
      · rintro ⟨a', b', m', s', hab, -⟩
        simp at hab

/-- C7: Duration parsing: the parser's duration field is defined exactly
when the dedicated `%%song-duration` tag is present with a value of the
form `mm:ss`, both parts parsing as non-negative integers and the
seconds part strictly below 60, in which case it equals `60*mm + ss`; in
every other case (e.g. "3:75", "not-a-time") duration is absent, and no
other source (header lines, filename, other tags) feeds it: the
right-hand side depends only on the `song-duration` Maestro tag. -/
theorem c7_duration_parsing (content : String) (filename : Option String) (n : Int) :
    (parseAbcContent content filename).durationSeconds = some n ↔
      ∃ v a b m s,
        getMaestroValue (parseHeaders content).maestro "song-duration" = some v ∧
        strSplitOnChar (pyStrip v) ':' = [a, b] ∧
        pyInt (pyStrip a) = some m ∧ pyInt (pyStrip b) = some s ∧
        0 ≤ m ∧ 0 ≤ s ∧ s < 60 ∧ n = m * 60 + s := by
  have hd : (parseAbcContent content filename).durationSeconds =
      (match getMaestroValue (parseHeaders content).maestro "song-duration" with
       | some v => if v = "" then none else parseMmSs v
       | none => none) := rfl
  rw [hd]
  cases hg : getMaestroValue (parseHeaders content).maestro "song-duration" with
  | none => simp
  | some v =>
    by_cases hv : v = ""
    · subst hv
      have hnil : strSplitOnChar (pyStrip "") ':' = [""] := rfl
      constructor
      · intro h
        exact absurd h (by simp)
      · rintro ⟨v', a, b, m, s, hv', hab, -⟩
        obtain rfl : v' = "" := by simpa using hv'.symm
        rw [hnil] at hab
        simp at hab
    · change (if v = "" then none else parseMmSs v) = some n ↔ _
      rw [if_neg hv, parseMmSs_iff]
      constructor
      · rintro ⟨a, b, m, s, h⟩
        exact ⟨v, a, b, m, s, rfl, h⟩
      · rintro ⟨v', a, b, m, s, hv', h⟩
        obtain rfl : v' = v := by simpa using hv'.symm
        exact ⟨a, b, m, s, h⟩

/-- C3: Zone classification: `_classify_path` yields exactly one of the
three zones; it yields `excluded` precisely when the path lies under
some exclude path (checked first, over-riding roots); otherwise
`set_copy` precisely when the path lies under an export root and under
no library root; in every other case — including under both a library
root and an export root — `primary`. -/
theorem c3_zone_classification (path : FsPath) (lib sr ex : List FsPath) :
    (classifyPath path lib sr ex = (true, false, false) ∨
     classifyPath path lib sr ex = (false, true, false) ∨
     classifyPath path lib sr ex = (false, false, true)) ∧
    ((classifyPath path lib sr ex).2.2 = true ↔
      ∃ e ∈ ex, pathIsUnder path e = true) ∧
    ((classifyPath path lib sr ex).2.1 = true ↔
      (¬ ∃ e ∈ ex, pathIsUnder path e = true) ∧
      (∃ r ∈ sr, pathIsUnder path r = true) ∧
      ¬ ∃ r ∈ lib, pathIsUnder path r = true) ∧
    ((classifyPath path lib sr ex).1 = true ↔
      (¬ ∃ e ∈ ex, pathIsUnder path e = true) ∧
      ¬ ((∃ r ∈ sr, pathIsUnder path r = true) ∧
         ¬ ∃ r ∈ lib, pathIsUnder path r = true)) := by
  by_cases hex : ex.any (fun e => pathIsUnder path e) = true
  · have hcl : classifyPath path lib sr ex = (false, false, true) := by
      simp [classifyPath, pathIsExcluded, hex]
    have hex' : ∃ e ∈ ex, pathIsUnder path e = true := by
      simpa [List.any_eq_true] using hex
    rw [hcl]
    exact ⟨Or.inr (Or.inr rfl), by simp [hex'], by simp [hex'], by simp [hex']⟩
  · have hexF : ex.any (fun e => pathIsUnder path e) = false := by
      cases h : ex.any (fun e => pathIsUnder path e)
      · rfl
      · exact absurd h hex
    have hex' : ¬ ∃ e ∈ ex, pathIsUnder path e = true := by
      rintro ⟨e, he, hu⟩
      rw [List.any_eq_false] at hexF
      exact absurd hu (by simp [hexF e he])
    by_cases hs : sr.any (fun r => pathIsUnder path r) = true
    · have hs' : ∃ r ∈ sr, pathIsUnder path r = true := by
        simpa [List.any_eq_true] using hs
      by_cases hl : lib.any (fun r => pathIsUnder path r) = true
      · have hl' : ∃ r ∈ lib, pathIsUnder path r = true := by
          simpa [List.any_eq_true] using hl
        have hcl : classifyPath path lib sr ex = (true, false, false) := by
          simp [classifyPath, pathIsExcluded, hexF, hs, hl]
        rw [hcl]
        exact ⟨Or.inl rfl, by simp [hex'], by simp [hex', hs', hl'],
          by simp [hex', hs', hl']⟩
      · have hlF : lib.any (fun r => pathIsUnder path r) = false := by
          cases h : lib.any (fun r => pathIsUnder path r)
          · rfl
          · exact absurd h hl
        have hl' : ¬ ∃ r ∈ lib, pathIsUnder path r = true := by
          rintro ⟨r, hr, hu⟩
          rw [List.any_eq_false] at hlF
          exact absurd hu (by simp [hlF r hr])
        have hcl : classifyPath path lib sr ex = (false, true, false) := by
          simp [classifyPath, pathIsExcluded, hexF, hs, hlF]
        rw [hcl]
        exact ⟨Or.inr (Or.inl rfl), by simp [hex'], by simp [hex', hs', hl'],
          by simp [hex', hs', hl']⟩
    · have hsF : sr.any (fun r => pathIsUnder path r) = false := by
        cases h : sr.any (fun r => pathIsUnder path r)
        · rfl
        · exact absurd h hs
      have hs' : ¬ ∃ r ∈ sr, pathIsUnder path r = true := by
        rintro ⟨r, hr, hu⟩
        rw [List.any_eq_false] at hsF
        exact absurd hu (by simp [hsF r hr])
      have hcl : classifyPath path lib sr ex = (true, false, false) := by
        simp [classifyPath, pathIsExcluded, hexF, hsF]
      rw [hcl]
      exact ⟨Or.inl rfl, by simp [hex'], by simp [hex', hs'], by simp [hex', hs']⟩

/-- C5: Zero-roots degenerate case: when the resolved configuration has
no library roots, `run_scan` performs no enumeration or parsing (empty
event trace), deletes every SongFile row, cascades the orphan-Song and
dependent-record cleanup (emptying Song, PlayLog, SetlistItem and its
band assignments, SongLayout and its assignments, for a store whose
assignment rows reference existing parents), leaves everything else
untouched, and returns `(0, 0, 0)`. -/
theorem c5_zero_library_roots (fs : List FsFile) (sr ex : List FsPath)
    (hasCb : Bool) (pol : Option DupPolicy) (db : DB) (now : String)
    (hsba : ∀ a ∈ db.setlistBandAssignments,
      ∃ it ∈ db.setlistItems, it.id = a.setlistItemId)
    (hsla : ∀ a ∈ db.songLayoutAssignments,
      ∃ ly ∈ db.songLayouts, ly.id = a.songLayoutId) :
    runScan fs ⟨[], sr, ex⟩ hasCb pol db now =
      ({ db with songFiles := [], songs := [], playLogs := [],
                 setlistItems := [], setlistBandAssignments := [],
                 songLayouts := [], songLayoutAssignments := [] },
       (0, 0, 0), []) := by
  have hrun : runScan fs ⟨[], sr, ex⟩ hasCb pol db now =
      (removeMissingSongFiles db [], (0, 0, 0), []) := rfl
  rw [hrun]
  refine Prod.ext ?_ rfl
  apply DB.ext'
  · show (removeMissingSongFiles db []).songs = []
    simp [removeMissingSongFiles]
  · show (removeMissingSongFiles db []).songFiles = []
    simp [removeMissingSongFiles]
  · rfl
  · show (removeMissingSongFiles db []).playLogs = []
    simp [removeMissingSongFiles]
  · show (removeMissingSongFiles db []).setlistItems = []
    simp [removeMissingSongFiles]
  · show (removeMissingSongFiles db []).setlistBandAssignments = []
    have h1 : (removeMissingSongFiles db []).setlistBandAssignments =
        db.setlistBandAssignments.filter
          (fun a => ¬ (((db.setlistItems.filter
            (fun it => ¬ (([] : List Int).contains it.songId = true))).map
              (fun it => it.id)).contains a.setlistItemId = true)) := rfl
    rw [h1]
    rw [List.filter_eq_nil_iff]
    intro a ha
    obtain ⟨it, hit, hid⟩ := hsba a ha
    simp [List.mem_map]
    exact ⟨it, hit, hid⟩
  · show (removeMissingSongFiles db []).songLayouts = []
    simp [removeMissingSongFiles]
  · show (removeMissingSongFiles db []).songLayoutAssignments = []
    have h1 : (removeMissingSongFiles db []).songLayoutAssignments =
        db.songLayoutAssignments.filter
          (fun a => ¬ (((db.songLayouts.filter
            (fun ly => ¬ (([] : List Int).contains ly.songId = true))).map
              (fun ly => ly.id)).contains a.songLayoutId = true)) := rfl
    rw [h1]
    rw [List.filter_eq_nil_iff]
    intro a ha
    obtain ⟨ly, hly, hid⟩ := hsla a ha
    simp [List.mem_map]
    exact ⟨ly, hly, hid⟩
  · rfl
  · rfl
  · rfl

/-- Case analysis on `_get_or_create_by_name`: exact primary-name match
first (store unchanged), then first case-insensitive alternative-name
match (store unchanged), else a fresh row named `n` is inserted. -/
theorem getOrCreateByName_cases (db : DB) (n now : String) :
    ((∃ row ∈ db.instruments, row.name = n) →
      (getOrCreateByName db n now).2 = db ∧
      ∃ row ∈ db.instruments, row.name = n ∧
        (getOrCreateByName db n now).1 = row.id) ∧
    ((∀ row ∈ db.instruments, row.name ≠ n) →
      ((∃ row ∈ db.instruments, altNamesMatch row.alternativeNames n = true) →
        (getOrCreateByName db n now).2 = db ∧
        ∃ row ∈ db.instruments, altNamesMatch row.alternativeNames n = true ∧
          (getOrCreateByName db n now).1 = row.id) ∧
      ((∀ row ∈ db.instruments, altNamesMatch row.alternativeNames n = false) →
        (getOrCreateByName db n now).1 = db.nextInstrumentId ∧
        (getOrCreateByName db n now).2.instruments =
          db.instruments ++ [⟨db.nextInstrumentId, n, none, now, now⟩])) := by
  unfold getOrCreateByName
  cases hf : db.instruments.find? (fun r => r.name = n) with
  | some r =>
    have hrn : r.name = n := by simpa using List.find?_some hf
    have hrm : r ∈ db.instruments := List.mem_of_find?_eq_some hf
    refine ⟨fun _ => ⟨rfl, r, hrm, hrn, rfl⟩, fun hno => absurd hrn (hno r hrm)⟩
  | none =>
    have hno : ∀ row ∈ db.instruments, row.name ≠ n := by
      intro row hrow
      have := List.find?_eq_none.mp hf row hrow
      simpa using this
    refine ⟨fun ⟨row, hrow, hname⟩ => absurd hname (hno row hrow), fun _ => ?_⟩
    cases hf2 : db.instruments.find?
        (fun r => altNamesMatch r.alternativeNames n) with
    | some r =>
      have hra : altNamesMatch r.alternativeNames n = true := by
        simpa using List.find?_some hf2
      have hrm : r ∈ db.instruments := List.mem_of_find?_eq_some hf2
      refine ⟨fun _ => ⟨rfl, r, hrm, hra, rfl⟩, fun hnone => ?_⟩
      rw [hnone r hrm] at hra
      exact absurd hra (by simp)
    | none =>
      refine ⟨fun ⟨row, hrow, halt⟩ => ?_, fun _ => ⟨rfl, rfl⟩⟩
      have := List.find?_eq_none.mp hf2 row hrow
      rw [halt] at this
      exact absurd rfl this

/-- The catalog used by the C8 counterexample: one instrument named
"Flute" with no alternative names. -/
def c8db : DB :=
  { DB.empty with
      instruments := [⟨1, "Flute", none, "t0", "t0"⟩], nextInstrumentId := 2 }

/-- C8 counterexample: the claim says `resolve_instrument_id` matches
the primary name case-insensitively, so the hint "flute" against the
existing row named "Flute" would have to resolve to that row's id 1
without creating anything. The code's primary-name lookup is an exact
(case-sensitive) SQL `name = ?` comparison and only alternative names
are compared case-insensitively, so "flute" matches nothing and a second
Instrument row is auto-created instead. -/
theorem c8_counterexample :
    (resolveInstrumentId c8db "flute" "t1").1 ≠ 1 ∧
    (resolveInstrumentId c8db "flute" "t1").2.instruments.length = 2 := by
  decide

/-- C8 (amended): for a non-blank hint, `resolve_instrument_id` matches
existing Instrument rows by their primary name exactly
(case-sensitively); failing that, it matches each comma-separated
alternative name case-insensitively, returning a matching row's id and
leaving the store unchanged; when nothing matches, a new Instrument row
is auto-created with the stripped hint as its name and its id returned;
a blank or whitespace-only hint resolves to the name "Unknown" through
the same get-or-create path. -/
theorem c8_instrument_resolution (db : DB) (hint now : String) (n : String)
    (hn : n = (if pyStrip hint = "" then "Unknown" else pyStrip hint)) :
    ((∃ row ∈ db.instruments, row.name = n) →
      (resolveInstrumentId db hint now).2 = db ∧
      ∃ row ∈ db.instruments, row.name = n ∧
        (resolveInstrumentId db hint now).1 = row.id) ∧
    ((∀ row ∈ db.instruments, row.name ≠ n) →
      ((∃ row ∈ db.instruments, altNamesMatch row.alternativeNames n = true) →
        (resolveInstrumentId db hint now).2 = db ∧
        ∃ row ∈ db.instruments, altNamesMatch row.alternativeNames n = true ∧
          (resolveInstrumentId db hint now).1 = row.id) ∧
      ((∀ row ∈ db.instruments, altNamesMatch row.alternativeNames n = false) →
        (resolveInstrumentId db hint now).1 = db.nextInstrumentId ∧
        (resolveInstrumentId db hint now).2.instruments =
          db.instruments ++ [⟨db.nextInstrumentId, n, none, now, now⟩])) := by
  have hres : resolveInstrumentId db hint now = getOrCreateByName db n now := by
    unfold resolveInstrumentId
    by_cases hb : pyStrip hint = ""
    · rw [if_pos hb, hn, if_pos hb]
    · rw [if_neg hb, hn, if_neg hb]
  rw [hres]
  exact getOrCreateByName_cases db n now

/-- The catalog used by the C8 amended-claim witness: one instrument
named "Lute" whose alternative names contain "small lute". -/
def c8wdb : DB :=
  { DB.empty with
      instruments := [⟨7, "Lute", some "small lute, lute", "t0", "t0"⟩],
      nextInstrumentId := 8 }

/-- Witness for the amended C8 at a concrete input: the hint " lute "
strips to "lute", matches no primary name, matches the alternative name
"lute" case-insensitively, and resolves to id 7 without changing the
store. -/
theorem c8_instrument_resolution_witness :
    (resolveInstrumentId c8wdb " lute " "t1").2 = c8wdb ∧
    (resolveInstrumentId c8wdb " lute " "t1").1 = 7 := by
  have h := c8_instrument_resolution c8wdb " lute " "t1" "lute" (by decide)
  have h2 := (h.2 (by decide)).1
    ⟨⟨7, "Lute", some "small lute, lute", "t0", "t0"⟩, by decide, by decide⟩
  refine ⟨h2.1, ?_⟩
  obtain ⟨row, hrow, -, hid⟩ := h2.2
  have : row = ⟨7, "Lute", some "small lute, lute", "t0", "t0"⟩ := by
    simpa [c8wdb, DB.empty] using hrow
  rw [hid, this]

/-- Catalog for the C6 counterexample: one Song ("Reel"/"Trad."/2 parts)
with one primary SongFile. -/
def c6db : DB :=
  { DB.empty with
      songs := [⟨1, "Reel", "Trad.", none, none, none, none, none, none,
        none, 0, some [⟨1, none, none⟩, ⟨2, none, none⟩], "t0", "t0"⟩],
      songFiles := [⟨1, some 1, ["lib", "a.abc"], none, none, none,
        true, false, false, "t0", "t0"⟩],
      nextSongId := 2, nextSongFileId := 2 }

/-- File contents sharing the logical identity ("reel", "Trad.", 2). -/
def c6content : String :=
  "%%song-title Reel\n%%song-composer Trad.\nX: 1\nX: 2\n"

/-- Filesystem for the C6 counterexample: the cataloged file plus a new
file with the same identity. -/
def c6fs : List FsFile :=
  [⟨["lib", "a.abc"], true, some c6content, some "1.0", some "h1"⟩,
   ⟨["lib", "b.abc"], true, some c6content, some "2.0", some "h2"⟩]

/-- A duplicate policy answering `("separate", some 1)` — an action and
id combination the claim places in its must-be-ignored class. -/
def c6polSep : DupPolicy := fun _ _ _ _ => ("separate", some 1)

/-- C6 counterexample: the claim says every policy result other than
`("link", some id)` or `("separate", None)` — hence also
`("separate", some 1)` — makes `run_scan` ignore the file: nothing
persisted, not counted as scanned. The code tests only the action string
for "separate" and ignores the second component, so the file is
persisted as a brand-new Song and counted: after the scan there are two
songs, the new path is cataloged, and the scanned tally is 2. -/
theorem c6_counterexample :
    (runScan c6fs ⟨[["lib"]], [], []⟩ false (some c6polSep) c6db "t1").1.songs.length = 2 ∧
    ((runScan c6fs ⟨[["lib"]], [], []⟩ false (some c6polSep) c6db "t1").1.songFiles.map
      (fun r => r.filePath)).contains ["lib", "b.abc"] = true ∧
    (runScan c6fs ⟨[["lib"]], [], []⟩ false (some c6polSep) c6db "t1").2.1 = (2, 2, 0) := by
  decide

/-- C6 (amended): whenever `run_scan` invokes the duplicate-resolution
policy for a new primary file and the policy returns any result other
than `("link", some id)` with a non-null id or `("separate", ·)` with
any second component — including an unrecognized action string or
`("link", None)` — the file is ignored: the catalog is left exactly as
it was, and neither the scanned tally nor the error tally moves. -/
theorem c6_policy_fallback_ignore (cfg : RootsConfig) (hasCb : Bool)
    (pol : DupPolicy) (now : String) (total idx : Nat) (st : ScanState)
    (f : FsFile) (content : String) (action : String) (linkId : Option Int)
    (hc : f.content = some content)
    (hrow : st.db.songFiles.find? (fun r => r.filePath = f.path) = none)
    (hprim : (classifyPath f.path cfg.libraryRoots cfg.setRoots
      cfg.excludePaths).1 = true)
    (hids : findSongByLogicalIdentity st.db
      (logicalIdentity (parseAbcContent content (some (f.path.getLastD "")))).1
      (logicalIdentity (parseAbcContent content (some (f.path.getLastD "")))).2.1
      (logicalIdentity (parseAbcContent content (some (f.path.getLastD "")))).2.2 ≠ [])
    (hpol : pol st.db f.path (parseAbcContent content (some (f.path.getLastD "")))
      (findSongByLogicalIdentity st.db
        (logicalIdentity (parseAbcContent content (some (f.path.getLastD "")))).1
        (logicalIdentity (parseAbcContent content (some (f.path.getLastD "")))).2.1
        (logicalIdentity (parseAbcContent content (some (f.path.getLastD "")))).2.2) =
      (action, linkId))
    (hact : ¬ (action = "link" ∧ linkId.isSome) ∧ action ≠ "separate") :
    (processFile cfg hasCb (some pol) now total st idx f).db = st.db ∧
    (processFile cfg hasCb (some pol) now total st idx f).scanned = st.scanned ∧
    (processFile cfg hasCb (some pol) now total st idx f).errors = st.errors := by
  obtain ⟨hact1, hact2⟩ := hact
  unfold processFile
  rcases hcl : classifyPath f.path cfg.libraryRoots cfg.setRoots cfg.excludePaths
    with ⟨prim, setc, excl⟩
  rw [hcl] at hprim
  simp only at hprim
  subst hprim
  rcases hli : logicalIdentity (parseAbcContent content (some (f.path.getLastD "")))
    with ⟨t, c, n⟩
  rw [hli] at hids hpol
  simp only at hids hpol
  simp only [List.getLastD_eq_getLast?] at hli hpol
  cases hasCb <;>
    simp [hc, hcl, hrow, hli, hpol, hids, hact1, hact2]

/-- Witness for the amended C6 at a concrete input: a policy answering
`("link", None)` for a new primary file with an identity match leaves
the catalog and both tallies untouched. -/
theorem c6_policy_fallback_ignore_witness :
    (processFile ⟨[["lib"]], [], []⟩ false
      (some (fun _ _ _ _ => ("link", none))) "t1" 1
      ⟨c6db, 0, 0, []⟩ 0
      ⟨["lib", "b.abc"], true, some c6content, some "2.0", some "h2"⟩).db =
        c6db ∧
    (processFile ⟨[["lib"]], [], []⟩ false
      (some (fun _ _ _ _ => ("link", none))) "t1" 1
      ⟨c6db, 0, 0, []⟩ 0
      ⟨["lib", "b.abc"], true, some c6content, some "2.0", some "h2"⟩).scanned =
        0 := by
  have h := c6_policy_fallback_ignore ⟨[["lib"]], [], []⟩ false
    (fun _ _ _ _ => ("link", none)) "t1" 1 0 ⟨c6db, 0, 0, []⟩
    ⟨["lib", "b.abc"], true, some c6content, some "2.0", some "h2"⟩
    c6content "link" none rfl (by decide) (by decide) (by decide) rfl
    (by decide)
  exact ⟨h.1, h.2.1⟩

/-! ## Decomposition of the scan loop -/

/-- The catalog effect of processing one file, as a function of the
catalog alone. -/
def stepDb (cfg : RootsConfig) (pol : Option DupPolicy) (now : String)
    (db : DB) (f : FsFile) : DB :=
  (processFile cfg false pol now 0 ⟨db, 0, 0, []⟩ 0 f).db

/-- The scanned-tally increment of processing one file. -/
def stepScanned (cfg : RootsConfig) (pol : Option DupPolicy) (now : String)
    (db : DB) (f : FsFile) : Nat :=
  (processFile cfg false pol now 0 ⟨db, 0, 0, []⟩ 0 f).scanned

/-- The error-tally increment of processing one file. -/
def stepErrors (cfg : RootsConfig) (pol : Option DupPolicy) (now : String)
    (db : DB) (f : FsFile) : Nat :=
  (processFile cfg false pol now 0 ⟨db, 0, 0, []⟩ 0 f).errors

/-- `processFile` splits into its catalog effect, tally increments, and
an appended event trace; the catalog effect and tallies depend only on
the incoming catalog and the file, never on the flags or indices. -/
theorem processFile_decomp (cfg : RootsConfig) (hasCb : Bool)
    (pol : Option DupPolicy) (now : String) (total : Nat) (st : ScanState)
    (idx : Nat) (f : FsFile) :
    processFile cfg hasCb pol now total st idx f =
      ⟨stepDb cfg pol now st.db f,
       st.scanned + stepScanned cfg pol now st.db f,
       st.errors + stepErrors cfg pol now st.db f,
       st.events ++ ((if hasCb then [ScanEvent.progress (idx + 1) total] else []) ++
         [ScanEvent.processed f.path])⟩ := by
  unfold stepDb stepScanned stepErrors
  unfold processFile
  rcases hcl : classifyPath f.path cfg.libraryRoots cfg.setRoots cfg.excludePaths
    with ⟨prim, setc, excl⟩
  cases hc : f.content with
  | none => cases hasCb <;> simp [processFile, hc, hcl]
  | some content =>
    by_cases hrow :
        (List.find? (fun r => decide (r.filePath = f.path)) st.db.songFiles).isSome = true
    · cases hasCb <;> simp [processFile, hc, hcl, hrow]
    · cases pol with
      | none => cases hasCb <;> simp [processFile, hc, hcl, hrow]
      | some p =>
        cases prim with
        | false => cases hasCb <;> simp [processFile, hc, hcl, hrow]
        | true =>
          rcases hli : logicalIdentity
              (parseAbcContent content (some (f.path.getLastD ""))) with ⟨t, c, n⟩
          simp only [List.getLastD_eq_getLast?] at hli
          by_cases hids : findSongByLogicalIdentity st.db t c n = []
          · cases hasCb <;> simp [processFile, hc, hcl, hrow, hli, hids]
          · rcases hres : p st.db f.path
                (parseAbcContent content (some (f.path.getLastD "")))
                (findSongByLogicalIdentity st.db t c n) with ⟨action, linkId⟩
            simp only [List.getLastD_eq_getLast?] at hres
            by_cases hlink : action = "link" ∧ linkId.isSome = true
            · obtain ⟨ha, hb⟩ := hlink
              cases linkId with
              | none => exact absurd hb (by simp)
              | some sid =>
                subst ha
                cases hasCb <;> simp [processFile, hc, hcl, hrow, hli, hids, hres]
            · by_cases hsep : action = "separate"
              · cases hasCb <;> simp [processFile, hc, hcl, hrow, hli, hids, hres, hlink, hsep]
              · cases hasCb <;> simp [processFile, hc, hcl, hrow, hli, hids, hres, hlink, hsep]

/-- The catalog after processing a list of files in order. -/
def runFilesDb (cfg : RootsConfig) (pol : Option DupPolicy) (now : String) :
    List FsFile → DB → DB
  | [], db => db
  | f :: rest, db => runFilesDb cfg pol now rest (stepDb cfg pol now db f)

/-- The scanned tally accumulated over a list of files. -/
def runFilesScanned (cfg : RootsConfig) (pol : Option DupPolicy) (now : String) :
    List FsFile → DB → Nat
  | [], _ => 0
  | f :: rest, db =>
    stepScanned cfg pol now db f +
      runFilesScanned cfg pol now rest (stepDb cfg pol now db f)

/-- The error tally accumulated over a list of files. -/
def runFilesErrors (cfg : RootsConfig) (pol : Option DupPolicy) (now : String) :
    List FsFile → DB → Nat
  | [], _ => 0
  | f :: rest, db =>
    stepErrors cfg pol now db f +
      runFilesErrors cfg pol now rest (stepDb cfg pol now db f)

/-- The event trace of the scan loop over indexed files. -/
def scanTrace (hasCb : Bool) (total : Nat) (l : List (Nat × FsFile)) :
    List ScanEvent :=
  (l.map (fun p =>
    (if hasCb then [ScanEvent.progress (p.1 + 1) total] else []) ++
    [ScanEvent.processed p.2.path])).flatten

/-- The scan loop splits into the catalog evolution, the tallies, and
the event trace. -/
theorem runFold_decomp (cfg : RootsConfig) (hasCb : Bool)
    (pol : Option DupPolicy) (now : String) (total : Nat)
    (l : List (Nat × FsFile)) (st : ScanState) :
    l.foldl (fun st p => processFile cfg hasCb pol now total st p.1 p.2) st =
      ⟨runFilesDb cfg pol now (l.map Prod.snd) st.db,
       st.scanned + runFilesScanned cfg pol now (l.map Prod.snd) st.db,
       st.errors + runFilesErrors cfg pol now (l.map Prod.snd) st.db,
       st.events ++ scanTrace hasCb total l⟩ := by
  induction l generalizing st with
  | nil =>
    simp [runFilesDb, runFilesScanned, runFilesErrors, scanTrace]
  | cons p rest ih =>
    rw [List.foldl_cons, processFile_decomp, ih]
    simp [runFilesDb, runFilesScanned, runFilesErrors, scanTrace, Nat.add_assoc]

/-- `run_scan` with at least one library root, in decomposed form. -/
theorem runScan_eq (fs : List FsFile) (cfg : RootsConfig) (hasCb : Bool)
    (pol : Option DupPolicy) (db : DB) (now : String)
    (h : cfg.libraryRoots.isEmpty = false) :
    runScan fs cfg hasCb pol db now =
      (removeMissingSongFiles
        (runFilesDb cfg pol now
          (collectAbcFiles fs cfg.libraryRoots cfg.excludePaths) db)
        ((collectAbcFiles fs cfg.libraryRoots cfg.excludePaths).map
          (fun f => f.path)),
       ((collectAbcFiles fs cfg.libraryRoots cfg.excludePaths).length,
        runFilesScanned cfg pol now
          (collectAbcFiles fs cfg.libraryRoots cfg.excludePaths) db,
        runFilesErrors cfg pol now
          (collectAbcFiles fs cfg.libraryRoots cfg.excludePaths) db),
       scanTrace hasCb
         (collectAbcFiles fs cfg.libraryRoots cfg.excludePaths).length
         (collectAbcFiles fs cfg.libraryRoots cfg.excludePaths).enum) := by
  unfold runScan
  rw [if_neg (by simp [h])]
  simp only [runFold_decomp]
  simp [List.enum_map_snd]

/-- Without a callback the trace is just the processing events. -/
theorem scanTrace_false (total : Nat) (l : List (Nat × FsFile)) :
    scanTrace false total l = l.map (fun p => ScanEvent.processed p.2.path) := by
  induction l with
  | nil => rfl
  | cons p rest ih =>
    simp [scanTrace] at ih ⊢
    exact ih

/-- The one-file filesystem of the C9 counterexample. -/
def c9f : FsFile :=
  ⟨["lib", "a.abc"], true, some "%%song-title A\nX: 1\n", some "1.0", some "h"⟩

/-- C9 counterexample: the claim says the progress callback is invoked
after its file has been processed; the code invokes it at the top of the
loop iteration, before any per-file work. On a one-file scan the event
trace is `[progress(1,1), processed]`, so no processing event precedes
the progress call — the claimed order is impossible at this input. -/
theorem c9_counterexample :
    (runScan [c9f] ⟨[["lib"]], [], []⟩ true none DB.empty "t1").2.2 =
      [ScanEvent.progress 1 1, ScanEvent.processed ["lib", "a.abc"]] ∧
    ¬ ∃ i j, i < j ∧
      (runScan [c9f] ⟨[["lib"]], [], []⟩ true none DB.empty "t1").2.2.get? i =
        some (ScanEvent.processed ["lib", "a.abc"]) ∧
      (runScan [c9f] ⟨[["lib"]], [], []⟩ true none DB.empty "t1").2.2.get? j =
        some (ScanEvent.progress 1 1) := by
  have htr : (runScan [c9f] ⟨[["lib"]], [], []⟩ true none DB.empty "t1").2.2 =
      [ScanEvent.progress 1 1, ScanEvent.processed ["lib", "a.abc"]] := by
    decide
  refine ⟨htr, ?_⟩
  rintro ⟨i, j, hij, hi, hj⟩
  rw [htr] at hi hj
  match j, hj with
  | 0, _ => omega
  | 1, hj => simp at hj
  | (k + 2), hj => simp at hj

/-- C9 (amended): the progress callback is invoked exactly once per
enumerated file with `(index + 1, total files found)`, but immediately
*before* that file is processed rather than after; and the presence of
the callback affects neither the resulting catalog nor the returned
triple. -/
theorem c9_progress_reporting (fs : List FsFile) (cfg : RootsConfig)
    (pol : Option DupPolicy) (db : DB) (now : String) :
    (runScan fs cfg true pol db now).1 = (runScan fs cfg false pol db now).1 ∧
    (runScan fs cfg true pol db now).2.1 =
      (runScan fs cfg false pol db now).2.1 ∧
    (cfg.libraryRoots.isEmpty = false →
      (runScan fs cfg true pol db now).2.2 =
        ((collectAbcFiles fs cfg.libraryRoots cfg.excludePaths).enum.map
          (fun p =>
            [ScanEvent.progress (p.1 + 1)
              (collectAbcFiles fs cfg.libraryRoots cfg.excludePaths).length,
             ScanEvent.processed p.2.path])).flatten ∧
      (runScan fs cfg false pol db now).2.2 =
        (collectAbcFiles fs cfg.libraryRoots cfg.excludePaths).map
          (fun f => ScanEvent.processed f.path)) := by
  cases hroots : cfg.libraryRoots.isEmpty with
  | true =>
    have h1 : runScan fs cfg true pol db now =
        (removeMissingSongFiles db [], (0, 0, 0), []) := by
      unfold runScan
      rw [if_pos hroots]
    have h2 : runScan fs cfg false pol db now =
        (removeMissingSongFiles db [], (0, 0, 0), []) := by
      unfold runScan
      rw [if_pos hroots]
    rw [h1, h2]
    exact ⟨rfl, rfl, fun h => absurd h (by simp)⟩
  | false =>
    rw [runScan_eq fs cfg true pol db now hroots,
      runScan_eq fs cfg false pol db now hroots]
    refine ⟨rfl, rfl, fun _ => ⟨rfl, ?_⟩⟩
    rw [scanTrace_false]
    have hmap : ∀ (l : List FsFile),
        l.enum.map (fun p => ScanEvent.processed p.2.path) =
        l.map (fun f => ScanEvent.processed f.path) := by
      intro l
      rw [show (fun (p : Nat × FsFile) => ScanEvent.processed p.2.path) =
        ((fun f : FsFile => ScanEvent.processed f.path) ∘ Prod.snd) from rfl]
      rw [← List.map_map, List.enum_map_snd]
    rw [hmap]

/-- Witness for the amended C9 at a concrete input: a two-file scan
(one unreadable) produces the interleaved trace, and the callback's
presence leaves catalog and triple unchanged. -/
theorem c9_progress_reporting_witness :
    (runScan [c9f, ⟨["lib", "bad.abc"], true, none, none, none⟩]
        ⟨[["lib"]], [], []⟩ true none DB.empty "t1").1 =
      (runScan [c9f, ⟨["lib", "bad.abc"], true, none, none, none⟩]
        ⟨[["lib"]], [], []⟩ false none DB.empty "t1").1 ∧
    (runScan [c9f, ⟨["lib", "bad.abc"], true, none, none, none⟩]
        ⟨[["lib"]], [], []⟩ true none DB.empty "t1").2.2 =
      [ScanEvent.progress 1 2, ScanEvent.processed ["lib", "a.abc"],
       ScanEvent.progress 2 2, ScanEvent.processed ["lib", "bad.abc"]] := by
  have h := c9_progress_reporting [c9f, ⟨["lib", "bad.abc"], true, none, none, none⟩]
    ⟨[["lib"]], [], []⟩ none DB.empty "t1"
  refine ⟨h.1, ?_⟩
  rw [(h.2.2 (by decide)).1]
  decide

/-- A populated catalog with well-linked assignment rows, for the C5
witness. -/
def c5wdb : DB :=
  { DB.empty with
      songs := [⟨1, "Reel", "Trad.", none, none, none, none, none, none,
        none, 0, some [], "t0", "t0"⟩],
      songFiles := [⟨1, some 1, ["lib", "a.abc"], none, none, none,
        true, false, false, "t0", "t0"⟩],
      instruments := [⟨1, "Flute", none, "t0", "t0"⟩],
      playLogs := [⟨1, 1⟩], setlistItems := [⟨3, 1⟩],
      setlistBandAssignments := [⟨4, 3⟩], songLayouts := [⟨5, 1⟩],
      songLayoutAssignments := [⟨6, 5⟩],
      nextSongId := 2, nextSongFileId := 2, nextInstrumentId := 2 }

/-- Witness for C5 at a concrete input: with no library roots, a scan
over a populated catalog returns `(0, 0, 0)`, emits no events, and
leaves only the instruments table populated. -/
theorem c5_zero_library_roots_witness :
    runScan [c9f] ⟨[], [["set"]], [["ex"]]⟩ true none c5wdb "t1" =
      ({ c5wdb with songFiles := [], songs := [], playLogs := [],
                    setlistItems := [], setlistBandAssignments := [],
                    songLayouts := [], songLayoutAssignments := [] },
       (0, 0, 0), []) := by
  exact c5_zero_library_roots [c9f] [["set"]] [["ex"]] true none c5wdb "t1"
    (by decide) (by decide)

/-- The SongFile rows kept by reconciliation. -/
def keptFiles (d : DB) (paths : List FsPath) : List SongFileRow :=
  if paths.isEmpty then []
  else d.songFiles.filter (fun r => paths.contains r.filePath)

/-- The song ids still referenced by a kept SongFile. -/
def keptSongIds (d : DB) (paths : List FsPath) : List Int :=
  (keptFiles d paths).filterMap (fun r => r.songId)

theorem rm_songFiles (d : DB) (paths : List FsPath) :
    (removeMissingSongFiles d paths).songFiles = keptFiles d paths := rfl

theorem rm_songs (d : DB) (paths : List FsPath) :
    (removeMissingSongFiles d paths).songs =
      d.songs.filter (fun s => (keptSongIds d paths).contains s.id) := rfl

theorem rm_playLogs (d : DB) (paths : List FsPath) :
    (removeMissingSongFiles d paths).playLogs =
      d.playLogs.filter (fun p => (keptSongIds d paths).contains p.songId) := rfl

theorem rm_items (d : DB) (paths : List FsPath) :
    (removeMissingSongFiles d paths).setlistItems =
      d.setlistItems.filter
        (fun it => (keptSongIds d paths).contains it.songId) := rfl

theorem rm_sbas (d : DB) (paths : List FsPath) :
    (removeMissingSongFiles d paths).setlistBandAssignments =
      d.setlistBandAssignments.filter
        (fun a => ¬ (((d.setlistItems.filter
          (fun it => ¬ ((keptSongIds d paths).contains it.songId = true))).map
            (fun it => it.id)).contains a.setlistItemId = true)) := rfl

theorem rm_layouts (d : DB) (paths : List FsPath) :
    (removeMissingSongFiles d paths).songLayouts =
      d.songLayouts.filter
        (fun ly => (keptSongIds d paths).contains ly.songId) := rfl

theorem rm_slas (d : DB) (paths : List FsPath) :
    (removeMissingSongFiles d paths).songLayoutAssignments =
      d.songLayoutAssignments.filter
        (fun a => ¬ (((d.songLayouts.filter
          (fun ly => ¬ ((keptSongIds d paths).contains ly.songId = true))).map
            (fun ly => ly.id)).contains a.songLayoutId = true)) := rfl

/-- Every SongFile surviving reconciliation has a path in the seen
set. -/
theorem removeMissing_songFiles_mem (d : DB) (paths : List FsPath)
    (row : SongFileRow) (h : row ∈ (removeMissingSongFiles d paths).songFiles) :
    row.filePath ∈ paths := by
  rw [rm_songFiles] at h
  unfold keptFiles at h
  by_cases hp : paths.isEmpty = true
  · simp [hp] at h
  · simp only [hp] at h
    rw [if_neg (by simp)] at h
    simpa using (List.mem_filter.mp h).2

/-- Every Song surviving reconciliation has a surviving SongFile. -/
theorem removeMissing_songs_have_file (d : DB) (paths : List FsPath)
    (s : SongRow) (h : s ∈ (removeMissingSongFiles d paths).songs) :
    ∃ row ∈ (removeMissingSongFiles d paths).songFiles,
      row.songId = some s.id := by
  rw [rm_songs] at h
  rw [rm_songFiles]
  have hc : s.id ∈ keptSongIds d paths := by
    have := (List.mem_filter.mp h).2
    simpa using this
  unfold keptSongIds at hc
  obtain ⟨row, hrow, hid⟩ := List.mem_filterMap.mp hc
  exact ⟨row, hrow, hid⟩

/-- A Song deleted by reconciliation as orphaned loses all its PlayLog
rows, its SetlistItem rows (with their band assignments), and its
SongLayout rows (with their assignments). -/
theorem removeMissing_cascade (d : DB) (paths : List FsPath) (s : SongRow)
    (hs : s ∈ d.songs) (hdel : s ∉ (removeMissingSongFiles d paths).songs) :
    (∀ p ∈ d.playLogs, p.songId = s.id →
      p ∉ (removeMissingSongFiles d paths).playLogs) ∧
    (∀ it ∈ d.setlistItems, it.songId = s.id →
      it ∉ (removeMissingSongFiles d paths).setlistItems ∧
      ∀ a ∈ d.setlistBandAssignments, a.setlistItemId = it.id →
        a ∉ (removeMissingSongFiles d paths).setlistBandAssignments) ∧
    (∀ ly ∈ d.songLayouts, ly.songId = s.id →
      ly ∉ (removeMissingSongFiles d paths).songLayouts ∧
      ∀ a ∈ d.songLayoutAssignments, a.songLayoutId = ly.id →
        a ∉ (removeMissingSongFiles d paths).songLayoutAssignments) := by
  rw [rm_songs] at hdel
  have hnotin : s.id ∉ keptSongIds d paths := by
    intro hmem
    exact hdel (List.mem_filter.mpr ⟨hs, by simpa using hmem⟩)
  refine ⟨?_, ?_, ?_⟩
  · intro p hp hpid hmem
    rw [rm_playLogs] at hmem
    have : p.songId ∈ keptSongIds d paths := by
      simpa using (List.mem_filter.mp hmem).2
    rw [hpid] at this
    exact hnotin this
  · intro it hit hitid
    constructor
    · intro hmem
      rw [rm_items] at hmem
      have : it.songId ∈ keptSongIds d paths := by
        simpa using (List.mem_filter.mp hmem).2
      rw [hitid] at this
      exact hnotin this
    · intro a ha haid hmem
      rw [rm_sbas] at hmem
      have hcond := (List.mem_filter.mp hmem).2
      have horph : a.setlistItemId ∈ (d.setlistItems.filter
          (fun it => ¬ ((keptSongIds d paths).contains it.songId = true))).map
            (fun it => it.id) := by
        refine List.mem_map.mpr ⟨it, ?_, haid.symm⟩
        refine List.mem_filter.mpr ⟨hit, ?_⟩
        simp only [hitid]
        simpa using hnotin
      simp only [decide_not, Bool.not_eq_true', decide_eq_false_iff_not] at hcond
      exact hcond (by simpa using horph)
  · intro ly hly hlyid
    constructor
    · intro hmem
      rw [rm_layouts] at hmem
      have : ly.songId ∈ keptSongIds d paths := by
        simpa using (List.mem_filter.mp hmem).2
      rw [hlyid] at this
      exact hnotin this
    · intro a ha haid hmem
      rw [rm_slas] at hmem
      have hcond := (List.mem_filter.mp hmem).2
      have horph : a.songLayoutId ∈ (d.songLayouts.filter
          (fun ly => ¬ ((keptSongIds d paths).contains ly.songId = true))).map
            (fun ly => ly.id) := by
        refine List.mem_map.mpr ⟨ly, ?_, haid.symm⟩
        refine List.mem_filter.mpr ⟨hly, ?_⟩
        simp only [hlyid]
        simpa using hnotin
      simp only [decide_not, Bool.not_eq_true', decide_eq_false_iff_not] at hcond
      exact hcond (by simpa using horph)

/-- C4: Reconciliation completeness: after any completed `run_scan`,
every remaining SongFile's path was in the set of paths enumerated
during that scan; every remaining Song has at least one SongFile; and
(third conjunct, about the reconciliation pass itself, which is the only
place the scan deletes) every Song deleted as orphaned loses all of its
PlayLog rows, its SetlistItem rows with their SetlistBandAssignment
rows, and its SongLayout rows with their SongLayoutAssignment rows. -/
theorem c4_reconciliation_completeness (fs : List FsFile) (cfg : RootsConfig)
    (hasCb : Bool) (pol : Option DupPolicy) (db : DB) (now : String) :
    (∀ row ∈ (runScan fs cfg hasCb pol db now).1.songFiles,
      row.filePath ∈ (collectAbcFiles fs cfg.libraryRoots cfg.excludePaths).map
        (fun f => f.path)) ∧
    (∀ s ∈ (runScan fs cfg hasCb pol db now).1.songs,
      ∃ row ∈ (runScan fs cfg hasCb pol db now).1.songFiles,
        row.songId = some s.id) ∧
    (∀ (d : DB) (paths : List FsPath) (s : SongRow),
      s ∈ d.songs → s ∉ (removeMissingSongFiles d paths).songs →
      (∀ p ∈ d.playLogs, p.songId = s.id →
        p ∉ (removeMissingSongFiles d paths).playLogs) ∧
      (∀ it ∈ d.setlistItems, it.songId = s.id →
        it ∉ (removeMissingSongFiles d paths).setlistItems ∧
        ∀ a ∈ d.setlistBandAssignments, a.setlistItemId = it.id →
          a ∉ (removeMissingSongFiles d paths).setlistBandAssignments) ∧
      (∀ ly ∈ d.songLayouts, ly.songId = s.id →
        ly ∉ (removeMissingSongFiles d paths).songLayouts ∧
        ∀ a ∈ d.songLayoutAssignments, a.songLayoutId = ly.id →
          a ∉ (removeMissingSongFiles d paths).songLayoutAssignments)) := by
  refine ⟨?_, ?_, fun d paths s hs hdel => removeMissing_cascade d paths s hs hdel⟩
  · intro row hrow
    cases hroots : cfg.libraryRoots.isEmpty with
    | true =>
      have hzr : runScan fs cfg hasCb pol db now =
          (removeMissingSongFiles db [], (0, 0, 0), []) := by
        unfold runScan
        rw [if_pos hroots]
      rw [hzr] at hrow
      have := removeMissing_songFiles_mem db [] row hrow
      simp at this
    | false =>
      rw [runScan_eq fs cfg hasCb pol db now hroots] at hrow
      exact removeMissing_songFiles_mem _ _ row hrow
  · intro s hsmem
    cases hroots : cfg.libraryRoots.isEmpty with
    | true =>
      have hzr : runScan fs cfg hasCb pol db now =
          (removeMissingSongFiles db [], (0, 0, 0), []) := by
        unfold runScan
        rw [if_pos hroots]
      rw [hzr] at hsmem ⊢
      exact removeMissing_songs_have_file db [] s hsmem
    | false =>
      rw [runScan_eq fs cfg hasCb pol db now hroots] at hsmem ⊢
      exact removeMissing_songs_have_file _ _ s hsmem

/-- Witness for C4 at a concrete input: when the scan's reconciliation
orphans the only Song of a populated catalog, its PlayLog row and the
band assignment of its SetlistItem are gone afterwards. -/
theorem c4_reconciliation_completeness_witness :
    (⟨1, 1⟩ : PlayLogRow) ∉ (removeMissingSongFiles c5wdb []).playLogs ∧
    (⟨4, 3⟩ : SetlistBandAssignmentRow) ∉
      (removeMissingSongFiles c5wdb []).setlistBandAssignments := by
  have h := c4_reconciliation_completeness [c9f] ⟨[["lib"]], [], []⟩ true none
    DB.empty "t1"
  have hc := h.2.2 c5wdb []
    ⟨1, "Reel", "Trad.", none, none, none, none, none, none, none, 0,
      some [], "t0", "t0"⟩ (by decide) (by decide)
  exact ⟨hc.1 ⟨1, 1⟩ (by decide) (by decide),
    (hc.2.1 ⟨3, 1⟩ (by decide) (by decide)).2 ⟨4, 3⟩ (by decide) (by decide)⟩

/-- `_get_or_create_by_name` only ever appends at most one row to the
instruments table, leaving every other table and counter alone. -/
theorem getOrCreateByName_effect (db : DB) (n now : String) :
    ∃ ext : List InstrumentRow,
      (getOrCreateByName db n now).2 =
        { db with instruments := db.instruments ++ ext,
                  nextInstrumentId := db.nextInstrumentId + ext.length } := by
  unfold getOrCreateByName
  cases hf : db.instruments.find? (fun r => r.name = n) with
  | some r =>
    refine ⟨[], ?_⟩
    simp only [hf]
    cases db
    simp
  | none =>
    cases hf2 : db.instruments.find?
        (fun r => altNamesMatch r.alternativeNames n) with
    | some r =>
      refine ⟨[], ?_⟩
      simp only [hf, hf2]
      cases db
      simp
    | none =>
      refine ⟨[⟨db.nextInstrumentId, n, none, now, now⟩], ?_⟩
      simp only [hf, hf2]
      apply DB.ext' <;> simp

/-- Instrument resolution likewise only appends instrument rows. -/
theorem resolveInstrumentId_effect (db : DB) (m now : String) :
    ∃ ext : List InstrumentRow,
      (resolveInstrumentId db m now).2 =
        { db with instruments := db.instruments ++ ext,
                  nextInstrumentId := db.nextInstrumentId + ext.length } := by
  unfold resolveInstrumentId
  by_cases hb : pyStrip m = ""
  · rw [if_pos hb]
    exact getOrCreateByName_effect db "Unknown" now
  · rw [if_neg hb]
    exact getOrCreateByName_effect db (pyStrip m) now

/-- Building the parts records only appends instrument rows to the
store. -/
theorem partsToRecs_effect (parsed : ParsedSong) (db : DB) (now : String) :
    ∃ ext : List InstrumentRow,
      (partsToRecs db parsed now).2 =
        { db with instruments := db.instruments ++ ext,
                  nextInstrumentId := db.nextInstrumentId + ext.length } := by
  have key : ∀ (parts : List PartInfo) (acc : List PartRec) (db : DB),
      ∃ ext : List InstrumentRow,
        (parts.foldl
          (fun (acc : List PartRec × DB) p =>
            let (iid, db') :=
              match p.madeFor with
              | some m =>
                if m = "" then (none, acc.2)
                else
                  let (i, d) := resolveInstrumentId acc.2 m now
                  (some i, d)
              | none => (none, acc.2)
            (acc.1 ++ [⟨p.partNumber, p.partName, iid⟩], db')) (acc, db)).2 =
        { db with instruments := db.instruments ++ ext,
                  nextInstrumentId := db.nextInstrumentId + ext.length } := by
    intro parts
    induction parts with
    | nil =>
      intro acc db
      refine ⟨[], ?_⟩
      cases db
      simp
    | cons p rest ih =>
      intro acc db
      rw [List.foldl_cons]
      rcases hm : p.madeFor with _ | m
      · simp only [hm]
        exact ih (acc ++ [⟨p.partNumber, p.partName, none⟩]) db
      · by_cases hme : m = ""
        · simp only [hm, hme, ite_true, if_pos]
          exact ih (acc ++ [⟨p.partNumber, p.partName, none⟩]) db
        · simp only [hm, if_neg hme, ite_false]
          obtain ⟨ext1, hext1⟩ := resolveInstrumentId_effect db m now
          obtain ⟨ext2, hext2⟩ := ih
            (acc ++ [⟨p.partNumber, p.partName,
              some (resolveInstrumentId db m now).1⟩])
            ((resolveInstrumentId db m now).2)
          refine ⟨ext1 ++ ext2, ?_⟩
          have hcomp : ({ (resolveInstrumentId db m now).2 with
              instruments := (resolveInstrumentId db m now).2.instruments ++ ext2,
              nextInstrumentId :=
                (resolveInstrumentId db m now).2.nextInstrumentId + ext2.length } :
                DB) =
              { db with instruments := db.instruments ++ (ext1 ++ ext2),
                        nextInstrumentId :=
                          db.nextInstrumentId + (ext1 ++ ext2).length } := by
            rw [hext1]
            apply DB.ext' <;> simp [List.append_assoc, Int.add_assoc]
          exact hext2.trans hcomp
  have hdef : partsToRecs db parsed now =
      parsed.parts.foldl
        (fun (acc : List PartRec × DB) p =>
          let (iid, db') :=
            match p.madeFor with
            | some m =>
              if m = "" then (none, acc.2)
              else
                let (i, d) := resolveInstrumentId acc.2 m now
                (some i, d)
            | none => (none, acc.2)
          (acc.1 ++ [⟨p.partNumber, p.partName, iid⟩], db')) ([], db) := rfl
  rw [hdef]
  exact key parsed.parts [] db

/-- C2: Duplicate linking (the `link_file_to_song` call is modelled from
the spec, its definition being absent from the source tree): for a
catalog holding one Song with one cataloged file, and a new file path
with no SongFile row, classified primary, whose parsed metadata has the
same logical identity as that Song, when the duplicate-resolution policy
returns LINK with that Song's id, `run_scan` attaches the new path as an
additional SongFile under the existing Song id: afterwards there is
exactly one Song (the original id — no new Song row), carrying both
SongFiles. -/
theorem c2_duplicate_linking
    (songRow : SongRow) (oldRow : SongFileRow) (insts : List InstrumentRow)
    (nsi nii : Int) (cfg : RootsConfig) (fs : List FsFile)
    (fOld fNew : FsFile) (contentO contentN : String) (pol : DupPolicy)
    (hasCb : Bool) (now : String) (db0 : DB)
    (hdb : db0 = ⟨[songRow], [oldRow], insts, [], [], [], [], [],
      nsi, oldRow.id + 1, nii⟩)
    (hold : oldRow.filePath = fOld.path)
    (holdid : oldRow.songId = some songRow.id)
    (hneq : fNew.path ≠ fOld.path)
    (hcN : fNew.content = some contentN)
    (hcO : fOld.content = some contentO)
    (hcollect : collectAbcFiles fs cfg.libraryRoots cfg.excludePaths =
      [fNew, fOld])
    (hprim : (classifyPath fNew.path cfg.libraryRoots cfg.setRoots
      cfg.excludePaths).1 = true)
    (hids : findSongByLogicalIdentity db0
      (logicalIdentity (parseAbcContent contentN (some (fNew.path.getLastD "")))).1
      (logicalIdentity (parseAbcContent contentN (some (fNew.path.getLastD "")))).2.1
      (logicalIdentity (parseAbcContent contentN (some (fNew.path.getLastD "")))).2.2
      = [songRow.id])
    (hpol : pol db0 fNew.path
      (parseAbcContent contentN (some (fNew.path.getLastD "")))
      [songRow.id] = ("link", some songRow.id)) :
    ((runScan fs cfg hasCb (some pol) db0 now).1.songs.map (fun s => s.id)) =
      [songRow.id] ∧
    (runScan fs cfg hasCb (some pol) db0 now).1.songFiles.length = 2 ∧
    (∀ row ∈ (runScan fs cfg hasCb (some pol) db0 now).1.songFiles,
      row.songId = some songRow.id) ∧
    (runScan fs cfg hasCb (some pol) db0 now).1.songFiles.map
      (fun r => r.filePath) = [fOld.path, fNew.path] := by
  have hroots : cfg.libraryRoots.isEmpty = false := by
    cases h : cfg.libraryRoots.isEmpty with
    | false => rfl
    | true =>
      exfalso
      have hnil : cfg.libraryRoots = [] := by
        cases hc : cfg.libraryRoots with
        | nil => rfl
        | cons x xs => rw [hc] at h; simp at h
      rw [hnil] at hcollect
      have hce : collectAbcFiles fs [] cfg.excludePaths = [] := rfl
      rw [hce] at hcollect
      exact absurd hcollect (by simp)
  subst hdb
  have hneq' : fOld.path ≠ fNew.path := Ne.symm hneq
  have hfind1 : List.find? (fun r => decide (r.filePath = fNew.path)) [oldRow] =
      none := by
    simp [List.find?, hold, hneq']
  rcases hclN : classifyPath fNew.path cfg.libraryRoots cfg.setRoots
    cfg.excludePaths with ⟨pN, sN, eN⟩
  rw [hclN] at hprim
  simp only at hprim
  subst hprim
  rcases hli : logicalIdentity
    (parseAbcContent contentN (some (fNew.path.getLastD ""))) with ⟨tN, cN2, nN⟩
  rw [hli] at hids
  simp only at hids
  simp only [List.getLastD_eq_getLast?] at hli hpol
  have hstep1 : stepDb cfg (some pol) now
      (⟨[songRow], [oldRow], insts, [], [], [], [], [], nsi,
        oldRow.id + 1, nii⟩ : DB) fNew =
      (⟨[songRow],
        [oldRow,
         ⟨oldRow.id + 1, some songRow.id, fNew.path, fNew.mtime, fNew.hash,
          (parseAbcContent contentN (some (fNew.path.getLastD ""))).exportTimestamp,
          true, false, false, now, now⟩],
        insts, [], [], [], [], [], nsi, oldRow.id + 1 + 1, nii⟩ : DB) := by
    unfold stepDb processFile
    simp [hcN, hclN, hfind1, hli, hids, hpol, linkFileToSong]
  set newRow : SongFileRow :=
    ⟨oldRow.id + 1, some songRow.id, fNew.path, fNew.mtime, fNew.hash,
     (parseAbcContent contentN (some (fNew.path.getLastD ""))).exportTimestamp,
     true, false, false, now, now⟩ with hnewRow
  set D1 : DB :=
    ⟨[songRow], [oldRow, newRow], insts, [], [], [], [], [], nsi,
     oldRow.id + 1 + 1, nii⟩ with hD1
  rcases hclO : classifyPath fOld.path cfg.libraryRoots cfg.setRoots
    cfg.excludePaths with ⟨pO, sO, eO⟩
  set parsedO := parseAbcContent contentO (some (fOld.path.getLastD ""))
    with hparsedO
  obtain ⟨ext, hext⟩ := partsToRecs_effect parsedO D1 now
  set recsO := (partsToRecs D1 parsedO now).1 with hrecsO
  have hfind2 : List.find? (fun r => decide (r.filePath = fOld.path))
      D1.songFiles = some oldRow := by
    rw [hD1]
    simp [hnewRow, List.find?, hold]
  have hidne : ¬ (oldRow.id + 1 = oldRow.id) := by omega
  have hstep2 : stepDb cfg (some pol) now D1 fOld =
      ⟨[{ songRow with
            title := parsedO.title,
            composers := parsedO.composers,
            durationSeconds := parsedO.durationSeconds,
            transcriber := parsedO.transcriber,
            parts := some recsO,
            updatedAt := now }],
       [{ oldRow with
            fileMtime := (if fOld.mtime = some "" then none else fOld.mtime),
            fileHash := fOld.hash,
            exportTimestamp := parsedO.exportTimestamp,
            isPrimaryLibrary := pO,
            isSetCopy := sO,
            scanExcluded := eO,
            updatedAt := now }, newRow],
       insts ++ ext, [], [], [], [], [], nsi, oldRow.id + 1 + 1,
       nii + ext.length⟩ := by
    have hext' := hext
    rw [hD1, hparsedO] at hext'
    simp only [hnewRow, List.getLastD_eq_getLast?] at hext'
    unfold stepDb processFile ensureSongFromParsed
    simp [hcO, hclO, hext', hrecsO, holdid, hidne, hD1, hnewRow, hold,
      hneq', hparsedO, List.getLastD_eq_getLast?]
  rw [runScan_eq _ _ _ _ _ _ hroots]
  rw [hcollect]
  have hrun : runFilesDb cfg (some pol) now [fNew, fOld]
      (⟨[songRow], [oldRow], insts, [], [], [], [], [], nsi,
        oldRow.id + 1, nii⟩ : DB) =
      stepDb cfg (some pol) now D1 fOld := by
    simp only [runFilesDb]
    rw [hstep1]
  rw [hrun, hstep2]
  refine ⟨?_, ?_, ?_, ?_⟩
  · simp [rm_songs, keptSongIds, keptFiles, hold, holdid, hnewRow]
  · simp [rm_songFiles, keptFiles, hold, hnewRow]
  · intro row hrow
    simp only [rm_songFiles] at hrow
    simp [keptFiles, hold, hnewRow] at hrow
    rcases hrow with h | h
    · rw [h]
      simp [holdid]
    · rw [h]
  · simp [rm_songFiles, keptFiles, hold, hnewRow]

/-! ## Idempotence machinery (C1) -/

/-- A file whose read fails leaves the catalog untouched. -/
theorem stepDb_err (cfg : RootsConfig) (pol : Option DupPolicy) (now : String)
    (db : DB) (f : FsFile) (h : f.content = none) :
    stepDb cfg pol now db f = db := by
  unfold stepDb processFile
  rcases classifyPath f.path cfg.libraryRoots cfg.setRoots cfg.excludePaths
    with ⟨a, b, c⟩
  simp [h]

/-- With no duplicate policy, the catalog effect of one readable file is
exactly the create-or-update upsert. -/
theorem stepDb_none_ok (cfg : RootsConfig) (now : String) (db : DB)
    (f : FsFile) (c : String) (h : f.content = some c) :
    stepDb cfg none now db f =
      (ensureSongFromParsed db
        (parseAbcContent c (some (f.path.getLastD "")))
        f.path f.mtime f.hash
        (classifyPath f.path cfg.libraryRoots cfg.setRoots cfg.excludePaths).1
        (classifyPath f.path cfg.libraryRoots cfg.setRoots cfg.excludePaths).2.1
        (classifyPath f.path cfg.libraryRoots cfg.setRoots cfg.excludePaths).2.2
        now).2 := by
  unfold stepDb processFile
  rcases hcl : classifyPath f.path cfg.libraryRoots cfg.setRoots
    cfg.excludePaths with ⟨a, b, c2⟩
  by_cases hf : (db.songFiles.find? (fun r => r.filePath = f.path)).isSome
  · simp [h, hcl, hf]
  · simp [h, hcl, hf]

/-- With no duplicate policy the scanned increment of one file depends
only on whether its content could be read. -/
theorem stepScanned_none (cfg : RootsConfig) (now : String) (db : DB)
    (f : FsFile) :
    stepScanned cfg none now db f = if f.content.isSome then 1 else 0 := by
  unfold stepScanned processFile
  rcases hcl : classifyPath f.path cfg.libraryRoots cfg.setRoots
    cfg.excludePaths with ⟨a, b, c2⟩
  cases hc : f.content with
  | none => simp [hc]
  | some c =>
    by_cases hf : (db.songFiles.find? (fun r => r.filePath = f.path)).isSome
    · simp [hc, hcl, hf]
    · simp [hc, hcl, hf]

/-- With no duplicate policy the error increment of one file depends
only on whether its content could be read. -/
theorem stepErrors_none (cfg : RootsConfig) (now : String) (db : DB)
    (f : FsFile) :
    stepErrors cfg none now db f = if f.content.isSome then 0 else 1 := by
  unfold stepErrors processFile
  rcases hcl : classifyPath f.path cfg.libraryRoots cfg.setRoots
    cfg.excludePaths with ⟨a, b, c2⟩
  cases hc : f.content with
  | none => simp [hc]
  | some c =>
    by_cases hf : (db.songFiles.find? (fun r => r.filePath = f.path)).isSome
    · simp [hc, hcl, hf]
    · simp [hc, hcl, hf]

/-- The parse-ok sublist of an enumeration. -/
def okFilter (l : List FsFile) : List FsFile :=
  l.filter (fun f => f.content.isSome)

/-- With no policy, the scanned tally of a run is the number of readable
files, independent of the starting catalog. -/
theorem runFilesScanned_none (cfg : RootsConfig) (now : String) :
    ∀ (l : List FsFile) (db : DB),
    runFilesScanned cfg none now l db = (okFilter l).length := by
  intro l
  induction l with
  | nil => intro db; rfl
  | cons f rest ih =>
    intro db
    rw [runFilesScanned, stepScanned_none, ih]
    cases hc : f.content <;> simp [hc, okFilter, Nat.add_comm]

/-- With no policy, the error tally of a run is the number of unreadable
files, independent of the starting catalog. -/
theorem runFilesErrors_none (cfg : RootsConfig) (now : String) :
    ∀ (l : List FsFile) (db : DB),
    runFilesErrors cfg none now l db =
      (l.filter (fun f => ¬ f.content.isSome)).length := by
  intro l
  induction l with
  | nil => intro db; rfl
  | cons f rest ih =>
    intro db
    rw [runFilesErrors, stepErrors_none, ih]
    cases hc : f.content <;> simp [hc, Nat.add_comm]

/-- An exact primary-name hit short-circuits `_get_or_create_by_name`. -/
theorem goc_found {db : DB} {n : String} {r : InstrumentRow}
    (h : db.instruments.find? (fun q => q.name = n) = some r) (now : String) :
    getOrCreateByName db n now = (r.id, db) := by
  unfold getOrCreateByName
  rw [h]

/-- The name a `made_for` hint is looked up under. -/
def hintName (m : String) : String :=
  if pyStrip m = "" then "Unknown" else pyStrip m

/-- `resolve_instrument_id` is the get-or-create of the hint name. -/
theorem resolve_eq_goc (db : DB) (m now : String) :
    resolveInstrumentId db m now = getOrCreateByName db (hintName m) now := by
  unfold resolveInstrumentId hintName
  by_cases h : pyStrip m = "" <;> simp [h]

/-- Structural-recursion form of the `_parts_to_json` fold. -/
def ptrGo (now : String) : List PartInfo → DB → List PartRec × DB
  | [], db => ([], db)
  | p :: ps, db =>
    let (iid, db') :=
      match p.madeFor with
      | some m =>
        if m = "" then ((none : Option Int), db)
        else
          let (i, d) := resolveInstrumentId db m now
          (some i, d)
      | none => (none, db)
    let (rs, db'') := ptrGo now ps db'
    (⟨p.partNumber, p.partName, iid⟩ :: rs, db'')

/-- The fold in `partsToRecs` computes `ptrGo`. -/
theorem partsToRecs_eq_ptrGo (db : DB) (parsed : ParsedSong) (now : String) :
    partsToRecs db parsed now =
      ((ptrGo now parsed.parts db).1, (ptrGo now parsed.parts db).2) := by
  unfold partsToRecs
  have h : ∀ (ps : List PartInfo) (acc : List PartRec) (d : DB),
      ps.foldl
        (fun (acc : List PartRec × DB) p =>
          let (iid, db') :=
            match p.madeFor with
            | some m =>
              if m = "" then (none, acc.2)
              else
                let (i, d) := resolveInstrumentId acc.2 m now
                (some i, d)
            | none => (none, acc.2)
          (acc.1 ++ [⟨p.partNumber, p.partName, iid⟩], db'))
        (acc, d) =
      (acc ++ (ptrGo now ps d).1, (ptrGo now ps d).2) := by
    intro ps
    induction ps with
    | nil => intro acc d; simp [ptrGo]
    | cons p ps ih =>
      intro acc d
      rw [List.foldl_cons]
      rcases hm : p.madeFor with _ | m
      · rw [ih]
        simp only [ptrGo, hm]
        rcases hgo : ptrGo now ps d with ⟨rs, d2⟩
        simp
      · by_cases he : m = ""
        · rw [ih]
          simp only [ptrGo, hm, if_pos he]
          rcases hgo : ptrGo now ps d with ⟨rs, d2⟩
          simp
        · rcases hr : resolveInstrumentId d m now with ⟨i, d1⟩
          simp only [hm, if_neg he, hr]
          rw [ih]
          simp only [ptrGo, hm, if_neg he, hr]
          rcases hgo : ptrGo now ps d1 with ⟨rs, d2⟩
          simp
  rw [h]
  simp

/-- The parse result of a readable file. -/
def parsedOf (f : FsFile) : ParsedSong :=
  parseAbcContent (f.content.getD "") (some (f.path.getLastD ""))

/-- Every enumerated file comes from the filesystem listing. -/
theorem collect_mem {fs : List FsFile} {roots excl : List FsPath} :
    ∀ g ∈ collectAbcFiles fs roots excl, g ∈ fs := by
  unfold collectAbcFiles
  have inner : ∀ (acc : List FsFile) (root : FsPath),
      (∀ g ∈ acc, g ∈ fs) →
      ∀ g ∈ fs.foldl
        (fun acc f =>
          if f.isAbc ∧ pathIsUnder f.path root ∧
              ¬ pathIsExcluded f.path excl ∧
              ¬ acc.any (fun w => w.path = f.path) then
            acc ++ [f]
          else acc)
        acc, g ∈ fs := by
    have gen : ∀ (l acc : List FsFile) (root : FsPath),
        (∀ g ∈ l, g ∈ fs) → (∀ g ∈ acc, g ∈ fs) →
        ∀ g ∈ l.foldl
          (fun acc f =>
            if f.isAbc ∧ pathIsUnder f.path root ∧
                ¬ pathIsExcluded f.path excl ∧
                ¬ acc.any (fun w => w.path = f.path) then
              acc ++ [f]
            else acc)
          acc, g ∈ fs := by
      intro l
      induction l with
      | nil => intro acc root hl hacc g hg; exact hacc g hg
      | cons x l ihl =>
        intro acc root hl hacc g hg
        rw [List.foldl_cons] at hg
        by_cases hcond : x.isAbc ∧ pathIsUnder x.path root ∧
            ¬ pathIsExcluded x.path excl ∧
            ¬ acc.any (fun w => w.path = x.path)
        · rw [if_pos hcond] at hg
          refine ihl (acc ++ [x]) root (fun w hw => hl w (by simp [hw])) ?_ g hg
          intro w hw
          rcases List.mem_append.mp hw with hw | hw
          · exact hacc w hw
          · simp only [List.mem_singleton] at hw
            rw [hw]
            exact hl x (by simp)
        · rw [if_neg hcond] at hg
          exact ihl acc root (fun w hw => hl w (by simp [hw])) hacc g hg
    intro acc root hacc
    exact gen fs acc root (fun g hg => hg) hacc
  have outer : ∀ (rl : List FsPath) (acc : List FsFile),
      (∀ g ∈ acc, g ∈ fs) →
      ∀ g ∈ rl.foldl
        (fun acc root =>
          fs.foldl
            (fun acc f =>
              if f.isAbc ∧ pathIsUnder f.path root ∧
                  ¬ pathIsExcluded f.path excl ∧
                  ¬ acc.any (fun w => w.path = f.path) then
                acc ++ [f]
              else acc)
            acc)
        acc, g ∈ fs := by
    intro rl
    induction rl with
    | nil => intro acc hacc g hg; exact hacc g hg
    | cons root rl ihr =>
      intro acc hacc g hg
      rw [List.foldl_cons] at hg
      exact ihr _ (inner acc root hacc) g hg
  exact outer roots [] (by simp)

/-- The enumeration carries pairwise-distinct paths. -/
theorem collect_nodup (fs : List FsFile) (roots excl : List FsPath) :
    ((collectAbcFiles fs roots excl).map (fun f => f.path)).Nodup := by
  unfold collectAbcFiles
  have inner : ∀ (l acc : List FsFile) (root : FsPath),
      (acc.map (fun f => f.path)).Nodup →
      ((l.foldl
        (fun acc f =>
          if f.isAbc ∧ pathIsUnder f.path root ∧
              ¬ pathIsExcluded f.path excl ∧
              ¬ acc.any (fun w => w.path = f.path) then
            acc ++ [f]
          else acc)
        acc).map (fun f => f.path)).Nodup := by
    intro l
    induction l with
    | nil => intro acc root hacc; exact hacc
    | cons x l ihl =>
      intro acc root hacc
      rw [List.foldl_cons]
      by_cases hcond : x.isAbc ∧ pathIsUnder x.path root ∧
          ¬ pathIsExcluded x.path excl ∧
          ¬ acc.any (fun w => w.path = x.path)
      · rw [if_pos hcond]
        refine ihl (acc ++ [x]) root ?_
        rw [List.map_append, List.nodup_append]
        refine ⟨hacc, by simp, ?_⟩
        intro y hy
        obtain ⟨w, hw, hwp⟩ := List.mem_map.mp hy
        simp only [List.map_cons, List.map_nil, List.mem_singleton]
        intro he
        exact hcond.2.2.2 (List.any_eq_true.mpr
          ⟨w, hw, by rw [← he, hwp]; simp⟩)
      · rw [if_neg hcond]
        exact ihl acc root hacc
  have outer : ∀ (rl : List FsPath) (acc : List FsFile),
      (acc.map (fun f => f.path)).Nodup →
      ((rl.foldl
        (fun acc root =>
          fs.foldl
            (fun acc f =>
              if f.isAbc ∧ pathIsUnder f.path root ∧
                  ¬ pathIsExcluded f.path excl ∧
                  ¬ acc.any (fun w => w.path = f.path) then
                acc ++ [f]
              else acc)
            acc)
        acc).map (fun f => f.path)).Nodup := by
    intro rl
    induction rl with
    | nil => intro acc hacc; exact hacc
    | cons root rl ihr =>
      intro acc hacc
      rw [List.foldl_cons]
      exact ihr _ (inner fs acc root hacc)
  exact outer roots [] (by simp)

/-- Strip every `updated_at` column from the catalog. -/
def eraseUpd (db : DB) : DB :=
  { db with songs := db.songs.map (fun s => { s with updatedAt := "" }),
            songFiles := db.songFiles.map (fun r => { r with updatedAt := "" }) }

theorem bool_eq_of_iff {x y : Bool} (h : x = true ↔ y = true) : x = y := by
  cases x <;> cases y <;> simp_all

/-- How a lookup name resolves on a table to an id: by exact primary
name, or (with no exact hit) by the first case-insensitive
alternative-name hit — the two return paths of
`_get_or_create_by_name`. -/
def nameHit (T : List InstrumentRow) (n : String) (i : Int) : Prop :=
  (∃ r, T.find? (fun w => w.name = n) = some r ∧ i = r.id) ∨
  (T.find? (fun w => w.name = n) = none ∧
   ∃ r, T.find? (fun w => altNamesMatch w.alternativeNames n) = some r ∧
     i = r.id)

/-- Rows a scan may append to the instrument table: each carries no
alternative names and its primary name had no alternative-name hit on
the base table (it was created because its lookup missed). -/
def ExtOk (T ext : List InstrumentRow) : Prop :=
  ∀ w ∈ ext, w.alternativeNames = none ∧
    T.find? (fun q => altNamesMatch q.alternativeNames w.name) = none

theorem extOk_nil (T : List InstrumentRow) : ExtOk T [] := by
  intro w hw
  simp at hw

/-- Appended scan rows never shadow an established hit: an exact hit
stays the first exact hit, and an alternative-name hit keeps both the
exact miss (no appended row may carry that name) and the first
alternative match (appended rows have no alternative names). -/
theorem nameHit_extend {T ext : List InstrumentRow} {n : String} {i : Int}
    (hext : ExtOk T ext) (h : nameHit T n i) : nameHit (T ++ ext) n i := by
  rcases h with ⟨r, hr, hi⟩ | ⟨hnone, r, hr, hi⟩
  · refine Or.inl ⟨r, ?_, hi⟩
    rw [List.find?_append, hr]
    rfl
  · refine Or.inr ⟨?_, r, ?_, hi⟩
    · rw [List.find?_eq_none]
      intro w hw
      rcases List.mem_append.mp hw with hw | hw
      · exact List.find?_eq_none.mp hnone w hw
      · simp only [decide_eq_true_eq]
        intro he
        have := (hext w hw).2
        rw [he, hr] at this
        exact Option.noConfusion this
    · rw [List.find?_append, hr]
      rfl

/-- `ExtOk` extensions compose. -/
theorem extOk_append {T ext1 ext2 : List InstrumentRow}
    (h1 : ExtOk T ext1) (h2 : ExtOk (T ++ ext1) ext2) :
    ExtOk T (ext1 ++ ext2) := by
  intro w hw
  rcases List.mem_append.mp hw with hw | hw
  · exact h1 w hw
  · refine ⟨(h2 w hw).1, ?_⟩
    have := (h2 w hw).2
    rw [List.find?_append] at this
    cases hf : T.find? (fun q => altNamesMatch q.alternativeNames w.name) with
    | none => rfl
    | some r =>
      rw [hf] at this
      simp at this

/-- A name with an established hit resolves to its id without touching
the catalog. -/
theorem goc_of_nameHit {db : DB} {n : String} {i : Int} (now : String)
    (h : nameHit db.instruments n i) : getOrCreateByName db n now = (i, db) := by
  rcases h with ⟨r, hr, hi⟩ | ⟨hnone, r, hr, hi⟩
  · rw [goc_found hr now, hi]
  · unfold getOrCreateByName
    rw [hnone, hr, hi]

/-- `_get_or_create_by_name` on any catalog: it appends at most one
`ExtOk` row, and afterwards the requested name has an established hit at
the returned id. -/
theorem goc_general (db : DB) (n now : String) :
    ∃ ext, (getOrCreateByName db n now).2 =
        { db with instruments := db.instruments ++ ext,
                  nextInstrumentId := db.nextInstrumentId + ext.length } ∧
      ExtOk db.instruments ext ∧
      nameHit (getOrCreateByName db n now).2.instruments n
        (getOrCreateByName db n now).1 := by
  rcases hf : db.instruments.find? (fun w => w.name = n) with _ | r
  · rcases ha : db.instruments.find?
        (fun w => altNamesMatch w.alternativeNames n) with _ | r
    · have hres : getOrCreateByName db n now =
          (db.nextInstrumentId,
           { db with
               instruments := db.instruments ++
                 [⟨db.nextInstrumentId, n, none, now, now⟩],
               nextInstrumentId := db.nextInstrumentId + 1 }) := by
        unfold getOrCreateByName
        rw [hf, ha]
      refine ⟨[⟨db.nextInstrumentId, n, none, now, now⟩], ?_, ?_, ?_⟩
      · rw [hres]
        simp
      · intro w hw
        simp only [List.mem_singleton] at hw
        rw [hw]
        exact ⟨rfl, ha⟩
      · rw [hres]
        refine Or.inl ⟨⟨db.nextInstrumentId, n, none, now, now⟩, ?_, rfl⟩
        simp only
        rw [List.find?_append, hf]
        simp [List.find?]
    · have hres : getOrCreateByName db n now = (r.id, db) := by
        unfold getOrCreateByName
        rw [hf, ha]
      refine ⟨[], ?_, extOk_nil _, ?_⟩
      · rw [hres]
        apply DB.ext' <;> simp
      · rw [hres]
        exact Or.inr ⟨hf, r, ha, rfl⟩
  · have hres := goc_found hf now
    refine ⟨[], ?_, extOk_nil _, ?_⟩
    · rw [hres]
      apply DB.ext' <;> simp
    · rw [hres]
      exact Or.inl ⟨r, hf, rfl⟩

/-- One part record resolves against a table: part number and name are
copied, and the instrument id has an established hit for the stripped
hint. -/
def partResolved (T : List InstrumentRow) (p : PartInfo) (rec : PartRec) :
    Prop :=
  rec.partNumber = p.partNumber ∧ rec.partName = p.partName ∧
  match p.madeFor with
  | none => rec.instrumentId = none
  | some m =>
    if m = "" then rec.instrumentId = none
    else ∃ i, rec.instrumentId = some i ∧ nameHit T (hintName m) i

/-- Resolution survives `ExtOk` appends. -/
theorem partResolved_extend {T ext : List InstrumentRow} {p : PartInfo}
    {rec : PartRec} (hext : ExtOk T ext) (h : partResolved T p rec) :
    partResolved (T ++ ext) p rec := by
  obtain ⟨h1, h2, h3⟩ := h
  refine ⟨h1, h2, ?_⟩
  rcases hm : p.madeFor with _ | m
  · simp only [hm] at h3 ⊢
    exact h3
  · simp only [hm] at h3 ⊢
    by_cases he : m = ""
    · simp only [if_pos he] at h3 ⊢
      exact h3
    · simp only [if_neg he] at h3 ⊢
      obtain ⟨i, hi, hhit⟩ := h3
      exact ⟨i, hi, nameHit_extend hext hhit⟩

/-- When every part already resolves against the current table, the
parts fold returns exactly those records and leaves the catalog
unchanged. -/
theorem ptrGo_resolved (now : String) {ps : List PartInfo}
    {recs : List PartRec} {db : DB}
    (h : List.Forall₂ (partResolved db.instruments) ps recs) :
    ptrGo now ps db = (recs, db) := by
  induction h with
  | nil => rfl
  | cons hpr htail ih =>
    rename_i p rec ps' recs'
    obtain ⟨h1, h2, h3⟩ := hpr
    rcases hm : p.madeFor with _ | m
    · simp only [hm] at h3
      simp only [ptrGo, hm, ih]
      cases rec
      simp only at h1 h2 h3
      rw [h1, h2, h3]
    · simp only [hm] at h3
      by_cases he : m = ""
      · simp only [if_pos he] at h3
        simp only [ptrGo, hm, if_pos he, ih]
        cases rec
        simp only at h1 h2 h3
        rw [h1, h2, h3]
      · simp only [if_neg he] at h3
        obtain ⟨i, hi, hhit⟩ := h3
        have hres : resolveInstrumentId db m now = (i, db) := by
          rw [resolve_eq_goc]
          exact goc_of_nameHit now hhit
        simp only [ptrGo, hm, if_neg he, hres, ih]
        cases rec
        simp only at h1 h2 hi
        rw [h1, h2, hi]

/-- On any catalog the parts fold appends `ExtOk` instrument rows only,
and every part resolves against the resulting table to the record it
produced. -/
theorem ptrGo_go (now : String) :
    ∀ (ps : List PartInfo) (db : DB),
    ∃ ext, (ptrGo now ps db).2 =
      { db with instruments := db.instruments ++ ext,
                nextInstrumentId := db.nextInstrumentId + ext.length } ∧
    ExtOk db.instruments ext ∧
    List.Forall₂ (partResolved (ptrGo now ps db).2.instruments) ps
      (ptrGo now ps db).1 := by
  intro ps
  induction ps with
  | nil =>
    intro db
    refine ⟨[], ?_, extOk_nil _, List.Forall₂.nil⟩
    apply DB.ext' <;> simp [ptrGo]
  | cons p ps ih =>
    intro db
    rcases hm : p.madeFor with _ | m
    · obtain ⟨ext, hext, hok, hres⟩ := ih db
      rcases hgo : ptrGo now ps db with ⟨rs, db2⟩
      rw [hgo] at hext hres
      simp only at hext hres
      simp only [ptrGo, hm, hgo]
      exact ⟨ext, hext, hok, List.Forall₂.cons
        ⟨rfl, rfl, by simp only [hm]⟩ hres⟩
    · by_cases he : m = ""
      · obtain ⟨ext, hext, hok, hres⟩ := ih db
        rcases hgo : ptrGo now ps db with ⟨rs, db2⟩
        rw [hgo] at hext hres
        simp only at hext hres
        simp only [ptrGo, hm, if_pos he, hgo]
        exact ⟨ext, hext, hok, List.Forall₂.cons
          ⟨rfl, rfl, by simp only [hm, if_pos he]⟩ hres⟩
      · obtain ⟨ext1, hext1, hok1, hhit1⟩ := goc_general db (hintName m) now
        rcases hr : resolveInstrumentId db m now with ⟨i, d1⟩
        have hr' : getOrCreateByName db (hintName m) now = (i, d1) := by
          rw [← resolve_eq_goc]
          exact hr
        rw [hr'] at hext1 hhit1
        simp only at hext1 hhit1
        obtain ⟨ext2, hext2, hok2, hres⟩ := ih d1
        rcases hgo : ptrGo now ps d1 with ⟨rs, db2⟩
        rw [hgo] at hext2 hres
        simp only at hext2 hres
        simp only [ptrGo, hm, if_neg he, hr, hgo]
        have hinstr1 : d1.instruments = db.instruments ++ ext1 := by
          rw [hext1]
        have hinstr2 : db2.instruments = d1.instruments ++ ext2 := by
          rw [hext2]
        have hok2' : ExtOk (db.instruments ++ ext1) ext2 := by
          rw [← hinstr1]
          exact hok2
        refine ⟨ext1 ++ ext2, ?_, extOk_append hok1 hok2',
          List.Forall₂.cons ⟨rfl, rfl, ?_⟩ hres⟩
        · rw [hext2, hext1]
          apply DB.ext' <;> simp [List.append_assoc, Int.add_assoc]
        · simp only [hm, if_neg he]
          refine ⟨i, rfl, ?_⟩
          rw [hinstr2, hinstr1]
          rw [hinstr1] at hhit1
          exact nameHit_extend hok2' hhit1

/-- The non-`updated_at` columns the scan writes into a file's
`SongFile` row (`file_mtime` passes through the update path's
`or None` coercion). -/
def fileVals (cfg : RootsConfig) (f : FsFile) (r : SongFileRow) : Prop :=
  r.fileMtime = (if f.mtime = some "" then none else f.mtime) ∧
  r.fileHash = f.hash ∧
  r.exportTimestamp = (parsedOf f).exportTimestamp ∧
  r.isPrimaryLibrary =
    (classifyPath f.path cfg.libraryRoots cfg.setRoots cfg.excludePaths).1 ∧
  r.isSetCopy =
    (classifyPath f.path cfg.libraryRoots cfg.setRoots cfg.excludePaths).2.1 ∧
  r.scanExcluded =
    (classifyPath f.path cfg.libraryRoots cfg.setRoots cfg.excludePaths).2.2

/-- The non-`updated_at` columns the scan writes into a song row, with
parts resolving against a table. -/
def songVals (f : FsFile) (T : List InstrumentRow) (s : SongRow) : Prop :=
  s.title = (parsedOf f).title ∧ s.composers = (parsedOf f).composers ∧
  s.durationSeconds = (parsedOf f).durationSeconds ∧
  s.transcriber = (parsedOf f).transcriber ∧
  ∃ recs, s.parts = some recs ∧
    List.Forall₂ (partResolved T) (parsedOf f).parts recs

/-- Whether processing file `f` writes the song with id `sid`: `f` is
readable and the first `SongFile` row carrying its path points at
`sid`. -/
def targetsB (rows : List SongFileRow) (f : FsFile) (sid : Int) : Bool :=
  f.content.isSome &&
    match rows.find? (fun q => q.filePath = f.path) with
    | some r => decide (r.songId = some sid)
    | none => false

theorem targetsB_of_find? {rows : List SongFileRow} {g : FsFile}
    {r : SongFileRow}
    (h : rows.find? (fun q => q.filePath = g.path) = some r) (sid : Int) :
    targetsB rows g sid =
      (g.content.isSome && decide (r.songId = some sid)) := by
  unfold targetsB
  rw [h]

theorem targetsB_of_none {rows : List SongFileRow} {g : FsFile}
    (h : rows.find? (fun q => q.filePath = g.path) = none) (sid : Int) :
    targetsB rows g sid = false := by
  unfold targetsB
  rw [h]
  simp

/-- Invariant of a no-policy scan pass over `pre` starting from the
well-formed catalog `db0`: keys stay distinct and fresh, the instrument
table only grows by `ExtOk` rows, every processed readable file's row
holds that file's values and its parts re-resolve, and every song's last
writer among `pre` left his values in it. -/
def ScanInv (cfg : RootsConfig) (db0 : DB) (pre : List FsFile) (D : DB) :
    Prop :=
  (D.songFiles.map (fun r => r.id)).Nodup ∧
  (D.songFiles.map (fun r => r.filePath)).Nodup ∧
  (D.songs.map (fun s => s.id)).Nodup ∧
  (∀ r ∈ D.songFiles, r.id < D.nextSongFileId) ∧
  (∀ s ∈ D.songs, s.id < D.nextSongId) ∧
  (∃ ext, D.instruments = db0.instruments ++ ext ∧
    ExtOk db0.instruments ext) ∧
  (∀ f ∈ pre, f.content.isSome = true →
    (∃ r, D.songFiles.find? (fun q => q.filePath = f.path) = some r ∧
      fileVals cfg f r) ∧
    (∃ recs, List.Forall₂ (partResolved D.instruments)
      (parsedOf f).parts recs)) ∧
  (∀ s ∈ D.songs, ∀ f,
    (pre.filter (fun g => targetsB D.songFiles g s.id)).getLast? = some f →
    songVals f D.instruments s)

/-- `find?` through a map that preserves the searched field. -/
theorem find?_path_map (l : List SongFileRow) {g : SongFileRow → SongFileRow}
    (hg : ∀ r, (g r).filePath = r.filePath) (p : FsPath) :
    (l.map g).find? (fun q => q.filePath = p) =
      (l.find? (fun q => q.filePath = p)).map g := by
  rw [List.find?_map]
  have hpe : ((fun q => decide (q.filePath = p)) ∘ g) =
      (fun q => decide (q.filePath = p)) := by
    funext r
    simp only [Function.comp]
    rw [hg]
  rw [hpe]

/-- `find?` ignores a filter that keeps every candidate match. -/
theorem find?_filter {α : Type} (p q : α → Bool) (l : List α)
    (h : ∀ x, p x = true → q x = true) :
    (l.filter q).find? p = l.find? p := by
  induction l with
  | nil => rfl
  | cons a l ih =>
    cases hq : q a with
    | true =>
      rw [List.filter_cons_of_pos hq]
      cases hp : p a with
      | true =>
        rw [List.find?_cons_of_pos _ hp, List.find?_cons_of_pos _ hp]
      | false =>
        rw [List.find?_cons_of_neg _ (by simp [hp]),
          List.find?_cons_of_neg _ (by simp [hp]), ih]
    | false =>
      rw [List.filter_cons_of_neg (by simp [hq]), ih]
      have hp : p a = false := by
        cases hpc : p a with
        | false => rfl
        | true => simp [h a hpc] at hq
      rw [List.find?_cons_of_neg _ (by simp [hp])]

/-- Composing an element-preserving rewrite under a projection map. -/
theorem map_comp_eq {α β : Type} (l : List α) (g : α → α) (f : α → β)
    (hpres : ∀ a ∈ l, f (g a) = f a) : (l.map g).map f = l.map f := by
  rw [List.map_map]
  exact List.map_congr_left (fun a ha => hpres a ha)

/-- Processing one file preserves the scan invariant, extending the
processed prefix by that file. -/
theorem scan_step {cfg : RootsConfig} {db0 : DB} {pre : List FsFile}
    {D : DB} {f : FsFile} (now1 : String)
    (hInv : ScanInv cfg db0 pre D)
    (hnew : ∀ g ∈ pre, g.path ≠ f.path)
    (hmt : f.mtime ≠ some "") :
    ScanInv cfg db0 (pre ++ [f]) (stepDb cfg none now1 D f) := by
  obtain ⟨hFN, hPN, hSN, hFB, hSB, ⟨ext0, hi0, hok0⟩, hS1, hS2⟩ := hInv
  cases hc : f.content with
  | none =>
    rw [stepDb_err cfg none now1 D f hc]
    refine ⟨hFN, hPN, hSN, hFB, hSB, ⟨ext0, hi0, hok0⟩, ?_, ?_⟩
    · intro g hg hgs
      rcases List.mem_append.mp hg with hg | hg
      · exact hS1 g hg hgs
      · simp only [List.mem_singleton] at hg
        rw [hg, hc] at hgs
        simp at hgs
    · intro s hs g hg
      have hfe : (pre ++ [f]).filter
          (fun g => targetsB D.songFiles g s.id) =
          pre.filter (fun g => targetsB D.songFiles g s.id) := by
        rw [List.filter_append]
        have hnil : [f].filter (fun g => targetsB D.songFiles g s.id) = [] := by
          simp [targetsB, hc]
        rw [hnil, List.append_nil]
      rw [hfe] at hg
      exact hS2 s hs g hg
  | some c =>
    have hparsed : parseAbcContent c (some (f.path.getLastD "")) =
        parsedOf f := by
      unfold parsedOf
      rw [hc]
      rfl
    obtain ⟨extg, hextg, hokg, hresg⟩ := ptrGo_go now1 (parsedOf f).parts D
    rcases hgo : ptrGo now1 (parsedOf f).parts D with ⟨recs, db2⟩
    rw [hgo] at hextg hresg
    simp only at hextg hresg
    have e1 : db2.songs = D.songs := by rw [hextg]
    have e2 : db2.songFiles = D.songFiles := by rw [hextg]
    have e3 : db2.instruments = D.instruments ++ extg := by rw [hextg]
    have e9 : db2.nextSongId = D.nextSongId := by rw [hextg]
    have e10 : db2.nextSongFileId = D.nextSongFileId := by rw [hextg]
    have hinstr0 : db2.instruments = db0.instruments ++ (ext0 ++ extg) := by
      rw [e3, hi0, List.append_assoc]
    have hok0g : ExtOk db0.instruments (ext0 ++ extg) :=
      extOk_append hok0 (by rw [← hi0]; exact hokg)
    rcases hfind : D.songFiles.find? (fun q => q.filePath = f.path)
      with _ | r0
    · -- create branch
      have hfind2 : db2.songFiles.find? (fun q => q.filePath = f.path) =
          none := by
        rw [e2]
        exact hfind
      have hstep : stepDb cfg none now1 D f =
          { db2 with
              songs := db2.songs ++
                [⟨db2.nextSongId, (parsedOf f).title, (parsedOf f).composers,
                  (parsedOf f).durationSeconds, (parsedOf f).transcriber,
                  none, none, none, none, none, 0, some recs, now1, now1⟩],
              songFiles := db2.songFiles ++
                [⟨db2.nextSongFileId, some db2.nextSongId, f.path, f.mtime,
                  f.hash, (parsedOf f).exportTimestamp,
                  (classifyPath f.path cfg.libraryRoots cfg.setRoots
                    cfg.excludePaths).1,
                  (classifyPath f.path cfg.libraryRoots cfg.setRoots
                    cfg.excludePaths).2.1,
                  (classifyPath f.path cfg.libraryRoots cfg.setRoots
                    cfg.excludePaths).2.2,
                  now1, now1⟩],
              nextSongId := db2.nextSongId + 1,
              nextSongFileId := db2.nextSongFileId + 1 } := by
        rw [stepDb_none_ok cfg now1 D f c hc, hparsed]
        unfold ensureSongFromParsed
        rw [partsToRecs_eq_ptrGo, hgo]
        simp only [hfind2]
      rw [hstep]
      set fN : SongFileRow :=
        ⟨db2.nextSongFileId, some db2.nextSongId, f.path, f.mtime,
         f.hash, (parsedOf f).exportTimestamp,
         (classifyPath f.path cfg.libraryRoots cfg.setRoots
           cfg.excludePaths).1,
         (classifyPath f.path cfg.libraryRoots cfg.setRoots
           cfg.excludePaths).2.1,
         (classifyPath f.path cfg.libraryRoots cfg.setRoots
           cfg.excludePaths).2.2,
         now1, now1⟩ with hfN
      set sN : SongRow :=
        ⟨db2.nextSongId, (parsedOf f).title, (parsedOf f).composers,
         (parsedOf f).durationSeconds, (parsedOf f).transcriber,
         none, none, none, none, none, 0, some recs, now1, now1⟩ with hsN
      have hnotmem : f.path ∉ D.songFiles.map (fun r => r.filePath) := by
        intro hmem
        obtain ⟨r, hr, hrp⟩ := List.mem_map.mp hmem
        have := List.find?_eq_none.mp hfind r hr
        simp [hrp] at this
      have hfindf : (db2.songFiles ++ [fN]).find?
          (fun q => q.filePath = f.path) = some fN := by
        rw [List.find?_append, hfind2]
        simp [List.find?, hfN]
      refine ⟨?_, ?_, ?_, ?_, ?_, ⟨ext0 ++ extg, hinstr0, hok0g⟩, ?_, ?_⟩
      · simp only
        rw [e2, List.map_append, List.nodup_append]
        refine ⟨hFN, by simp, ?_⟩
        intro x hx
        obtain ⟨r, hr, hrid⟩ := List.mem_map.mp hx
        simp only [List.map_cons, List.map_nil, List.mem_singleton]
        rw [← hrid, e10]
        intro hcontra
        exact absurd hcontra (by have := hFB r hr; omega)
      · simp only
        rw [e2, List.map_append, List.nodup_append]
        refine ⟨hPN, by simp, ?_⟩
        intro x hx
        simp only [List.map_cons, List.map_nil, List.mem_singleton, hfN]
        intro he
        exact hnotmem (he ▸ hx)
      · simp only
        rw [e1, List.map_append, List.nodup_append]
        refine ⟨hSN, by simp, ?_⟩
        intro x hx
        obtain ⟨q, hq, hqid⟩ := List.mem_map.mp hx
        simp only [List.map_cons, List.map_nil, List.mem_singleton]
        rw [← hqid, e9]
        intro hcontra
        exact absurd hcontra (by have := hSB q hq; omega)
      · simp only
        rw [e2]
        intro r hr
        rcases List.mem_append.mp hr with hr | hr
        · have := hFB r hr
          rw [e10]
          omega
        · simp only [List.mem_singleton] at hr
          rw [hr]
          simp only [hfN]
          omega
      · simp only
        rw [e1]
        intro q hq
        rcases List.mem_append.mp hq with hq | hq
        · have := hSB q hq
          rw [e9]
          omega
        · simp only [List.mem_singleton] at hq
          rw [hq]
          simp only [hsN]
          omega
      · intro g hg hgs
        rcases List.mem_append.mp hg with hg | hg
        · obtain ⟨⟨r, hfr, hvals⟩, ⟨rcs, hrcs⟩⟩ := hS1 g hg hgs
          refine ⟨⟨r, ?_, hvals⟩, ⟨rcs, ?_⟩⟩
          · simp only
            rw [e2, List.find?_append, hfr]
            rfl
          · simp only
            rw [e3]
            exact hrcs.imp (fun a b hab => partResolved_extend hokg hab)
        · simp only [List.mem_singleton] at hg
          subst hg
          refine ⟨⟨fN, hfindf, ?_, ?_, ?_, ?_, ?_, ?_⟩, ⟨recs, hresg⟩⟩ <;>
            simp only [hfN]
          rw [if_neg hmt]
      · intro s' hs' g hg
        simp only at hs' hg
        rw [e1] at hs'
        rcases List.mem_append.mp hs' with hs' | hs'
        · have hlt := hSB s' hs'
          have htf : targetsB (db2.songFiles ++ [fN]) f s'.id = false := by
            rw [targetsB_of_find? hfindf]
            have hsid : fN.songId = some db2.nextSongId := by rw [hfN]
            rw [hsid, e9]
            have hne : ¬ (some D.nextSongId = some s'.id) := by
              intro hcon
              have := Option.some.inj hcon
              omega
            simp [hne]
          have htb : ∀ g' ∈ pre,
              targetsB (db2.songFiles ++ [fN]) g' s'.id =
              targetsB D.songFiles g' s'.id := by
            intro g' hg'
            cases hfd : D.songFiles.find? (fun q => q.filePath = g'.path) with
            | some r =>
              have hxx : (db2.songFiles ++ [fN]).find?
                  (fun q => q.filePath = g'.path) = some r := by
                rw [List.find?_append, e2, hfd]
                rfl
              rw [targetsB_of_find? hxx, targetsB_of_find? hfd]
            | none =>
              have hgne : g'.path ≠ f.path := hnew g' hg'
              have hxx : (db2.songFiles ++ [fN]).find?
                  (fun q => q.filePath = g'.path) = none := by
                rw [List.find?_eq_none]
                intro x hx
                rcases List.mem_append.mp hx with hx | hx
                · rw [e2] at hx
                  exact List.find?_eq_none.mp hfd x hx
                · simp only [List.mem_singleton] at hx
                  rw [hx, hfN]
                  simp only [decide_eq_true_eq]
                  exact fun he => hgne he.symm
              rw [targetsB_of_none hxx, targetsB_of_none hfd]
          rw [List.filter_append] at hg
          have hff : [f].filter
              (fun g => targetsB (db2.songFiles ++ [fN]) g s'.id) = [] := by
            simp [htf]
          rw [hff, List.append_nil, List.filter_congr htb] at hg
          obtain ⟨v1, v2, v3, v4, rcs, hp, hfa⟩ := hS2 s' hs' g hg
          refine ⟨v1, v2, v3, v4, rcs, hp, ?_⟩
          simp only
          rw [e3]
          exact hfa.imp (fun a b hab => partResolved_extend hokg hab)
        · simp only [List.mem_singleton] at hs'
          subst hs'
          have htf : targetsB (db2.songFiles ++ [fN]) f sN.id = true := by
            rw [targetsB_of_find? hfindf]
            have hsid : fN.songId = some db2.nextSongId := by rw [hfN]
            have hsid2 : sN.id = db2.nextSongId := by rw [hsN]
            rw [hsid, hsid2, hc]
            simp
          rw [List.filter_append] at hg
          have hsf : [f].filter
              (fun g => targetsB (db2.songFiles ++ [fN]) g sN.id) = [f] := by
            simp [htf]
          rw [hsf, List.getLast?_concat] at hg
          have hgf : f = g := Option.some.inj hg
          subst hgf
          refine ⟨?_, ?_, ?_, ?_, recs, ?_, hresg⟩ <;> rw [hsN]
    · -- update branch
      have hfind2 : db2.songFiles.find? (fun q => q.filePath = f.path) =
          some r0 := by
        rw [e2]
        exact hfind
      have hr0mem : r0 ∈ D.songFiles := List.mem_of_find?_eq_some hfind
      have hr0path : r0.filePath = f.path := by
        have := List.find?_some hfind
        simpa using this
      have hstep : stepDb cfg none now1 D f =
          { db2 with
              songs := db2.songs.map (fun s =>
                if some s.id = r0.songId then
                  { s with title := (parsedOf f).title,
                           composers := (parsedOf f).composers,
                           durationSeconds := (parsedOf f).durationSeconds,
                           transcriber := (parsedOf f).transcriber,
                           parts := some recs,
                           updatedAt := now1 }
                else s),
              songFiles := db2.songFiles.map (fun q =>
                if q.id = r0.id then
                  { q with
                      fileMtime :=
                        (if f.mtime = some "" then none else f.mtime),
                      fileHash := f.hash,
                      exportTimestamp := (parsedOf f).exportTimestamp,
                      isPrimaryLibrary := (classifyPath f.path
                        cfg.libraryRoots cfg.setRoots cfg.excludePaths).1,
                      isSetCopy := (classifyPath f.path cfg.libraryRoots
                        cfg.setRoots cfg.excludePaths).2.1,
                      scanExcluded := (classifyPath f.path cfg.libraryRoots
                        cfg.setRoots cfg.excludePaths).2.2,
                      updatedAt := now1 }
                else q) } := by
        rw [stepDb_none_ok cfg now1 D f c hc, hparsed]
        unfold ensureSongFromParsed
        rw [partsToRecs_eq_ptrGo, hgo]
        simp only [hfind2]
      rw [hstep]
      have hidmap : ∀ q : SongFileRow,
          ((fun q =>
            if q.id = r0.id then
              { q with
                  fileMtime := (if f.mtime = some "" then none else f.mtime),
                  fileHash := f.hash,
                  exportTimestamp := (parsedOf f).exportTimestamp,
                  isPrimaryLibrary := (classifyPath f.path
                    cfg.libraryRoots cfg.setRoots cfg.excludePaths).1,
                  isSetCopy := (classifyPath f.path cfg.libraryRoots
                    cfg.setRoots cfg.excludePaths).2.1,
                  scanExcluded := (classifyPath f.path cfg.libraryRoots
                    cfg.setRoots cfg.excludePaths).2.2,
                  updatedAt := now1 }
            else q) q).id = q.id := by
        intro q
        by_cases hq : q.id = r0.id <;> simp [hq]
      have hpathmap : ∀ q : SongFileRow,
          ((fun q =>
            if q.id = r0.id then
              { q with
                  fileMtime := (if f.mtime = some "" then none else f.mtime),
                  fileHash := f.hash,
                  exportTimestamp := (parsedOf f).exportTimestamp,
                  isPrimaryLibrary := (classifyPath f.path
                    cfg.libraryRoots cfg.setRoots cfg.excludePaths).1,
                  isSetCopy := (classifyPath f.path cfg.libraryRoots
                    cfg.setRoots cfg.excludePaths).2.1,
                  scanExcluded := (classifyPath f.path cfg.libraryRoots
                    cfg.setRoots cfg.excludePaths).2.2,
                  updatedAt := now1 }
            else q) q).filePath = q.filePath := by
        intro q
        by_cases hq : q.id = r0.id <;> simp [hq]
      have hsongidmap : ∀ q : SongFileRow,
          ((fun q =>
            if q.id = r0.id then
              { q with
                  fileMtime := (if f.mtime = some "" then none else f.mtime),
                  fileHash := f.hash,
                  exportTimestamp := (parsedOf f).exportTimestamp,
                  isPrimaryLibrary := (classifyPath f.path
                    cfg.libraryRoots cfg.setRoots cfg.excludePaths).1,
                  isSetCopy := (classifyPath f.path cfg.libraryRoots
                    cfg.setRoots cfg.excludePaths).2.1,
                  scanExcluded := (classifyPath f.path cfg.libraryRoots
                    cfg.setRoots cfg.excludePaths).2.2,
                  updatedAt := now1 }
            else q) q).songId = q.songId := by
        intro q
        by_cases hq : q.id = r0.id <;> simp [hq]
      have hsmap : ∀ q : SongRow,
          ((fun s =>
            if some s.id = r0.songId then
              { s with title := (parsedOf f).title,
                       composers := (parsedOf f).composers,
                       durationSeconds := (parsedOf f).durationSeconds,
                       transcriber := (parsedOf f).transcriber,
                       parts := some recs,
                       updatedAt := now1 }
            else s) q).id = q.id := by
        intro q
        by_cases hq : some q.id = r0.songId <;> simp [hq]
      have htbU : ∀ (g' : FsFile) (sid : Int),
          targetsB (db2.songFiles.map (fun q =>
            if q.id = r0.id then
              { q with
                  fileMtime := (if f.mtime = some "" then none else f.mtime),
                  fileHash := f.hash,
                  exportTimestamp := (parsedOf f).exportTimestamp,
                  isPrimaryLibrary := (classifyPath f.path
                    cfg.libraryRoots cfg.setRoots cfg.excludePaths).1,
                  isSetCopy := (classifyPath f.path cfg.libraryRoots
                    cfg.setRoots cfg.excludePaths).2.1,
                  scanExcluded := (classifyPath f.path cfg.libraryRoots
                    cfg.setRoots cfg.excludePaths).2.2,
                  updatedAt := now1 }
            else q)) g' sid = targetsB D.songFiles g' sid := by
        intro g' sid
        rw [e2]
        have hxx := find?_path_map D.songFiles hpathmap g'.path
        cases hfd : D.songFiles.find? (fun q => q.filePath = g'.path) with
        | some r =>
          have h1 : (D.songFiles.map (fun q =>
              if q.id = r0.id then
                { q with
                    fileMtime :=
                      (if f.mtime = some "" then none else f.mtime),
                    fileHash := f.hash,
                    exportTimestamp := (parsedOf f).exportTimestamp,
                    isPrimaryLibrary := (classifyPath f.path
                      cfg.libraryRoots cfg.setRoots cfg.excludePaths).1,
                    isSetCopy := (classifyPath f.path cfg.libraryRoots
                      cfg.setRoots cfg.excludePaths).2.1,
                    scanExcluded := (classifyPath f.path cfg.libraryRoots
                      cfg.setRoots cfg.excludePaths).2.2,
                    updatedAt := now1 }
              else q)).find? (fun q => q.filePath = g'.path) =
              some ((fun q =>
                if q.id = r0.id then
                  { q with
                      fileMtime :=
                        (if f.mtime = some "" then none else f.mtime),
                      fileHash := f.hash,
                      exportTimestamp := (parsedOf f).exportTimestamp,
                      isPrimaryLibrary := (classifyPath f.path
                        cfg.libraryRoots cfg.setRoots cfg.excludePaths).1,
                      isSetCopy := (classifyPath f.path cfg.libraryRoots
                        cfg.setRoots cfg.excludePaths).2.1,
                      scanExcluded := (classifyPath f.path cfg.libraryRoots
                        cfg.setRoots cfg.excludePaths).2.2,
                      updatedAt := now1 }
                else q) r) := by
            rw [hxx, hfd]
            rfl
          rw [targetsB_of_find? h1, targetsB_of_find? hfd, hsongidmap]
        | none =>
          have h1 : (D.songFiles.map (fun q =>
              if q.id = r0.id then
                { q with
                    fileMtime :=
                      (if f.mtime = some "" then none else f.mtime),
                    fileHash := f.hash,
                    exportTimestamp := (parsedOf f).exportTimestamp,
                    isPrimaryLibrary := (classifyPath f.path
                      cfg.libraryRoots cfg.setRoots cfg.excludePaths).1,
                    isSetCopy := (classifyPath f.path cfg.libraryRoots
                      cfg.setRoots cfg.excludePaths).2.1,
                    scanExcluded := (classifyPath f.path cfg.libraryRoots
                      cfg.setRoots cfg.excludePaths).2.2,
                    updatedAt := now1 }
              else q)).find? (fun q => q.filePath = g'.path) = none := by
            rw [hxx, hfd]
            rfl
          rw [targetsB_of_none h1, targetsB_of_none hfd]
      refine ⟨?_, ?_, ?_, ?_, ?_, ⟨ext0 ++ extg, hinstr0, hok0g⟩, ?_, ?_⟩
      · simp only
        rw [e2, map_comp_eq _ _ _ (fun q _ => hidmap q)]
        exact hFN
      · simp only
        rw [e2, map_comp_eq _ _ _ (fun q _ => hpathmap q)]
        exact hPN
      · simp only
        rw [e1, map_comp_eq _ _ _ (fun q _ => hsmap q)]
        exact hSN
      · simp only
        rw [e2, e10]
        intro r' hr'
        obtain ⟨q, hq, hqe⟩ := List.mem_map.mp hr'
        rw [← hqe, hidmap]
        exact hFB q hq
      · simp only
        rw [e1, e9]
        intro s' hs'
        obtain ⟨q, hq, hqe⟩ := List.mem_map.mp hs'
        rw [← hqe, hsmap]
        exact hSB q hq
      · intro g hg hgs
        rcases List.mem_append.mp hg with hg | hg
        · obtain ⟨⟨r, hfr, hvals⟩, ⟨rcs, hrcs⟩⟩ := hS1 g hg hgs
          have hrmem : r ∈ D.songFiles := List.mem_of_find?_eq_some hfr
          have hrpath : r.filePath = g.path := by
            have := List.find?_some hfr
            simpa using this
          have hrne : ¬ (r.id = r0.id) := by
            intro hcon
            have : r = r0 := List.inj_on_of_nodup_map hFN hrmem hr0mem hcon
            rw [this, hr0path] at hrpath
            exact hnew g hg hrpath.symm
          have hxx := find?_path_map D.songFiles hpathmap g.path
          rw [hfr] at hxx
          refine ⟨⟨r, ?_, hvals⟩, ⟨rcs, ?_⟩⟩
          · simp only
            rw [e2, hxx]
            simp [hrne]
          · simp only
            rw [e3]
            exact hrcs.imp (fun a b hab => partResolved_extend hokg hab)
        · simp only [List.mem_singleton] at hg
          subst hg
          have hxx := find?_path_map D.songFiles hpathmap g.path
          rw [hfind] at hxx
          refine ⟨⟨{ r0 with
              fileMtime := (if g.mtime = some "" then none else g.mtime),
              fileHash := g.hash,
              exportTimestamp := (parsedOf g).exportTimestamp,
              isPrimaryLibrary := (classifyPath g.path
                cfg.libraryRoots cfg.setRoots cfg.excludePaths).1,
              isSetCopy := (classifyPath g.path cfg.libraryRoots
                cfg.setRoots cfg.excludePaths).2.1,
              scanExcluded := (classifyPath g.path cfg.libraryRoots
                cfg.setRoots cfg.excludePaths).2.2,
              updatedAt := now1 },
            ?_, rfl, rfl, rfl, rfl, rfl, rfl⟩, ⟨recs, hresg⟩⟩
          simp only
          rw [e2, hxx]
          simp
      · intro s' hs' g hg
        simp only at hs' hg
        rw [e1] at hs'
        obtain ⟨q, hq, hqe⟩ := List.mem_map.mp hs'
        have hsid : s'.id = q.id := by
          rw [← hqe, hsmap]
        rw [List.filter_congr (fun a _ => htbU a s'.id),
          List.filter_append] at hg
        have htff : targetsB D.songFiles f s'.id =
            (f.content.isSome && decide (r0.songId = some s'.id)) :=
          targetsB_of_find? hfind s'.id
        by_cases hown : r0.songId = some q.id
        · have htf : targetsB D.songFiles f s'.id = true := by
            rw [htff, hc, hsid, hown]
            simp
          have hsf : [f].filter (fun g => targetsB D.songFiles g s'.id) =
              [f] := by
            simp [htf]
          rw [hsf, List.getLast?_concat] at hg
          have hgf : f = g := Option.some.inj hg
          subst hgf
          have hs'eq : s' =
              { q with
                title := (parsedOf f).title,
                composers := (parsedOf f).composers,
                durationSeconds := (parsedOf f).durationSeconds,
                transcriber := (parsedOf f).transcriber,
                parts := some recs,
                updatedAt := now1 } := by
            rw [← hqe]
            simp [hown]
          rw [hs'eq]
          exact ⟨rfl, rfl, rfl, rfl, recs, rfl, hresg⟩
        · have htf : targetsB D.songFiles f s'.id = false := by
            rw [htff, hsid]
            simp [hown]
          have hsf : [f].filter (fun g => targetsB D.songFiles g s'.id) =
              [] := by
            simp [htf]
          rw [hsf, List.append_nil] at hg
          have hs'eq : s' = q := by
            rw [← hqe, if_neg (fun hcon => hown hcon.symm)]
          rw [hs'eq] at hg ⊢
          obtain ⟨v1, v2, v3, v4, rcs, hp, hfa⟩ := hS2 q hq g hg
          refine ⟨v1, v2, v3, v4, rcs, hp, ?_⟩
          simp only
          rw [e3]
          exact hfa.imp (fun a b hab => partResolved_extend hokg hab)

/-- The scan invariant holds initially over a well-formed catalog. -/
theorem scanInv_init (cfg : RootsConfig) (db0 : DB)
    (hFN : (db0.songFiles.map (fun r => r.id)).Nodup)
    (hPN : (db0.songFiles.map (fun r => r.filePath)).Nodup)
    (hSN : (db0.songs.map (fun s => s.id)).Nodup)
    (hFB : ∀ r ∈ db0.songFiles, r.id < db0.nextSongFileId)
    (hSB : ∀ s ∈ db0.songs, s.id < db0.nextSongId) :
    ScanInv cfg db0 [] db0 := by
  refine ⟨hFN, hPN, hSN, hFB, hSB, ⟨[], by simp, extOk_nil db0.instruments⟩,
    ?_, ?_⟩
  · intro f hf
    simp at hf
  · intro s hs f hf
    simp [List.filter_nil] at hf

/-- Folding the policy-free step over a list of files with fresh,
duplicate-free paths preserves the scan invariant. -/
theorem scan_fold (cfg : RootsConfig) (db0 : DB) (now1 : String)
    (l : List FsFile) : ∀ (pre : List FsFile) (D : DB),
    ScanInv cfg db0 pre D →
    ((pre ++ l).map (fun f => f.path)).Nodup →
    (∀ f ∈ l, f.mtime ≠ some "") →
    ScanInv cfg db0 (pre ++ l) (runFilesDb cfg none now1 l D) := by
  induction l with
  | nil =>
    intro pre D hInv hnd hmt
    simpa [runFilesDb] using hInv
  | cons f rest ih =>
    intro pre D hInv hnd hmt
    have hnew : ∀ g ∈ pre, g.path ≠ f.path := by
      intro g hg he
      rw [List.map_append, List.nodup_append] at hnd
      exact hnd.2.2 (List.mem_map_of_mem _ hg) (by simp [he])
    have hstep := scan_step now1 hInv hnew (hmt f (by simp))
    have hnd' : (((pre ++ [f]) ++ rest).map (fun f => f.path)).Nodup := by
      rw [List.append_assoc]
      simpa using hnd
    have hmt' : ∀ g ∈ rest, g.mtime ≠ some "" :=
      fun g hg => hmt g (by simp [hg])
    have hres := ih (pre ++ [f]) _ hstep hnd' hmt'
    rw [List.append_assoc] at hres
    simpa [runFilesDb] using hres

/-- The id, if any, a `made_for` hint resolves to on a table where
resolution never needs to create: exact primary-name hit first, else the
first case-insensitive alternative-name hit. -/
def resolveRec (T : List InstrumentRow) (p : PartInfo) : PartRec :=
  ⟨p.partNumber, p.partName,
   match p.madeFor with
   | none => none
   | some m =>
     if m = "" then none
     else
       match T.find? (fun w => w.name = hintName m) with
       | some r => some r.id
       | none =>
         (T.find? (fun w =>
           altNamesMatch w.alternativeNames (hintName m))).map
           (fun r => r.id)⟩

theorem partRec_ext {a b : PartRec} (h1 : a.partNumber = b.partNumber)
    (h2 : a.partName = b.partName) (h3 : a.instrumentId = b.instrumentId) :
    a = b := by
  cases a
  cases b
  simp_all

/-- A record resolving a part against a table is the one `resolveRec`
computes. -/
theorem partResolved_unique {T : List InstrumentRow} {p : PartInfo}
    {rec : PartRec} (h : partResolved T p rec) : rec = resolveRec T p := by
  obtain ⟨h1, h2, h3⟩ := h
  have h4 : rec.instrumentId = (resolveRec T p).instrumentId := by
    rcases hm : p.madeFor with _ | m
    · simp only [hm] at h3
      simp only [resolveRec, hm]
      exact h3
    · simp only [hm] at h3
      by_cases he : m = ""
      · rw [if_pos he] at h3
        simp only [resolveRec, hm, if_pos he]
        exact h3
      · rw [if_neg he] at h3
        obtain ⟨i, hi, hhit⟩ := h3
        rcases hhit with ⟨r, hr, hir⟩ | ⟨hnone, r, hr, hir⟩
        · simp only [resolveRec, hm, if_neg he, hr]
          rw [hi, hir]
        · simp only [resolveRec, hm, if_neg he, hnone, hr]
          rw [hi, hir]
          rfl
  exact partRec_ext (by rw [h1]; rfl) (by rw [h2]; rfl) h4

/-- A fully resolving record list is pinned down by the table. -/
theorem forall₂_resolved_eq_map {T : List InstrumentRow} :
    ∀ {ps : List PartInfo} {recs : List PartRec},
    List.Forall₂ (partResolved T) ps recs → recs = ps.map (resolveRec T) := by
  intro ps recs h
  induction h with
  | nil => rfl
  | cons hpr htail ih =>
    simp only [List.map_cons]
    rw [partResolved_unique hpr, ih]

/-- The `SongFile` column writes of an update-branch upsert for file
`f`. -/
def updFileBy (cfg : RootsConfig) (now : String) (f : FsFile)
    (r : SongFileRow) : SongFileRow :=
  { r with
      fileMtime := (if f.mtime = some "" then none else f.mtime),
      fileHash := f.hash,
      exportTimestamp := (parsedOf f).exportTimestamp,
      isPrimaryLibrary :=
        (classifyPath f.path cfg.libraryRoots cfg.setRoots
          cfg.excludePaths).1,
      isSetCopy :=
        (classifyPath f.path cfg.libraryRoots cfg.setRoots
          cfg.excludePaths).2.1,
      scanExcluded :=
        (classifyPath f.path cfg.libraryRoots cfg.setRoots
          cfg.excludePaths).2.2,
      updatedAt := now }

/-- The `Song` column writes of an update-branch upsert for file `f`,
with parts resolved against table `T`. -/
def updSongBy (T : List InstrumentRow) (now : String) (f : FsFile)
    (s : SongRow) : SongRow :=
  { s with
      title := (parsedOf f).title,
      composers := (parsedOf f).composers,
      durationSeconds := (parsedOf f).durationSeconds,
      transcriber := (parsedOf f).transcriber,
      parts := some ((parsedOf f).parts.map (resolveRec T)),
      updatedAt := now }

/-- The rescan writer of a `SongFile` row: the unique readable file of
the processed prefix carrying the row's path, if any. -/
def wr2 (cfg : RootsConfig) (now : String) (pre : List FsFile)
    (r : SongFileRow) : SongFileRow :=
  match pre.find?
      (fun g => g.content.isSome && decide (g.path = r.filePath)) with
  | some g => updFileBy cfg now g r
  | none => r

/-- The rescan writer of a `Song` row: its last writer in the processed
prefix, if any. -/
def ws2 (T : List InstrumentRow) (rows : List SongFileRow) (now : String)
    (pre : List FsFile) (s : SongRow) : SongRow :=
  match (pre.filter (fun g => targetsB rows g s.id)).getLast? with
  | some g => updSongBy T now g s
  | none => s

/-- The catalog reached by rescanning a prefix of already-catalogued
files: every row rewritten in place by its (last) writer. -/
def run2State (cfg : RootsConfig) (db1 : DB) (now : String)
    (pre : List FsFile) : DB :=
  { db1 with
      songFiles := db1.songFiles.map (wr2 cfg now pre),
      songs := db1.songs.map (ws2 db1.instruments db1.songFiles now pre) }

theorem run2State_nil (cfg : RootsConfig) (db1 : DB) (now : String) :
    run2State cfg db1 now [] = db1 := by
  have hf : ∀ r ∈ db1.songFiles, wr2 cfg now [] r = r := by
    intro r hr
    simp [wr2]
  have hs : ∀ s ∈ db1.songs, ws2 db1.instruments db1.songFiles now [] s = s := by
    intro s hs
    simp [ws2]
  unfold run2State
  refine DB.ext' ?_ ?_ rfl rfl rfl rfl rfl rfl rfl rfl rfl
  · rw [List.map_congr_left hs]
    exact List.map_id _
  · rw [List.map_congr_left hf]
    exact List.map_id _

theorem wr2_path (cfg : RootsConfig) (now : String) (pre : List FsFile)
    (r : SongFileRow) : (wr2 cfg now pre r).filePath = r.filePath := by
  unfold wr2
  cases pre.find?
      (fun g => g.content.isSome && decide (g.path = r.filePath)) with
  | none => rfl
  | some g => rfl

theorem wr2_id (cfg : RootsConfig) (now : String) (pre : List FsFile)
    (r : SongFileRow) : (wr2 cfg now pre r).id = r.id := by
  unfold wr2
  cases pre.find?
      (fun g => g.content.isSome && decide (g.path = r.filePath)) with
  | none => rfl
  | some g => rfl

theorem wr2_songId (cfg : RootsConfig) (now : String) (pre : List FsFile)
    (r : SongFileRow) : (wr2 cfg now pre r).songId = r.songId := by
  unfold wr2
  cases pre.find?
      (fun g => g.content.isSome && decide (g.path = r.filePath)) with
  | none => rfl
  | some g => rfl

theorem ws2_id (T : List InstrumentRow) (rows : List SongFileRow)
    (now : String) (pre : List FsFile) (s : SongRow) :
    (ws2 T rows now pre s).id = s.id := by
  unfold ws2
  cases (pre.filter (fun g => targetsB rows g s.id)).getLast? with
  | none => rfl
  | some g => rfl

/-- A later writer of a song overwrites an earlier one completely. -/
theorem updSongBy_absorb (T : List InstrumentRow) (rows : List SongFileRow)
    (now : String) (pre : List FsFile) (f : FsFile) (s : SongRow) :
    updSongBy T now f (ws2 T rows now pre s) = updSongBy T now f s := by
  unfold ws2
  cases (pre.filter (fun g => targetsB rows g s.id)).getLast? with
  | none => rfl
  | some g => rfl

/-- Rescanning one already-catalogued file advances the rescan state by
that file. -/
theorem rescan_step (cfg : RootsConfig) (db1 : DB) (now : String)
    (pre : List FsFile) (f : FsFile)
    (hPN : (db1.songFiles.map (fun r => r.filePath)).Nodup)
    (hFN : (db1.songFiles.map (fun r => r.id)).Nodup)
    (hrow : f.content.isSome = true →
      ∃ r, db1.songFiles.find? (fun q => q.filePath = f.path) = some r)
    (hres : f.content.isSome = true →
      ∃ recs, List.Forall₂ (partResolved db1.instruments)
        (parsedOf f).parts recs)
    (hnew : ∀ g ∈ pre, g.path ≠ f.path) :
    stepDb cfg none now (run2State cfg db1 now pre) f =
      run2State cfg db1 now (pre ++ [f]) := by
  cases hc : f.content with
  | none =>
    rw [stepDb_err cfg none now _ f hc]
    unfold run2State
    refine DB.ext' ?_ ?_ rfl rfl rfl rfl rfl rfl rfl rfl rfl
    · refine List.map_congr_left ?_
      intro s hs
      unfold ws2
      have hfe : (pre ++ [f]).filter
          (fun g => targetsB db1.songFiles g s.id) =
          pre.filter (fun g => targetsB db1.songFiles g s.id) := by
        rw [List.filter_append]
        have h1 : [f].filter (fun g => targetsB db1.songFiles g s.id) =
            [] := by
          simp [targetsB, hc]
        rw [h1, List.append_nil]
      rw [hfe]
    · refine List.map_congr_left ?_
      intro r hr
      unfold wr2
      have hfe : (pre ++ [f]).find?
          (fun g => g.content.isSome && decide (g.path = r.filePath)) =
          pre.find?
            (fun g => g.content.isSome && decide (g.path = r.filePath)) := by
        rw [List.find?_append]
        have h1 : [f].find?
            (fun g => g.content.isSome && decide (g.path = r.filePath)) =
            none := by
          rw [List.find?_eq_none]
          intro x hx
          simp only [List.mem_singleton] at hx
          subst hx
          simp [hc]
        rw [h1]
        cases pre.find?
            (fun g => g.content.isSome && decide (g.path = r.filePath)) <;>
          rfl
      rw [hfe]
  | some c =>
    have hok : f.content.isSome = true := by rw [hc]; rfl
    obtain ⟨r0, hfound⟩ := hrow hok
    have hr0mem : r0 ∈ db1.songFiles := List.mem_of_find?_eq_some hfound
    have hr0path : r0.filePath = f.path := by
      have := List.find?_some hfound
      simpa using this
    obtain ⟨recs0, hrecs0⟩ := hres hok
    have hrecseq : recs0 =
        (parsedOf f).parts.map (resolveRec db1.instruments) :=
      forall₂_resolved_eq_map hrecs0
    have hparsed : parseAbcContent c (some (f.path.getLastD "")) =
        parsedOf f := by
      unfold parsedOf
      rw [hc]
      rfl
    have hgo : ptrGo now (parsedOf f).parts (run2State cfg db1 now pre) =
        (recs0, run2State cfg db1 now pre) := by
      apply ptrGo_resolved
      exact hrecs0
    have hwr0 : wr2 cfg now pre r0 = r0 := by
      unfold wr2
      have h1 : pre.find?
          (fun g => g.content.isSome && decide (g.path = r0.filePath)) =
          none := by
        rw [List.find?_eq_none]
        intro g hg
        simp only [Bool.and_eq_true, decide_eq_true_eq, not_and]
        intro _
        rw [hr0path]
        exact hnew g hg
      rw [h1]
    have hfoundE : (run2State cfg db1 now pre).songFiles.find?
        (fun q => q.filePath = f.path) = some r0 := by
      show (db1.songFiles.map (wr2 cfg now pre)).find?
        (fun q => q.filePath = f.path) = some r0
      rw [find?_path_map db1.songFiles (wr2_path cfg now pre) f.path, hfound]
      show some (wr2 cfg now pre r0) = some r0
      rw [hwr0]
    have hstep : stepDb cfg none now (run2State cfg db1 now pre) f =
        { run2State cfg db1 now pre with
            songs := (run2State cfg db1 now pre).songs.map (fun s =>
              if some s.id = r0.songId then
                { s with title := (parsedOf f).title,
                         composers := (parsedOf f).composers,
                         durationSeconds := (parsedOf f).durationSeconds,
                         transcriber := (parsedOf f).transcriber,
                         parts := some recs0,
                         updatedAt := now }
              else s),
            songFiles := (run2State cfg db1 now pre).songFiles.map (fun r =>
              if r.id = r0.id then
                { r with
                    fileMtime :=
                      (if f.mtime = some "" then none else f.mtime),
                    fileHash := f.hash,
                    exportTimestamp := (parsedOf f).exportTimestamp,
                    isPrimaryLibrary := (classifyPath f.path cfg.libraryRoots
                      cfg.setRoots cfg.excludePaths).1,
                    isSetCopy := (classifyPath f.path cfg.libraryRoots
                      cfg.setRoots cfg.excludePaths).2.1,
                    scanExcluded := (classifyPath f.path cfg.libraryRoots
                      cfg.setRoots cfg.excludePaths).2.2,
                    updatedAt := now }
              else r) } := by
      rw [stepDb_none_ok cfg now _ f c hc, hparsed]
      unfold ensureSongFromParsed
      rw [partsToRecs_eq_ptrGo, hgo]
      simp only [hfoundE]
    rw [hstep]
    unfold run2State
    refine DB.ext' ?_ ?_ rfl rfl rfl rfl rfl rfl rfl rfl rfl
    · simp only
      rw [List.map_map]
      refine List.map_congr_left ?_
      intro s hs
      simp only [Function.comp]
      by_cases hown : r0.songId = some s.id
      · have hcond :
            some (ws2 db1.instruments db1.songFiles now pre s).id =
              r0.songId := by
          rw [ws2_id, hown]
        rw [if_pos hcond]
        have htf : targetsB db1.songFiles f s.id = true := by
          rw [targetsB_of_find? hfound, hown, hc]
          simp
        have hfe : (pre ++ [f]).filter
            (fun g => targetsB db1.songFiles g s.id) =
            pre.filter (fun g => targetsB db1.songFiles g s.id) ++ [f] := by
          rw [List.filter_append]
          simp [htf]
        have hrhs : ws2 db1.instruments db1.songFiles now (pre ++ [f]) s =
            updSongBy db1.instruments now f s := by
          unfold ws2
          rw [hfe, List.getLast?_concat]
        rw [hrhs, hrecseq]
        exact updSongBy_absorb db1.instruments db1.songFiles now pre f s
      · have hcond :
            ¬ (some (ws2 db1.instruments db1.songFiles now pre s).id =
              r0.songId) := by
          rw [ws2_id]
          exact fun hcon => hown hcon.symm
        rw [if_neg hcond]
        have htf : targetsB db1.songFiles f s.id = false := by
          rw [targetsB_of_find? hfound]
          simp [hown]
        have hrhs : ws2 db1.instruments db1.songFiles now (pre ++ [f]) s =
            ws2 db1.instruments db1.songFiles now pre s := by
          unfold ws2
          have hfe : (pre ++ [f]).filter
              (fun g => targetsB db1.songFiles g s.id) =
              pre.filter (fun g => targetsB db1.songFiles g s.id) := by
            rw [List.filter_append]
            simp [htf]
          rw [hfe]
        rw [hrhs]
    · simp only
      rw [List.map_map]
      refine List.map_congr_left ?_
      intro r hr
      simp only [Function.comp]
      by_cases hpq : r.filePath = f.path
      · have hrr0 : r = r0 := by
          apply List.inj_on_of_nodup_map hPN hr hr0mem
          rw [hpq, hr0path]
        subst hrr0
        rw [hwr0]
        have hrhs : wr2 cfg now (pre ++ [f]) r = updFileBy cfg now f r := by
          unfold wr2
          have hf1 : (pre ++ [f]).find?
              (fun g => g.content.isSome && decide (g.path = r.filePath)) =
              some f := by
            rw [List.find?_append]
            have h1 : pre.find?
                (fun g => g.content.isSome && decide (g.path = r.filePath)) =
                none := by
              rw [List.find?_eq_none]
              intro g hg
              simp only [Bool.and_eq_true, decide_eq_true_eq, not_and]
              intro _
              rw [hr0path]
              exact hnew g hg
            rw [h1]
            simp [List.find?, hc, hr0path]
          rw [hf1]
        rw [hrhs]
        simp [updFileBy]
      · have hrne : r ≠ r0 := fun hcon => hpq (by rw [hcon, hr0path])
        have hidne : r.id ≠ r0.id := by
          intro hcon
          exact hrne (List.inj_on_of_nodup_map hFN hr hr0mem hcon)
        have hcond : ¬ ((wr2 cfg now pre r).id = r0.id) := by
          rw [wr2_id]
          exact hidne
        rw [if_neg hcond]
        have hrhs : wr2 cfg now (pre ++ [f]) r = wr2 cfg now pre r := by
          unfold wr2
          have hfe : (pre ++ [f]).find?
              (fun g => g.content.isSome && decide (g.path = r.filePath)) =
              pre.find?
                (fun g => g.content.isSome && decide (g.path = r.filePath))
              := by
            rw [List.find?_append]
            have h1 : [f].find?
                (fun g => g.content.isSome && decide (g.path = r.filePath)) =
                none := by
              rw [List.find?_eq_none]
              intro x hx
              simp only [List.mem_singleton] at hx
              subst hx
              simp only [Bool.and_eq_true, decide_eq_true_eq, not_and]
              intro _ hcon
              exact hpq hcon.symm
            rw [h1]
            cases pre.find?
                (fun g => g.content.isSome && decide (g.path = r.filePath))
              <;> rfl
          rw [hfe]
        rw [hrhs]

/-- Rescanning a list of already-catalogued files with duplicate-free
paths computes the rescan state. -/
theorem rescan_fold (cfg : RootsConfig) (db1 : DB) (now : String)
    (hPN : (db1.songFiles.map (fun r => r.filePath)).Nodup)
    (hFN : (db1.songFiles.map (fun r => r.id)).Nodup)
    (l : List FsFile) : ∀ pre : List FsFile,
    ((pre ++ l).map (fun f => f.path)).Nodup →
    (∀ f ∈ l, f.content.isSome = true →
      (∃ r, db1.songFiles.find? (fun q => q.filePath = f.path) = some r) ∧
      (∃ recs, List.Forall₂ (partResolved db1.instruments)
        (parsedOf f).parts recs)) →
    runFilesDb cfg none now l (run2State cfg db1 now pre) =
      run2State cfg db1 now (pre ++ l) := by
  induction l with
  | nil =>
    intro pre hnd hsat
    simp [runFilesDb]
  | cons f rest ih =>
    intro pre hnd hsat
    have hnew : ∀ g ∈ pre, g.path ≠ f.path := by
      intro g hg he
      rw [List.map_append, List.nodup_append] at hnd
      exact hnd.2.2 (List.mem_map_of_mem _ hg) (by simp [he])
    have hstep := rescan_step cfg db1 now pre f hPN hFN
      (fun hok => (hsat f (by simp) hok).1)
      (fun hok => (hsat f (by simp) hok).2) hnew
    show runFilesDb cfg none now rest
        (stepDb cfg none now (run2State cfg db1 now pre) f) = _
    rw [hstep]
    have hres := ih (pre ++ [f]) (by rw [List.append_assoc]; simpa using hnd)
      (fun g hg => hsat g (by simp [hg]))
    rw [hres, List.append_assoc]
    rfl

/-- A rewrite by a file whose stored values the row already carries only
touches `updated_at`. -/
theorem updFileBy_fileVals {cfg : RootsConfig} {now : String} {g : FsFile}
    {r : SongFileRow} (h : fileVals cfg g r) :
    updFileBy cfg now g r = { r with updatedAt := now } := by
  obtain ⟨h1, h2, h3, h4, h5, h6⟩ := h
  cases r with
  | mk rid rsid rp rmt rh ret rpl rsc rse rca rua =>
    simp only at h1 h2 h3 h4 h5 h6
    simp [updFileBy, h1, h2, h3, h4, h5, h6]

/-- A song rewrite by a file whose stored values the song already
carries only touches `updated_at`. -/
theorem updSongBy_songVals {T : List InstrumentRow} {now : String}
    {g : FsFile} {s : SongRow} (h : songVals g T s) :
    updSongBy T now g s = { s with updatedAt := now } := by
  obtain ⟨h1, h2, h3, h4, recs, hp, hfa⟩ := h
  have hps : s.parts = some ((parsedOf g).parts.map (resolveRec T)) := by
    rw [hp, forall₂_resolved_eq_map hfa]
  cases s with
  | mk sid st sc sd str sr sst sn sl slp stp sp sca sua =>
    simp only at h1 h2 h3 h4 hps
    simp [updSongBy, h1, h2, h3, h4, hps]

/-- Modulo `updated_at`, a saturated catalog is a fixed point of the
rescan. -/
theorem run2_erase (cfg : RootsConfig) (db1 : DB) (now : String)
    (L : List FsFile)
    (hPN : (db1.songFiles.map (fun r => r.filePath)).Nodup)
    (hS1 : ∀ f ∈ L, f.content.isSome = true →
      ∃ r, db1.songFiles.find? (fun q => q.filePath = f.path) = some r ∧
        fileVals cfg f r)
    (hS2 : ∀ s ∈ db1.songs, ∀ f,
      (L.filter (fun g => targetsB db1.songFiles g s.id)).getLast? =
        some f → songVals f db1.instruments s) :
    eraseUpd (run2State cfg db1 now L) = eraseUpd db1 := by
  unfold eraseUpd run2State
  refine DB.ext' ?_ ?_ rfl rfl rfl rfl rfl rfl rfl rfl rfl
  · simp only
    rw [List.map_map]
    refine List.map_congr_left ?_
    intro s hs
    simp only [Function.comp]
    cases hlast : (L.filter
        (fun g => targetsB db1.songFiles g s.id)).getLast? with
    | none =>
      have hws : ws2 db1.instruments db1.songFiles now L s = s := by
        unfold ws2
        rw [hlast]
      rw [hws]
    | some g =>
      have hws : ws2 db1.instruments db1.songFiles now L s =
          updSongBy db1.instruments now g s := by
        unfold ws2
        rw [hlast]
      rw [hws, updSongBy_songVals (hS2 s hs g hlast)]
  · simp only
    rw [List.map_map]
    refine List.map_congr_left ?_
    intro r hr
    simp only [Function.comp]
    cases hfd : L.find?
        (fun g => g.content.isSome && decide (g.path = r.filePath)) with
    | none =>
      have hwr : wr2 cfg now L r = r := by
        unfold wr2
        rw [hfd]
      rw [hwr]
    | some g =>
      have hgmem : g ∈ L := List.mem_of_find?_eq_some hfd
      have hp := List.find?_some hfd
      simp only [Bool.and_eq_true, decide_eq_true_eq] at hp
      obtain ⟨r', hr', hvals⟩ := hS1 g hgmem hp.1
      have hr'path : r'.filePath = g.path := by
        have := List.find?_some hr'
        simpa using this
      have hre : r' = r :=
        List.inj_on_of_nodup_map hPN (List.mem_of_find?_eq_some hr') hr
          (by rw [hr'path, hp.2])
      have hwr : wr2 cfg now L r = updFileBy cfg now g r := by
        unfold wr2
        rw [hfd]
      rw [hwr, updFileBy_fileVals (hre ▸ hvals)]

/-- A second reconcile over the rescanned catalog removes nothing: every
row's path was seen and every song keeps a referencing row. -/
theorem rm_stable (cfg : RootsConfig) (X : DB) (P : List FsPath)
    (now : String) (L : List FsFile) (hPne : P.isEmpty = false) :
    removeMissingSongFiles
        (run2State cfg (removeMissingSongFiles X P) now L) P =
      run2State cfg (removeMissingSongFiles X P) now L := by
  have hrowP : ∀ r ∈ (run2State cfg (removeMissingSongFiles X P) now
      L).songFiles, r.filePath ∈ P := by
    intro r hr
    obtain ⟨r', hr', hre⟩ := List.mem_map.mp hr
    rw [← hre, wr2_path]
    exact removeMissing_songFiles_mem X P r' hr'
  have hkY : keptFiles (run2State cfg (removeMissingSongFiles X P) now L)
      P = (run2State cfg (removeMissingSongFiles X P) now L).songFiles := by
    unfold keptFiles
    rw [if_neg (by simp [hPne])]
    refine List.filter_eq_self.mpr ?_
    intro r hr
    simpa using hrowP r hr
  have hK : keptSongIds (run2State cfg (removeMissingSongFiles X P) now L)
      P = keptSongIds X P := by
    unfold keptSongIds
    rw [hkY]
    show ((removeMissingSongFiles X P).songFiles.map
      (wr2 cfg now L)).filterMap (fun r => r.songId) = _
    rw [List.filterMap_map]
    refine List.filterMap_congr ?_
    intro r hr
    simp only [Function.comp]
    rw [wr2_songId]
  have hsongsK : ∀ s ∈ (run2State cfg (removeMissingSongFiles X P) now
      L).songs,
      (keptSongIds (run2State cfg (removeMissingSongFiles X P) now L)
        P).contains s.id = true := by
    intro s hs
    obtain ⟨s', hs', hse⟩ := List.mem_map.mp hs
    rw [← hse, ws2_id, hK]
    obtain ⟨row, hrow, hrid⟩ := removeMissing_songs_have_file X P s' hs'
    have : s'.id ∈ keptSongIds X P := by
      rw [rm_songFiles] at hrow
      exact List.mem_filterMap.mpr ⟨row, hrow, hrid⟩
    simpa using this
  refine DB.ext' ?_ ?_ rfl ?_ ?_ ?_ ?_ ?_ rfl rfl rfl
  · rw [rm_songs]
    exact List.filter_eq_self.mpr hsongsK
  · rw [rm_songFiles]
    exact hkY
  · rw [rm_playLogs, hK]
    have hYpl : (run2State cfg (removeMissingSongFiles X P) now
        L).playLogs = X.playLogs.filter
        (fun p => (keptSongIds X P).contains p.songId) := rfl
    rw [hYpl]
    exact List.filter_eq_self.mpr (fun a ha => (List.mem_filter.mp ha).2)
  · rw [rm_items, hK]
    have hYit : (run2State cfg (removeMissingSongFiles X P) now
        L).setlistItems = X.setlistItems.filter
        (fun it => (keptSongIds X P).contains it.songId) := rfl
    rw [hYit]
    exact List.filter_eq_self.mpr (fun a ha => (List.mem_filter.mp ha).2)
  · rw [rm_sbas, hK]
    have hYit : (run2State cfg (removeMissingSongFiles X P) now
        L).setlistItems = X.setlistItems.filter
        (fun it => (keptSongIds X P).contains it.songId) := rfl
    rw [hYit]
    have hempty : (X.setlistItems.filter
        (fun it => (keptSongIds X P).contains it.songId)).filter
        (fun it => ¬ ((keptSongIds X P).contains it.songId = true)) =
        [] := by
      rw [List.eq_nil_iff_forall_not_mem]
      intro a ha
      have h1 := List.mem_filter.mp ha
      have h2 := List.mem_filter.mp h1.1
      have h3 := h1.2
      simp only [decide_eq_true_eq] at h3
      exact h3 h2.2
    rw [hempty]
    refine List.filter_eq_self.mpr ?_
    intro a ha
    simp
  · rw [rm_layouts, hK]
    have hYly : (run2State cfg (removeMissingSongFiles X P) now
        L).songLayouts = X.songLayouts.filter
        (fun ly => (keptSongIds X P).contains ly.songId) := rfl
    rw [hYly]
    exact List.filter_eq_self.mpr (fun a ha => (List.mem_filter.mp ha).2)
  · rw [rm_slas, hK]
    have hYly : (run2State cfg (removeMissingSongFiles X P) now
        L).songLayouts = X.songLayouts.filter
        (fun ly => (keptSongIds X P).contains ly.songId) := rfl
    rw [hYly]
    have hempty : (X.songLayouts.filter
        (fun ly => (keptSongIds X P).contains ly.songId)).filter
        (fun ly => ¬ ((keptSongIds X P).contains ly.songId = true)) =
        [] := by
      rw [List.eq_nil_iff_forall_not_mem]
      intro a ha
      have h1 := List.mem_filter.mp ha
      have h2 := List.mem_filter.mp h1.1
      have h3 := h1.2
      simp only [decide_eq_true_eq] at h3
      exact h3 h2.2
    rw [hempty]
    refine List.filter_eq_self.mpr ?_
    intro a ha
    simp

/-- With no path seen, reconciling an already-reconciled catalog changes
nothing. -/
theorem rm_nil_idem (d : DB) :
    removeMissingSongFiles (removeMissingSongFiles d []) [] =
      removeMissingSongFiles d [] := by
  refine DB.ext' ?_ ?_ rfl ?_ ?_ ?_ ?_ ?_ rfl rfl rfl <;>
    simp [removeMissingSongFiles]

/-- The run-1 invariant transports through the reconcile step: the kept
catalog keeps distinct keys, still satisfies saturation for every
collected file, and its songs keep their last writers' values. -/
theorem inv_transport (cfg : RootsConfig) (db0 : DB) (L : List FsFile)
    (X : DB) (hInv : ScanInv cfg db0 L X) (hLne : L ≠ []) :
    (((removeMissingSongFiles X (L.map (fun f => f.path))).songFiles.map
      (fun r => r.filePath)).Nodup) ∧
    (((removeMissingSongFiles X (L.map (fun f => f.path))).songFiles.map
      (fun r => r.id)).Nodup) ∧
    (∀ f ∈ L, f.content.isSome = true →
      ∃ r, (removeMissingSongFiles X
          (L.map (fun f => f.path))).songFiles.find?
          (fun q => q.filePath = f.path) = some r ∧ fileVals cfg f r) ∧
    (∀ f ∈ L, f.content.isSome = true →
      ∃ recs, List.Forall₂
        (partResolved (removeMissingSongFiles X
          (L.map (fun f => f.path))).instruments)
        (parsedOf f).parts recs) ∧
    (∀ s ∈ (removeMissingSongFiles X (L.map (fun f => f.path))).songs,
      ∀ f, (L.filter (fun g => targetsB
          (removeMissingSongFiles X (L.map (fun f => f.path))).songFiles
          g s.id)).getLast? = some f →
        songVals f (removeMissingSongFiles X
          (L.map (fun f => f.path))).instruments s) := by
  obtain ⟨hFN, hPN, hSN, _, _, _, hS1, hS2⟩ := hInv
  have hPne : (L.map (fun f => f.path)).isEmpty = false := by
    cases L with
    | nil => exact absurd rfl hLne
    | cons a l => rfl
  have hd : (removeMissingSongFiles X (L.map (fun f => f.path))).songFiles =
      X.songFiles.filter
        (fun r => (L.map (fun f => f.path)).contains r.filePath) := by
    rw [rm_songFiles]
    unfold keptFiles
    rw [if_neg (by simp [hPne])]
  have hsub : (removeMissingSongFiles X
      (L.map (fun f => f.path))).songFiles.Sublist X.songFiles := by
    rw [hd]
    exact List.filter_sublist _
  have hfind : ∀ f ∈ L,
      (removeMissingSongFiles X (L.map (fun f => f.path))).songFiles.find?
        (fun q => q.filePath = f.path) =
      X.songFiles.find? (fun q => q.filePath = f.path) := by
    intro f hf
    rw [hd]
    refine find?_filter _ _ _ ?_
    intro x hx
    simp only [decide_eq_true_eq] at hx
    have hmem : f.path ∈ L.map (fun f => f.path) :=
      List.mem_map_of_mem _ hf
    rw [hx]
    simpa using hmem
  refine ⟨?_, ?_, ?_, ?_, ?_⟩
  · exact List.Nodup.sublist (List.Sublist.map _ hsub) hPN
  · exact List.Nodup.sublist (List.Sublist.map _ hsub) hFN
  · intro f hf hok
    obtain ⟨⟨r, hr, hvals⟩, _⟩ := hS1 f hf hok
    exact ⟨r, by rw [hfind f hf]; exact hr, hvals⟩
  · intro f hf hok
    obtain ⟨_, ⟨recs, hrecs⟩⟩ := hS1 f hf hok
    exact ⟨recs, hrecs⟩
  · intro s hs f hf
    have hsX : s ∈ X.songs := by
      rw [rm_songs] at hs
      exact (List.mem_filter.mp hs).1
    have hfe : L.filter (fun g => targetsB
        (removeMissingSongFiles X (L.map (fun f => f.path))).songFiles
        g s.id) = L.filter (fun g => targetsB X.songFiles g s.id) := by
      refine List.filter_congr ?_
      intro g hg
      unfold targetsB
      rw [hfind g hg]
    rw [hfe] at hf
    exact hS2 s hsX f hf

/-- C1 (amended): with no duplicate policy, running the scan twice in a
row over any well-formed catalog — distinct `SongFile` ids and paths,
distinct `Song` ids, ids below the next-key counters, as the schema's
`INTEGER PRIMARY KEY` and `UNIQUE(file_path)` constraints and SQLite's
rowid allocation guarantee — and over files none of whose mtimes
stringify to `""`, the second run returns the same catalog except for
`updated_at` timestamps, with the same song and file counts and the same
`(files_found, files_scanned, errors)` triple. -/
theorem c1_scan_idempotence (fs : List FsFile) (cfg : RootsConfig)
    (hasCb1 hasCb2 : Bool) (db0 : DB) (now1 now2 : String)
    (hm : ∀ f ∈ fs, f.mtime ≠ some "")
    (hFN : (db0.songFiles.map (fun r => r.id)).Nodup)
    (hPN : (db0.songFiles.map (fun r => r.filePath)).Nodup)
    (hSN : (db0.songs.map (fun s => s.id)).Nodup)
    (hFB : ∀ r ∈ db0.songFiles, r.id < db0.nextSongFileId)
    (hSB : ∀ s ∈ db0.songs, s.id < db0.nextSongId) :
    eraseUpd (runScan fs cfg hasCb2 none
        (runScan fs cfg hasCb1 none db0 now1).1 now2).1 =
      eraseUpd (runScan fs cfg hasCb1 none db0 now1).1 ∧
    (runScan fs cfg hasCb2 none
        (runScan fs cfg hasCb1 none db0 now1).1 now2).1.songs.length =
      (runScan fs cfg hasCb1 none db0 now1).1.songs.length ∧
    (runScan fs cfg hasCb2 none
        (runScan fs cfg hasCb1 none db0 now1).1 now2).1.songFiles.length =
      (runScan fs cfg hasCb1 none db0 now1).1.songFiles.length ∧
    (runScan fs cfg hasCb2 none
        (runScan fs cfg hasCb1 none db0 now1).1 now2).2.1 =
      (runScan fs cfg hasCb1 none db0 now1).2.1 := by
  cases hroots : cfg.libraryRoots.isEmpty with
  | true =>
    have h1 : runScan fs cfg hasCb1 none db0 now1 =
        (removeMissingSongFiles db0 [], (0, 0, 0), []) := by
      unfold runScan
      rw [if_pos hroots]
    rw [h1]
    simp only
    have h2 : runScan fs cfg hasCb2 none (removeMissingSongFiles db0 [])
        now2 = (removeMissingSongFiles
          (removeMissingSongFiles db0 []) [], (0, 0, 0), []) := by
      unfold runScan
      rw [if_pos hroots]
    rw [h2]
    simp only
    rw [rm_nil_idem]
    refine ⟨?_, ?_, ?_, ?_⟩ <;> trivial
  | false =>
    have hnd := collect_nodup fs cfg.libraryRoots cfg.excludePaths
    have hmtL : ∀ f ∈ collectAbcFiles fs cfg.libraryRoots cfg.excludePaths,
        f.mtime ≠ some "" := fun f hf => hm f (collect_mem f hf)
    rw [runScan_eq fs cfg hasCb1 none db0 now1 hroots]
    simp only
    rw [runScan_eq fs cfg hasCb2 none _ now2 hroots]
    simp only
    by_cases hLnil :
        collectAbcFiles fs cfg.libraryRoots cfg.excludePaths = []
    · rw [hLnil]
      simp only [List.map_nil, runFilesDb]
      rw [rm_nil_idem]
      refine ⟨?_, ?_, ?_, ?_⟩ <;> trivial
    · have hInv : ScanInv cfg db0
          (collectAbcFiles fs cfg.libraryRoots cfg.excludePaths)
          (runFilesDb cfg none now1
            (collectAbcFiles fs cfg.libraryRoots cfg.excludePaths) db0) := by
        have h := scan_fold cfg db0 now1
          (collectAbcFiles fs cfg.libraryRoots cfg.excludePaths) [] db0
          (scanInv_init cfg db0 hFN hPN hSN hFB hSB)
          (by simpa using hnd) hmtL
        simpa using h
      obtain ⟨hdPN, hdFN, hdS1, hdRes, hdS2⟩ :=
        inv_transport cfg db0 _ _ hInv hLnil
      have hPne : ((collectAbcFiles fs cfg.libraryRoots
          cfg.excludePaths).map (fun f => f.path)).isEmpty = false := by
        cases hL : collectAbcFiles fs cfg.libraryRoots cfg.excludePaths with
        | nil => exact absurd hL hLnil
        | cons a l => rfl
      have hsat : ∀ g ∈ collectAbcFiles fs cfg.libraryRoots cfg.excludePaths,
          g.content.isSome = true →
          (∃ r, (removeMissingSongFiles
              (runFilesDb cfg none now1
                (collectAbcFiles fs cfg.libraryRoots cfg.excludePaths) db0)
              ((collectAbcFiles fs cfg.libraryRoots cfg.excludePaths).map
                (fun f => f.path))).songFiles.find?
              (fun q => q.filePath = g.path) = some r) ∧
          (∃ recs, List.Forall₂
            (partResolved (removeMissingSongFiles
              (runFilesDb cfg none now1
                (collectAbcFiles fs cfg.libraryRoots cfg.excludePaths) db0)
              ((collectAbcFiles fs cfg.libraryRoots cfg.excludePaths).map
                (fun f => f.path))).instruments)
            (parsedOf g).parts recs) := by
        intro g hg hok
        obtain ⟨r, hr, _⟩ := hdS1 g hg hok
        exact ⟨⟨r, hr⟩, hdRes g hg hok⟩
      have hrun2 := rescan_fold cfg
        (removeMissingSongFiles
          (runFilesDb cfg none now1
            (collectAbcFiles fs cfg.libraryRoots cfg.excludePaths) db0)
          ((collectAbcFiles fs cfg.libraryRoots cfg.excludePaths).map
            (fun f => f.path)))
        now2 hdPN hdFN
        (collectAbcFiles fs cfg.libraryRoots cfg.excludePaths) []
        (by simpa using hnd) hsat
      rw [run2State_nil] at hrun2
      simp only [List.nil_append] at hrun2
      refine ⟨?_, ?_, ?_, ?_⟩
      · rw [hrun2, rm_stable cfg _ _ now2 _ hPne,
          run2_erase cfg _ now2 _ hdPN hdS1 hdS2]
      · rw [hrun2, rm_stable cfg _ _ now2 _ hPne]
        simp [run2State]
      · rw [hrun2, rm_stable cfg _ _ now2 _ hPne]
        simp [run2State]
      · rw [runFilesScanned_none cfg now2, runFilesScanned_none cfg now1,
          runFilesErrors_none cfg now2, runFilesErrors_none cfg now1]

/-- A readable library file for the C1 counterexample. -/
def c1xf : FsFile :=
  ⟨["lib", "a.abc"], true, some "%%song-title A\nX: 1\n", some "1.0",
   some "h"⟩

/-- File contents matching the C1 counterexample's cataloged song. -/
def c1xcontent : String :=
  "%%song-title Reel\n%%song-composer Trad.\nX: 1\nX: 2\n"

/-- The cataloged song of the C1 counterexample's policy scenario. -/
def c1xsong : SongRow :=
  ⟨1, "Reel", "Trad.", none, none, none, none, none, none, none, 0,
   some [⟨1, none, none⟩, ⟨2, none, none⟩], "t0", "t0"⟩

/-- Its SongFile row, living outside the scanned roots. -/
def c1xold : SongFileRow :=
  ⟨1, some 1, ["keep", "old.abc"], none, none, none, false, false, false,
   "t0", "t0"⟩

/-- The populated starting catalog of the policy scenario. -/
def c1xdb : DB := ⟨[c1xsong], [c1xold], [], [], [], [], [], [], 2, 2, 1⟩

/-- A new library file sharing the cataloged song's logical identity. -/
def c1xfNew : FsFile :=
  ⟨["lib", "b.abc"], true, some c1xcontent, some "1.0", some "h2"⟩

/-- A duplicate policy whose answer depends on the catalog state: ignore
while the old row survives, file separately once it is gone. -/
def c1xpol : DupPolicy := fun db _ _ _ =>
  if db.songFiles.any (fun r => r.filePath = ["keep", "old.abc"]) then
    ("ignore", none)
  else ("separate", none)

/-- A library file whose stat mtime stringifies to the empty string. -/
def c1xfm : FsFile :=
  ⟨["lib", "m.abc"], true, some "%%song-title M\nX: 1\n", some "",
   some "h"⟩

/-- C1 counterexample: three divergences of a repeated scan refute
byte-identical idempotence as claimed. (i) `updated_at` is rewritten
with the current clock on every run, so the second run's Song rows carry
t2 where the claim requires t1. (ii) With a duplicate-resolution policy
the second run can differ from the first in row counts: a policy
answering IGNORE while an out-of-root row survives and SEPARATE once it
is gone leaves zero songs after run one but one song after run two — a
net addition. (iii) Even apart from timestamps, a file whose mtime
stringifies to `""` is stored raw by the first run's INSERT but coerced
to NULL by the second run's UPDATE (`file_mtime or None`), flipping the
`file_mtime` column between the runs. -/
theorem c1_counterexample :
    (runScan [c1xf] ⟨[["lib"]], [], []⟩ false none DB.empty
        "t1").1.songs.map (fun s => s.updatedAt) = ["t1"] ∧
    (runScan [c1xf] ⟨[["lib"]], [], []⟩ false none
        (runScan [c1xf] ⟨[["lib"]], [], []⟩ false none DB.empty "t1").1
        "t2").1.songs.map (fun s => s.updatedAt) = ["t2"] ∧
    (runScan [c1xfNew] ⟨[["lib"]], [], []⟩ false (some c1xpol) c1xdb
        "t1").1.songs.length = 0 ∧
    (runScan [c1xfNew] ⟨[["lib"]], [], []⟩ false (some c1xpol)
        (runScan [c1xfNew] ⟨[["lib"]], [], []⟩ false (some c1xpol) c1xdb
          "t1").1
        "t2").1.songs.length = 1 ∧
    (runScan [c1xfm] ⟨[["lib"]], [], []⟩ false none DB.empty
        "t1").1.songFiles.map (fun r => r.fileMtime) = [some ""] ∧
    (runScan [c1xfm] ⟨[["lib"]], [], []⟩ false none
        (runScan [c1xfm] ⟨[["lib"]], [], []⟩ false none DB.empty "t1").1
        "t2").1.songFiles.map (fun r => r.fileMtime) = [none] := by
  refine ⟨by decide, by decide, by decide, by decide, by decide, by decide⟩

/-- The populated catalog the C1 witness rescans: one song with one
in-root file already catalogued. -/
def c1wdb : DB :=
  ⟨[c1xsong],
   [⟨1, some 1, ["lib", "a.abc"], some "1.0", some "h1", none, true,
     false, false, "t0", "t0"⟩],
   [], [], [], [], [], [], 2, 2, 1⟩

/-- The C1 witness filesystem: the catalogued file unchanged on disk
plus one new file. -/
def c1wfs : List FsFile :=
  [⟨["lib", "a.abc"], true, some c1xcontent, some "1.0", some "h1"⟩,
   ⟨["lib", "c.abc"], true, some "%%song-title C\nX: 1\n", some "1.0",
    some "h3"⟩]

/-- Witness for C1 at a concrete input: an ordinary rescan over a
populated catalog satisfies every hypothesis, and the theorem applies. -/
theorem c1_scan_idempotence_witness :
    (∀ f ∈ c1wfs, f.mtime ≠ some "") ∧
    ((c1wdb.songFiles.map (fun r => r.id)).Nodup) ∧
    ((c1wdb.songFiles.map (fun r => r.filePath)).Nodup) ∧
    ((c1wdb.songs.map (fun s => s.id)).Nodup) ∧
    (∀ r ∈ c1wdb.songFiles, r.id < c1wdb.nextSongFileId) ∧
    (∀ s ∈ c1wdb.songs, s.id < c1wdb.nextSongId) ∧
    (eraseUpd (runScan c1wfs ⟨[["lib"]], [], []⟩ true none
        (runScan c1wfs ⟨[["lib"]], [], []⟩ false none c1wdb "t1").1
        "t2").1 =
      eraseUpd (runScan c1wfs ⟨[["lib"]], [], []⟩ false none c1wdb
        "t1").1 ∧
     (runScan c1wfs ⟨[["lib"]], [], []⟩ true none
        (runScan c1wfs ⟨[["lib"]], [], []⟩ false none c1wdb "t1").1
        "t2").1.songs.length =
      (runScan c1wfs ⟨[["lib"]], [], []⟩ false none c1wdb
        "t1").1.songs.length ∧
     (runScan c1wfs ⟨[["lib"]], [], []⟩ true none
        (runScan c1wfs ⟨[["lib"]], [], []⟩ false none c1wdb "t1").1
        "t2").1.songFiles.length =
      (runScan c1wfs ⟨[["lib"]], [], []⟩ false none c1wdb
        "t1").1.songFiles.length ∧
     (runScan c1wfs ⟨[["lib"]], [], []⟩ true none
        (runScan c1wfs ⟨[["lib"]], [], []⟩ false none c1wdb "t1").1
        "t2").2.1 =
      (runScan c1wfs ⟨[["lib"]], [], []⟩ false none c1wdb "t1").2.1) :=
  ⟨by decide, by decide, by decide, by decide, by decide, by decide,
   c1_scan_idempotence c1wfs ⟨[["lib"]], [], []⟩ false true c1wdb
     "t1" "t2" (by decide) (by decide) (by decide) (by decide)
     (by decide) (by decide)⟩

/-- File contents used by the C2 witness: logical identity
("reel", "Trad.", 2). -/
def c2wcontent : String :=
  "%%song-title Reel\n%%song-composer Trad.\nX: 1\nX: 2\n"

/-- The cataloged song of the C2 witness. -/
def c2wsong : SongRow :=
  ⟨1, "Reel", "Trad.", none, none, none, none, none, none, none, 0,
   some [⟨1, none, none⟩, ⟨2, none, none⟩], "t0", "t0"⟩

/-- The cataloged SongFile of the C2 witness. -/
def c2wold : SongFileRow :=
  ⟨1, some 1, ["lib", "a.abc"], none, none, none, true, false, false,
   "t0", "t0"⟩

/-- The already-cataloged file on disk. -/
def c2wfOld : FsFile :=
  ⟨["lib", "a.abc"], true, some c2wcontent, some "1.0", some "h1"⟩

/-- The new file with the same logical identity. -/
def c2wfNew : FsFile :=
  ⟨["lib", "b.abc"], true, some c2wcontent, some "2.0", some "h2"⟩

/-- Filesystem of the C2 witness: the new file enumerates first. -/
def c2wfs : List FsFile := [c2wfNew, c2wfOld]

/-- A duplicate policy electing to link to song 1. -/
def c2wpol : DupPolicy := fun _ _ _ _ => ("link", some 1)

/-- Starting catalog of the C2 witness. -/
def c2wdb : DB := ⟨[c2wsong], [c2wold], [], [], [], [], [], [], 2, 2, 1⟩

/-- Witness for C2 at a concrete input: scanning a library holding a
cataloged "Reel" file plus a new "Reel" file under a link-answering
policy leaves one song (id 1) owning both files. -/
theorem c2_duplicate_linking_witness :
    ((runScan c2wfs ⟨[["lib"]], [], []⟩ false (some c2wpol) c2wdb
      "t1").1.songs.map (fun s => s.id)) = [1] ∧
    (runScan c2wfs ⟨[["lib"]], [], []⟩ false (some c2wpol) c2wdb
      "t1").1.songFiles.length = 2 ∧
    (∀ row ∈ (runScan c2wfs ⟨[["lib"]], [], []⟩ false (some c2wpol) c2wdb
      "t1").1.songFiles, row.songId = some 1) ∧
    (runScan c2wfs ⟨[["lib"]], [], []⟩ false (some c2wpol) c2wdb
      "t1").1.songFiles.map (fun r => r.filePath) =
      [["lib", "a.abc"], ["lib", "b.abc"]] :=
  c2_duplicate_linking c2wsong c2wold [] 2 1 ⟨[["lib"]], [], []⟩ c2wfs
    c2wfOld c2wfNew c2wcontent c2wcontent c2wpol false "t1" c2wdb
    (by rfl) (by rfl) (by rfl) (by decide) (by rfl) (by rfl) (by rfl)
    (by decide) (by decide) (by rfl)

end AbcMusicManager
